import Mathlib

/-!
Verification development for the Shades storage engine.

This file gives a shallow embedding of the core of the repository:

* `crypto/prf.go` — the AES-CBC-MAC style PRF (streaming `Write`/`Sum`);
* `sse/xset.go` — the X-Set cross-tag filter;
* `sse/tset.go` — the T-Set encrypted tuple set;
* `sse/sks.go` — the single-keyword SSE scheme;
* `db/` — the page cache, page table, root block and base transactions.

External library primitives (the AES-128 block cipher from `crypto/aes` and
SHA-512 from `crypto/sha512`) are not code of this repository; they enter the
embedding as function parameters (`enc`, `aes`, `sha`), so every theorem
quantifies over them.  Bytes are modelled as `Nat` (values below 256 in all
runs), byte buffers as `List Nat`, and Go's fixed-size pages as functions
`Nat → Nat` read on `[0, pageSize)`.
-/

set_option maxHeartbeats 1600000
set_option maxRecDepth 8192

namespace Shades

/-- A byte string; the PRF works on 16-byte (aes.BlockSize) blocks. -/
abbrev Block := List Nat

/-! ## PRF (crypto/prf.go)

The Go `PRF` struct holds an AES cipher plus the mutable fields
`round`, `inputOfs`, `input`, `output`.  The cipher is the parameter `enc`.
-/

/-- The mutable state of `crypto.PRF`: CBC round counter, fill offset of the
input buffer, the 16-byte input buffer and the 16-byte output buffer. -/
structure PRFState where
  round : Nat
  inputOfs : Nat
  input : Block
  output : Block
deriving Repr, DecidableEq

/-- State of a freshly constructed PRF (`crypto.NewPRF`): both buffers are
allocated zeroed, counters are zero. -/
def PRFState.init : PRFState :=
  ⟨0, 0, List.replicate 16 0, List.replicate 16 0⟩

/-- One byte of `PRF.Write` (crypto/prf.go): the byte lands at `inputOfs` in
the input buffer; when the buffer fills, it is XORed with the previous output
block (CBC chaining, from round 1 on) and encrypted into the output buffer.
The Go loop copies chunks with `copy`, which feeds the buffer in exactly this
byte order. -/
def prfWriteByte (enc : Block → Block) (s : PRFState) (b : Nat) : PRFState :=
  if 16 ≤ s.inputOfs + 1 then
    if 0 < s.round then
      ⟨s.round + 1, 0, List.zipWith Nat.xor (s.input.set s.inputOfs b) s.output,
        enc (List.zipWith Nat.xor (s.input.set s.inputOfs b) s.output)⟩
    else
      ⟨s.round + 1, 0, s.input.set s.inputOfs b, enc (s.input.set s.inputOfs b)⟩
  else
    ⟨s.round, s.inputOfs + 1, s.input.set s.inputOfs b, s.output⟩

/-- `PRF.Write` over a whole byte sequence. -/
def prfWrite (enc : Block → Block) (s : PRFState) (p : List Nat) : PRFState :=
  p.foldl (prfWriteByte enc) s

/-- The state after `PRF.Sum`'s zero padding: a pending partial block is
zero-filled to 16 bytes and those zero bytes are written. -/
def prfPad (enc : Block → Block) (s : PRFState) : PRFState :=
  if 0 < s.inputOfs
  then prfWrite enc s (List.replicate (16 - s.inputOfs) 0) else s

/-- `PRF.Sum` (crypto/prf.go): pad and process a pending partial block, then
`Reset` zeroes `round` and `inputOfs`; the digest is the output buffer
(appended to the caller's slice in Go).  Returns digest and post state. -/
def prfSum (enc : Block → Block) (s : PRFState) : Block × PRFState :=
  ((prfPad enc s).output, ⟨0, 0, (prfPad enc s).input, (prfPad enc s).output⟩)

/-- `PRF.Data`: `Write` the data, then `Sum`. -/
def prfData (enc : Block → Block) (s : PRFState) (d : List Nat) :
    Block × PRFState :=
  prfSum enc (prfWrite enc s d)

/-- Big-endian byte encoding of a 64-bit value
(`encoding/binary` BigEndian.PutUint64). -/
def u64be (v : Nat) : List Nat :=
  [v / 2 ^ 56 % 256, v / 2 ^ 48 % 256, v / 2 ^ 40 % 256, v / 2 ^ 32 % 256,
   v / 2 ^ 24 % 256, v / 2 ^ 16 % 256, v / 2 ^ 8 % 256, v % 256]

/-- `PRF.Int`: a zeroed 16-byte `ID` buffer receives the big-endian integer in
its first 8 bytes and is written and summed. -/
def prfInt (enc : Block → Block) (s : PRFState) (i : Nat) : Block × PRFState :=
  prfData enc s (u64be i ++ List.replicate 8 0)

/-- Digest of a fresh PRF instance over one input (`NewPRF`, `Write`, `Sum`). -/
def prfDataF (enc : Block → Block) (d : List Nat) : Block :=
  (prfData enc PRFState.init d).1

/-- Well-formed PRF state: the buffers are 16 bytes long and the fill offset
is inside the input buffer, as crypto/prf.go maintains. -/
def PRFWF (s : PRFState) : Prop :=
  s.inputOfs < 16 ∧ s.input.length = 16 ∧ s.output.length = 16

/-- Two PRF states that behave identically for all future operations: same
counters, same filled prefix of the input buffer, and (once a block has been
encrypted) the same output buffer. -/
def PRFEquiv (s t : PRFState) : Prop :=
  s.round = t.round ∧ s.inputOfs = t.inputOfs ∧
  s.input.take s.inputOfs = t.input.take t.inputOfs ∧
  (0 < s.round → s.output = t.output)

theorem PRFWF.init : PRFWF PRFState.init :=
  ⟨by norm_num [PRFState.init], by simp [PRFState.init], by simp [PRFState.init]⟩

theorem prfWriteByte_wf {enc : Block → Block}
    (henc : ∀ b : Block, (enc b).length = b.length)
    {s : PRFState} (hs : PRFWF s) (b : Nat) : PRFWF (prfWriteByte enc s b) := by
  obtain ⟨h1, h2, h3⟩ := hs
  unfold prfWriteByte
  by_cases h : 16 ≤ s.inputOfs + 1
  · rw [if_pos h]
    by_cases hr : 0 < s.round
    · rw [if_pos hr]
      refine ⟨by norm_num, ?_, ?_⟩
      · show (List.zipWith Nat.xor (s.input.set s.inputOfs b) s.output).length = 16
        simp [h2, h3]
      · show (enc (List.zipWith Nat.xor (s.input.set s.inputOfs b) s.output)).length = 16
        rw [henc]; simp [h2, h3]
    · rw [if_neg hr]
      refine ⟨by norm_num, ?_, ?_⟩
      · show (s.input.set s.inputOfs b).length = 16
        simp [h2]
      · show (enc (s.input.set s.inputOfs b)).length = 16
        rw [henc]; simp [h2]
  · rw [if_neg h]
    refine ⟨?_, ?_, ?_⟩
    · show s.inputOfs + 1 < 16; omega
    · show (s.input.set s.inputOfs b).length = 16; simp [h2]
    · exact h3

theorem prfWrite_wf {enc : Block → Block}
    (henc : ∀ b : Block, (enc b).length = b.length)
    {s : PRFState} (hs : PRFWF s) (p : List Nat) : PRFWF (prfWrite enc s p) := by
  induction p generalizing s with
  | nil => exact hs
  | cons a p ih => exact ih (prfWriteByte_wf henc hs a)

/-- Total number of bytes absorbed since the last reset. -/
def prfCount (s : PRFState) : Nat := 16 * s.round + s.inputOfs

theorem prfWriteByte_count {enc : Block → Block} {s : PRFState}
    (hs : s.inputOfs < 16) (b : Nat) :
    prfCount (prfWriteByte enc s b) = prfCount s + 1 := by
  unfold prfWriteByte prfCount
  by_cases h : 16 ≤ s.inputOfs + 1
  · rw [if_pos h]
    by_cases hr : 0 < s.round
    · rw [if_pos hr]
      show 16 * (s.round + 1) + 0 = 16 * s.round + s.inputOfs + 1
      omega
    · rw [if_neg hr]
      show 16 * (s.round + 1) + 0 = 16 * s.round + s.inputOfs + 1
      omega
  · rw [if_neg h]
    show 16 * s.round + (s.inputOfs + 1) = 16 * s.round + s.inputOfs + 1
    omega

theorem prfWrite_count {enc : Block → Block}
    (henc : ∀ b : Block, (enc b).length = b.length)
    {s : PRFState} (hs : PRFWF s) (p : List Nat) :
    prfCount (prfWrite enc s p) = prfCount s + p.length := by
  induction p generalizing s with
  | nil => rfl
  | cons a p ih =>
    have h1 := ih (prfWriteByte_wf henc hs a)
    have hc := @prfWriteByte_count enc _ hs.1 a
    simp only [prfWrite, List.foldl_cons, List.length_cons] at *
    omega

theorem take_succ_set_self (a : List Nat) (k x : Nat) (h : k < a.length) :
    (a.set k x).take (k + 1) = a.take k ++ [x] := by
  induction a generalizing k with
  | nil => simp at h
  | cons y l ih =>
    cases k with
    | zero => simp
    | succ k =>
      simp only [List.set, List.take_succ_cons, List.cons_append,
        List.cons.injEq, true_and]
      exact ih _ (by simpa using h)

theorem take_set_eq_of_take_eq {a b : List Nat} {k x : Nat}
    (h : a.take k = b.take k) (ha : k < a.length) (hb : k < b.length) :
    (a.set k x).take (k + 1) = (b.set k x).take (k + 1) := by
  rw [take_succ_set_self _ _ _ ha, take_succ_set_self _ _ _ hb, h]

theorem set_eq_of_take_eq {a b : List Nat} {k x : Nat}
    (h : a.take k = b.take k) (ha : a.length = k + 1) (hb : b.length = k + 1) :
    a.set k x = b.set k x := by
  have h1 : (a.set k x).take (k + 1) = (b.set k x).take (k + 1) :=
    take_set_eq_of_take_eq h (by omega) (by omega)
  rwa [List.take_of_length_le (by simp [ha]),
    List.take_of_length_le (by simp [hb])] at h1

theorem PRFEquiv.refl (s : PRFState) : PRFEquiv s s :=
  ⟨rfl, rfl, rfl, fun _ => rfl⟩

theorem prfWriteByte_equiv {enc : Block → Block} {s t : PRFState}
    (hs : PRFWF s) (ht : PRFWF t) (h : PRFEquiv s t) (b : Nat) :
    PRFEquiv (prfWriteByte enc s b) (prfWriteByte enc t b) := by
  obtain ⟨hs1, hs2, hs3⟩ := hs
  obtain ⟨ht1, ht2, ht3⟩ := ht
  obtain ⟨hr, ho, hi, hout⟩ := h
  unfold prfWriteByte
  by_cases hfull : 16 ≤ s.inputOfs + 1
  · have hofs : s.inputOfs = 15 := by omega
    have hofs' : t.inputOfs = 15 := by omega
    rw [hofs, hofs'] at hi
    have hset : s.input.set s.inputOfs b = t.input.set t.inputOfs b := by
      rw [hofs, hofs']
      exact set_eq_of_take_eq hi (by omega) (by omega)
    rw [if_pos hfull, if_pos (show 16 ≤ t.inputOfs + 1 by omega)]
    by_cases hr0 : 0 < s.round
    · rw [if_pos hr0, if_pos (show 0 < t.round by omega), hset, hr, hout hr0]
      exact PRFEquiv.refl _
    · rw [if_neg hr0, if_neg (show ¬ 0 < t.round by omega), hset, hr]
      exact PRFEquiv.refl _
  · rw [if_neg hfull, if_neg (show ¬ 16 ≤ t.inputOfs + 1 by omega)]
    refine ⟨hr, show s.inputOfs + 1 = t.inputOfs + 1 by omega, ?_, hout⟩
    show (s.input.set s.inputOfs b).take (s.inputOfs + 1)
      = (t.input.set t.inputOfs b).take (t.inputOfs + 1)
    rw [ho] at hi ⊢
    exact take_set_eq_of_take_eq hi (by omega) (by omega)

theorem prfWrite_equiv {enc : Block → Block}
    (henc : ∀ b : Block, (enc b).length = b.length)
    {s t : PRFState} (hs : PRFWF s) (ht : PRFWF t) (h : PRFEquiv s t)
    (p : List Nat) : PRFEquiv (prfWrite enc s p) (prfWrite enc t p) := by
  induction p generalizing s t with
  | nil => exact h
  | cons a p ih =>
    exact ih (prfWriteByte_wf henc hs a) (prfWriteByte_wf henc ht a)
      (prfWriteByte_equiv hs ht h a)

theorem prfSum_digest_equiv {enc : Block → Block}
    (henc : ∀ b : Block, (enc b).length = b.length)
    {s t : PRFState} (hs : PRFWF s) (ht : PRFWF t) (h : PRFEquiv s t)
    (hne : 0 < s.round ∨ 0 < s.inputOfs) :
    (prfSum enc s).1 = (prfSum enc t).1 := by
  have hslt := hs.1
  obtain ⟨hr, ho, hi, hout⟩ := h
  show (prfPad enc s).output = (prfPad enc t).output
  unfold prfPad
  by_cases hofs : 0 < s.inputOfs
  · rw [if_pos hofs, if_pos (show 0 < t.inputOfs by omega), ← ho]
    have hequiv := prfWrite_equiv henc hs ht ⟨hr, ho, hi, hout⟩
      (List.replicate (16 - s.inputOfs) 0)
    have hcnt := prfWrite_count henc hs (List.replicate (16 - s.inputOfs) 0)
    have hwf := prfWrite_wf henc hs (List.replicate (16 - s.inputOfs) 0)
    refine hequiv.2.2.2 ?_
    have h1 := hwf.1
    simp only [prfCount, List.length_replicate] at hcnt
    omega
  · rw [if_neg hofs, if_neg (show ¬ 0 < t.inputOfs by omega)]
    exact hout (hne.resolve_right hofs)

/-- After `prfData` the state is reset, with the digest retained in the
output buffer. -/
theorem prfData_snd_reset {enc : Block → Block} {s : PRFState} (d : List Nat) :
    (prfData enc s d).2.round = 0 ∧ (prfData enc s d).2.inputOfs = 0 ∧
    (prfData enc s d).2.output = (prfData enc s d).1 :=
  ⟨rfl, rfl, rfl⟩

theorem equiv_init_of_reset {s : PRFState} (hr : s.round = 0)
    (ho : s.inputOfs = 0) : PRFEquiv PRFState.init s := by
  refine ⟨hr.symm, ho.symm, ?_, ?_⟩
  · simp [ho, PRFState.init]
  · intro h; simp [PRFState.init] at h

/-- Workhorse: from any reset well-formed state, `Data` of a non-empty input
produces the fresh-instance digest. -/
theorem prfData_of_reset {enc : Block → Block}
    (henc : ∀ b : Block, (enc b).length = b.length)
    {s : PRFState} (hs : PRFWF s) (hr : s.round = 0) (ho : s.inputOfs = 0)
    {d : List Nat} (hd : d ≠ []) :
    (prfData enc s d).1 = prfDataF enc d := by
  have hwinit := prfWrite_wf henc PRFWF.init d
  have hws := prfWrite_wf henc hs d
  have hequiv : PRFEquiv (prfWrite enc PRFState.init d) (prfWrite enc s d) :=
    prfWrite_equiv henc PRFWF.init hs (equiv_init_of_reset hr ho) d
  have hne : 0 < (prfWrite enc PRFState.init d).round ∨
      0 < (prfWrite enc PRFState.init d).inputOfs := by
    have hcnt0 := @prfWrite_count enc henc _ PRFWF.init d
    have hinit : prfCount PRFState.init = 0 := rfl
    have hd' : d.length ≠ 0 := by simpa using hd
    simp only [prfCount] at hcnt0 hinit
    omega
  exact (prfSum_digest_equiv henc hwinit hws hequiv hne).symm

theorem prfData_wf_snd {enc : Block → Block}
    (henc : ∀ b : Block, (enc b).length = b.length)
    {s : PRFState} (hs : PRFWF s) (d : List Nat) :
    PRFWF (prfData enc s d).2 := by
  have h1 := prfWrite_wf henc hs d
  have h2 : PRFWF (prfPad enc (prfWrite enc s d)) := by
    unfold prfPad; split
    · exact prfWrite_wf henc h1 _
    · exact h1
  refine ⟨?_, ?_, ?_⟩
  · show (0 : Nat) < 16; norm_num
  · exact h2.2.1
  · exact h2.2.2

/-- Writing a concatenation equals writing the pieces one after the other. -/
theorem prfWrite_join (enc : Block → Block) (s : PRFState)
    (chunks : List (List Nat)) :
    prfWrite enc s chunks.flatten = chunks.foldl (prfWrite enc) s := by
  induction chunks generalizing s with
  | nil => rfl
  | cons a l ih =>
    simp only [List.flatten, List.foldl_cons, ← ih]
    simp [prfWrite, List.foldl_append]

/-- C6: for every block cipher instance (16-byte key) the PRF digest does not
depend on how the input is split across `Write` calls, and — because `Sum`
resets the PRF — a single instance fed the same input again right after a
`Sum` produces the same `Sum` again. -/
theorem prf_deterministic (enc : Block → Block)
    (henc : ∀ b : Block, (enc b).length = b.length)
    (chunks : List (List Nat)) (x : List Nat) :
    (prfData enc PRFState.init chunks.flatten).1
      = (prfSum enc (chunks.foldl (prfWrite enc) PRFState.init)).1
    ∧ (prfData enc (prfData enc PRFState.init x).2 x).1
      = (prfData enc PRFState.init x).1 := by
  constructor
  · unfold prfData
    rw [prfWrite_join]
  · obtain ⟨hr, ho, hout⟩ := @prfData_snd_reset enc PRFState.init x
    rcases eq_or_ne x [] with hx | hx
    · subst hx
      have h0 : (prfData enc PRFState.init []).2.inputOfs = 0 := rfl
      show (prfPad enc (prfWrite enc (prfData enc PRFState.init []).2 [])).output = _
      simp only [prfWrite, List.foldl_nil]
      unfold prfPad
      rw [if_neg (by rw [h0]; omega)]
      exact hout
    · have hwf2 := prfData_wf_snd henc PRFWF.init x
      exact prfData_of_reset henc hwf2 hr ho hx

/-- Witness for C6 at a concrete cipher and concrete inputs. -/
theorem prf_deterministic_witness :
    (prfData (fun b => b) PRFState.init ([[1, 2], [3]]).flatten).1
      = (prfSum (fun b => b) (([[1, 2], [3]]).foldl (prfWrite (fun b => b))
          PRFState.init)).1
    ∧ (prfData (fun b => b)
        (prfData (fun b => b) PRFState.init [7, 7, 7]).2 [7, 7, 7]).1
      = (prfData (fun b => b) PRFState.init [7, 7, 7]).1 :=
  prf_deterministic (fun b => b) (fun _ => rfl) [[1, 2], [3]] [7, 7, 7]

/-- C9: a second `Sum` with no intervening `Write` returns the retained output
block — the digest just produced — again, for any input written so far. -/
theorem prf_sum_twice (enc : Block → Block) (x : List Nat) :
    (prfSum enc (prfData enc PRFState.init x).2).1
      = (prfData enc PRFState.init x).1 := by
  have h0 : (prfData enc PRFState.init x).2.inputOfs = 0 := rfl
  show (prfPad enc (prfData enc PRFState.init x).2).output = _
  unfold prfPad
  rw [if_neg (by rw [h0]; omega)]
  rfl

/-! ## X-Set (sse/xset.go) -/

/-- Big-endian 32-bit value from the first four bytes
(`binary.BigEndian.Uint32`; for byte values the Go shift-or is this sum). -/
def beU32 (l : List Nat) : Nat :=
  l.getD 0 0 * 2 ^ 24 + l.getD 1 0 * 2 ^ 16 + l.getD 2 0 * 2 ^ 8 + l.getD 3 0

/-- The X-Set: buckets of 16-byte xtag blobs (sse/xset.go). -/
structure XSet where
  base : List (List (List Nat))
deriving Repr, DecidableEq

/-- `NewXSet` (sse/xset.go): `make([][][]byte, n/4)` — Go integer division,
with no minimum bucket count. -/
def NewXSet (n : Nat) : XSet :=
  ⟨List.replicate (n / 4) []⟩

/-- `XSet.hash`: first four tag bytes, big-endian, modulo the bucket count.
(Go divides by `len(xset.base)` and panics when that is zero; Lean's `% 0`
is the identity, and the following bucket access would equally fail.) -/
def xsetHash (x : XSet) (data : List Nat) : Nat :=
  beU32 data % x.base.length

/-- `XSet.Add`: append the tag to its bucket. -/
def XSet.add (x : XSet) (data : List Nat) : XSet :=
  ⟨x.base.modify (fun l => l ++ [data]) (xsetHash x data)⟩

/-- `XSet.Lookup`: true iff the tag is byte-equal to a member of its bucket. -/
def XSet.lookup (x : XSet) (data : List Nat) : Bool :=
  (x.base.getD (xsetHash x data) []).any (fun t => t = data)

/-- C7 counterexample: `NewXSet 3` allocates `3/4 = 0` buckets, not
`ceil(3/4) = 1` and not at least one. -/
theorem newXSet_not_ceil :
    ¬ ((NewXSet 3).base.length = (3 + 3) / 4 ∧ 1 ≤ (NewXSet 3).base.length) := by
  decide

/-- C7 (amended): `NewXSet n` allocates `n / 4` (floor) buckets; for `n ≥ 4`
that is at least one bucket, so the bucket index used by `Add` and `Lookup`
is in range for every tag. -/
theorem newXSet_buckets (n : Nat) (hn : 4 ≤ n) :
    (NewXSet n).base.length = n / 4 ∧ 1 ≤ (NewXSet n).base.length ∧
    ∀ tag : List Nat, xsetHash (NewXSet n) tag < (NewXSet n).base.length := by
  have hlen : (NewXSet n).base.length = n / 4 := by
    simp [NewXSet]
  refine ⟨hlen, ?_, fun tag => ?_⟩
  · rw [hlen]; omega
  · show beU32 tag % (NewXSet n).base.length < (NewXSet n).base.length
    exact Nat.mod_lt _ (by rw [hlen]; omega)

/-- Witness for the amended C7 at `n = 17`. -/
theorem newXSet_buckets_witness :
    (NewXSet 17).base.length = 17 / 4 ∧ 1 ≤ (NewXSet 17).base.length ∧
    ∀ tag : List Nat, xsetHash (NewXSet 17) tag < (NewXSet 17).base.length :=
  newXSet_buckets 17 (by norm_num)

/-! ## T-Set (sse/tset.go)

The SHA-512 of `TSet.hash` is the parameter `sha`; AES keyed by a byte string
is the parameter `aes` (key → block cipher).  The `sse.NewPRF` instances are
`PRFState`s threaded explicitly; every call site in tset.go passes an empty
append target to `Sum`, where the two sse PRF variants in the repository
coincide with the `prfData`/`prfSum` semantics embedded above. -/

/-- SSE error kinds. -/
inductive SSEErr
  | notFound
  | fuel
  | badQuery
deriving Repr, DecidableEq

deriving instance DecidableEq for Except

/-- One T-Set record: 16-byte label and 17-byte masked value. -/
structure TRecord where
  label : List Nat
  value : List Nat
deriving Repr, DecidableEq

/-- The T-Set: buckets of records, the key `kt`, and the state of the shared
PRF instance keyed by `kt`. -/
structure TSet where
  records : List (List TRecord)
  kt : List Nat
  prfF : PRFState
deriving Repr, DecidableEq

/-- `TSet.hash`: SHA-512 of the data; bucket index from the first four digest
bytes modulo the bucket count, a 16-byte label from bytes [4,20), and a
17-byte one-time pad from bytes [20,37). -/
def tsetHash (sha : List Nat → List Nat) (n : Nat) (data : List Nat) :
    Nat × List Nat × List Nat :=
  (beU32 ((sha data).take 4) % n, ((sha data).drop 4).take 16,
    ((sha data).drop 20).take 17)

/-- One entry `(i, si)` of keyword `w` in `TSetSetup`: `ilambda` from the
stag-keyed PRF over the 16-byte index block, bucket/label/pad from
`TSet.hash`, `beta = 0xff` on all but the last entry, value masked with the
pad, record appended to its bucket. -/
def tsetAddRecord (aes : List Nat → Block → Block) (sha : List Nat → List Nat)
    (stag : List Nat) (tlen : Nat) (recs : List (List TRecord))
    (st : PRFState) (i : Nat) (si : List Nat) :
    List (List TRecord) × PRFState :=
  let r := prfData (aes stag) st (u64be i ++ List.replicate 8 0)
  let h := tsetHash sha recs.length r.1
  let beta : Nat := if i + 1 < tlen then 255 else 0
  let value := List.zipWith Nat.xor (beta :: si) h.2.2
  (recs.modify (fun l => l ++ [⟨h.2.1, value⟩]) h.1, r.2)

/-- One keyword of `TSetSetup`: stag from the shared `kt` PRF, then all
entries of `t` with a fresh stag-keyed PRF instance. -/
def tsetAddKeyword (aes : List Nat → Block → Block)
    (sha : List Nat → List Nat) (kt : List Nat)
    (rp : List (List TRecord) × PRFState)
    (w : List Nat) (t : List (List Nat)) :
    List (List TRecord) × PRFState :=
  let g := prfData (aes kt) rp.2 w
  let inner := t.enum.foldl
    (fun (acc : List (List TRecord) × PRFState) p =>
      tsetAddRecord aes sha g.1 t.length acc.1 acc.2 p.1 p.2)
    (rp.1, PRFState.init)
  (inner.1, g.2)

/-- `TSetSetup` (sse/tset.go): bucket count `b = count/2`, or `count` when
that is zero; then per-keyword records.  `kt` is the random key drawn by the
source and a parameter here; the soft bucket-overflow warning only prints. -/
def TSetSetup (aes : List Nat → Block → Block) (sha : List Nat → List Nat)
    (kt : List Nat) (T : List (List Nat × List (List Nat))) : TSet :=
  let count := (T.map (fun p => p.2.length)).sum
  let b := if count / 2 = 0 then count else count / 2
  let r := T.foldl (fun acc p => tsetAddKeyword aes sha kt acc p.1 p.2)
    (List.replicate b [], PRFState.init)
  ⟨r.1, kt, r.2⟩

/-- `TSet.GetTag`: stag = F(kt, w) computed on the shared, stateful PRF
instance, whose new state is part of the returned T-Set. -/
def TSet.getTag (aes : List Nat → Block → Block) (ts : TSet) (w : List Nat) :
    List Nat × TSet :=
  let g := prfData (aes ts.kt) ts.prfF w
  (g.1, ⟨ts.records, ts.kt, g.2⟩)

/-- The bucket scan of one `TSet.Retrieve` step: every record whose label
matches contributes its unmasked ID, `found` records any match, and `beta`
is taken from the last matching record (the Go loop overwrites it). -/
def tsetScan (K L : List Nat) : List TRecord → Bool × Nat × List (List Nat)
  | [] => (false, 0, [])
  | r :: rest =>
    if r.label = L then
      let v := List.zipWith Nat.xor r.value K
      let s := tsetScan K L rest
      (true, if s.1 then s.2.1 else v.getD 0 0, v.drop 1 :: s.2.2)
    else tsetScan K L rest

/-- One step of the `TSet.Retrieve` loop: `ilambda` from the stag-keyed PRF,
bucket/label/pad from `TSet.hash`, and the bucket scan.  Returns the PRF
state followed by the scan result. -/
def tsetStep (aes : List Nat → Block → Block) (sha : List Nat → List Nat)
    (records : List (List TRecord)) (stag : List Nat) (i : Nat)
    (st : PRFState) : PRFState × Bool × Nat × List (List Nat) :=
  let r := prfData (aes stag) st (u64be i ++ List.replicate 8 0)
  let h := tsetHash sha records.length r.1
  (r.2, tsetScan h.2.2 h.2.1 (records.getD h.1 []))

/-- The retrieval loop of `TSet.Retrieve` with explicit fuel: the Go loop
runs while `beta ≠ 0` and has no intrinsic bound; `.error .fuel` stands for
the runs the model cannot unfold. -/
def tsetRetrieveLoop (aes : List Nat → Block → Block)
    (sha : List Nat → List Nat) (records : List (List TRecord))
    (stag : List Nat) :
    Nat → Nat → PRFState → List (List Nat) → Except SSEErr (List (List Nat))
  | 0, _, _, _ => .error .fuel
  | fuel + 1, i, st, acc =>
    if (tsetStep aes sha records stag i st).2.1 then
      if (tsetStep aes sha records stag i st).2.2.1 ≠ 0 then
        tsetRetrieveLoop aes sha records stag fuel (i + 1)
          (tsetStep aes sha records stag i st).1
          (acc ++ (tsetStep aes sha records stag i st).2.2.2)
      else .ok (acc ++ (tsetStep aes sha records stag i st).2.2.2)
    else .error .notFound

/-- `TSet.Retrieve`: loop from `i = 0` with a fresh stag-keyed PRF. -/
def TSet.retrieve (aes : List Nat → Block → Block)
    (sha : List Nat → List Nat) (ts : TSet) (stag : List Nat) (fuel : Nat) :
    Except SSEErr (List (List Nat)) :=
  tsetRetrieveLoop aes sha ts.records stag fuel 0 PRFState.init []

/-! ### Derived quantities of the T-Set construction

Between any two `Data` calls the shared PRF instances sit in a reset,
well-formed state, so each digest of a non-empty input is the fresh-instance
digest.  The following definitions give those fresh-instance values and the
record each `(keyword, index)` entry contributes; they organize the proofs
and are not part of the source embedding. -/

/-- Reset, well-formed PRF state: how every PRF instance looks between two
`Data`/`Sum` calls. -/
def ResetWF (s : PRFState) : Prop :=
  s.round = 0 ∧ s.inputOfs = 0 ∧ PRFWF s

theorem resetWF_init : ResetWF PRFState.init := ⟨rfl, rfl, PRFWF.init⟩

theorem ResetWF.data {enc : Block → Block}
    (henc : ∀ b : Block, (enc b).length = b.length)
    {s : PRFState} (hs : ResetWF s) (d : List Nat) :
    ResetWF (prfData enc s d).2 :=
  ⟨rfl, rfl, prfData_wf_snd henc hs.2.2 d⟩

theorem ResetWF.digest {enc : Block → Block}
    (henc : ∀ b : Block, (enc b).length = b.length)
    {s : PRFState} (hs : ResetWF s) {d : List Nat} (hd : d ≠ []) :
    (prfData enc s d).1 = prfDataF enc d :=
  prfData_of_reset henc hs.2.2 hs.1 hs.2.1 hd

/-- The stag a fresh (or reset) `kt`-keyed PRF assigns to keyword `w`. -/
def stagOf (aes : List Nat → Block → Block) (kt w : List Nat) : List Nat :=
  prfDataF (aes kt) w

/-- The `ilambda` value of entry `i` under a stag. -/
def ilambdaOf (aes : List Nat → Block → Block) (stag : List Nat) (i : Nat) :
    List Nat :=
  prfDataF (aes stag) (u64be i ++ List.replicate 8 0)

/-- Bucket index, label and pad of entry `i` under a stag, with `b` buckets. -/
def entryHash (aes : List Nat → Block → Block) (sha : List Nat → List Nat)
    (b : Nat) (stag : List Nat) (i : Nat) : Nat × List Nat × List Nat :=
  tsetHash sha b (ilambdaOf aes stag i)

/-- The record entry `i` of a length-`tlen` tuple list contributes. -/
def entryRec (aes : List Nat → Block → Block) (sha : List Nat → List Nat)
    (b : Nat) (stag : List Nat) (tlen i : Nat) (si : List Nat) : TRecord :=
  ⟨(entryHash aes sha b stag i).2.1,
   List.zipWith Nat.xor ((if i + 1 < tlen then 255 else 0) :: si)
     (entryHash aes sha b stag i).2.2⟩

/-- Bucketed records of the entries `i₀, i₀+1, …` of a tuple-list suffix. -/
def keyEntriesFrom (aes : List Nat → Block → Block)
    (sha : List Nat → List Nat) (b : Nat) (stag : List Nat) (tlen i₀ : Nat)
    (l : List (List Nat)) : List (Nat × TRecord) :=
  (l.enumFrom i₀).map (fun q =>
    ((entryHash aes sha b stag q.1).1, entryRec aes sha b stag tlen q.1 q.2))

/-- All bucketed records of a T-Set input, in insertion order. -/
def allEntries (aes : List Nat → Block → Block) (sha : List Nat → List Nat)
    (b : Nat) (kt : List Nat) (T : List (List Nat × List (List Nat))) :
    List (Nat × TRecord) :=
  T.flatMap (fun p =>
    keyEntriesFrom aes sha b (stagOf aes kt p.1) p.2.length 0 p.2)

/-- The bucket count `TSetSetup` chooses. -/
def tsetB (T : List (List Nat × List (List Nat))) : Nat :=
  let count := (T.map (fun p => p.2.length)).sum
  if count / 2 = 0 then count else count / 2

/-- The labels of all records a T-Set input produces.  The round-trip
theorems assume these are pairwise distinct — with the real SHA-512 a
violation would be a hash collision. -/
def tsetLabels (aes : List Nat → Block → Block) (sha : List Nat → List Nat)
    (kt : List Nat) (T : List (List Nat × List (List Nat))) : List (List Nat) :=
  (allEntries aes sha (tsetB T) kt T).map (fun e => e.2.label)

/-- Append each record to its bucket, in order. -/
def insertEntries (es : List (Nat × TRecord)) (rs : List (List TRecord)) :
    List (List TRecord) :=
  es.foldl (fun r e => List.modify (fun l => l ++ [e.2]) e.1 r) rs

theorem insertEntries_append (a b : List (Nat × TRecord))
    (rs : List (List TRecord)) :
    insertEntries (a ++ b) rs = insertEntries b (insertEntries a rs) :=
  List.foldl_append _ _ _ _

theorem insertEntries_length (es : List (Nat × TRecord))
    (rs : List (List TRecord)) : (insertEntries es rs).length = rs.length := by
  induction es generalizing rs with
  | nil => rfl
  | cons e es ih =>
    show (insertEntries es _).length = _
    rw [ih, List.length_modify]

theorem modify_getD (f : List TRecord → List TRecord) (n : Nat)
    (rs : List (List TRecord)) (hn : n < rs.length) (j : Nat) :
    (List.modify f n rs).getD j [] =
      if n = j then f (rs.getD j []) else rs.getD j [] := by
  rcases Nat.lt_or_ge j rs.length with hj | hj
  · rw [List.getD_eq_getElem?_getD, List.getD_eq_getElem?_getD,
      List.getElem?_modify, List.getElem?_eq_getElem hj]
    by_cases h : n = j <;> simp [h]
  · rw [List.getD_eq_getElem?_getD, List.getD_eq_getElem?_getD,
      List.getElem?_modify]
    rw [List.getElem?_eq_none (by simpa using hj)]
    rw [if_neg (by omega)]
    rfl

theorem insertEntries_getD (es : List (Nat × TRecord)) :
    ∀ rs : List (List TRecord), (∀ e ∈ es, e.1 < rs.length) → ∀ j,
    (insertEntries es rs).getD j [] =
      rs.getD j [] ++ (es.filter (fun e => decide (e.1 = j))).map
        (fun e => e.2) := by
  induction es with
  | nil => intro rs _ j; simp [insertEntries]
  | cons e es ih =>
    intro rs hb j
    have he : e.1 < rs.length := hb e (by simp)
    have hstep : insertEntries (e :: es) rs
        = insertEntries es (List.modify (fun l => l ++ [e.2]) e.1 rs) := rfl
    rw [hstep, ih _ (fun x hx => by
      rw [List.length_modify]; exact hb x (by simp [hx])) j]
    rw [modify_getD _ _ _ he j]
    by_cases h : e.1 = j
    · simp [h, List.filter_cons]
    · simp [h, List.filter_cons]

theorem tsetInner_char (aes : List Nat → Block → Block)
    (sha : List Nat → List Nat)
    (haes : ∀ k (bl : Block), (aes k bl).length = bl.length)
    (stag : List Nat) (tlen b : Nat) :
    ∀ (l : List (List Nat)) (i₀ : Nat) (recs : List (List TRecord))
      (st : PRFState), recs.length = b → ResetWF st →
    ((l.enumFrom i₀).foldl
        (fun (acc : List (List TRecord) × PRFState) p =>
          tsetAddRecord aes sha stag tlen acc.1 acc.2 p.1 p.2) (recs, st)).1
      = insertEntries (keyEntriesFrom aes sha b stag tlen i₀ l) recs := by
  intro l
  induction l with
  | nil => intro i₀ recs st hb hst; rfl
  | cons x l ih =>
    intro i₀ recs st hb hst
    have hdig : (prfData (aes stag) st (u64be i₀ ++ List.replicate 8 0)).1
        = ilambdaOf aes stag i₀ := hst.digest (haes stag) (by simp [u64be])
    have harg : tsetAddRecord aes sha stag tlen recs st i₀ x
        = (List.modify (fun bl => bl ++ [entryRec aes sha b stag tlen i₀ x])
            (entryHash aes sha b stag i₀).1 recs,
          (prfData (aes stag) st (u64be i₀ ++ List.replicate 8 0)).2) := by
      simp only [tsetAddRecord, hdig, hb, entryHash, entryRec]
    rw [List.enumFrom_cons, List.foldl_cons, harg]
    rw [ih (i₀ + 1) _ _ (by rw [List.length_modify]; exact hb)
      (hst.data (haes stag) _)]
    rfl

theorem tsetOuter_char (aes : List Nat → Block → Block)
    (sha : List Nat → List Nat)
    (haes : ∀ k (bl : Block), (aes k bl).length = bl.length)
    (kt : List Nat) (b : Nat) :
    ∀ (T : List (List Nat × List (List Nat))) (recs : List (List TRecord))
      (st : PRFState), recs.length = b → ResetWF st → (∀ p ∈ T, p.1 ≠ []) →
    (T.foldl (fun acc p => tsetAddKeyword aes sha kt acc p.1 p.2)
        (recs, st)).1
      = insertEntries (T.flatMap (fun p =>
          keyEntriesFrom aes sha b (stagOf aes kt p.1) p.2.length 0 p.2)) recs
    ∧ ResetWF (T.foldl (fun acc p => tsetAddKeyword aes sha kt acc p.1 p.2)
        (recs, st)).2 := by
  intro T
  induction T with
  | nil =>
    intro recs st hb hst _
    exact ⟨by simp [insertEntries], hst⟩
  | cons p T ih =>
    intro recs st hb hst hw
    have hstag : (prfData (aes kt) st p.1).1 = stagOf aes kt p.1 :=
      hst.digest (haes kt) (hw p (by simp))
    have hinner := tsetInner_char aes sha haes (prfData (aes kt) st p.1).1
      p.2.length b p.2 0 recs PRFState.init hb resetWF_init
    have harg : tsetAddKeyword aes sha kt (recs, st) p.1 p.2
        = (insertEntries
            (keyEntriesFrom aes sha b (stagOf aes kt p.1) p.2.length 0 p.2)
            recs,
          (prfData (aes kt) st p.1).2) := by
      show (((List.enumFrom 0 p.2).foldl
          (fun (acc : List (List TRecord) × PRFState) q =>
            tsetAddRecord aes sha (prfData (aes kt) st p.1).1 p.2.length
              acc.1 acc.2 q.1 q.2) (recs, PRFState.init)).1,
          (prfData (aes kt) st p.1).2)
        = (insertEntries (keyEntriesFrom aes sha b (stagOf aes kt p.1)
            p.2.length 0 p.2) recs, (prfData (aes kt) st p.1).2)
      rw [hinner, hstag]
    rw [List.foldl_cons, harg]
    have hres := ih (insertEntries
        (keyEntriesFrom aes sha b (stagOf aes kt p.1) p.2.length 0 p.2) recs)
      (prfData (aes kt) st p.1).2
      (by rw [insertEntries_length]; exact hb)
      (hst.data (haes kt) _)
      (fun q hq => hw q (by simp [hq]))
    refine ⟨?_, hres.2⟩
    rw [hres.1, List.flatMap_cons, insertEntries_append]

theorem tsetSetup_records (aes : List Nat → Block → Block)
    (sha : List Nat → List Nat)
    (haes : ∀ k (bl : Block), (aes k bl).length = bl.length)
    (kt : List Nat) (T : List (List Nat × List (List Nat)))
    (hw : ∀ p ∈ T, p.1 ≠ []) :
    (TSetSetup aes sha kt T).records
      = insertEntries (allEntries aes sha (tsetB T) kt T)
          (List.replicate (tsetB T) [])
    ∧ ResetWF (TSetSetup aes sha kt T).prfF := by
  have h := tsetOuter_char aes sha haes kt (tsetB T) T
    (List.replicate (tsetB T) []) PRFState.init (by simp) resetWF_init hw
  exact ⟨h.1, h.2⟩

theorem tsetScan_none (K L : List Nat) :
    ∀ bucket : List TRecord, (∀ r ∈ bucket, ¬ r.label = L) →
    tsetScan K L bucket = (false, 0, []) := by
  intro bucket
  induction bucket with
  | nil => intro _; rfl
  | cons r rest ih =>
    intro h
    unfold tsetScan
    rw [if_neg (h r (by simp))]
    exact ih (fun x hx => h x (by simp [hx]))

/-- A bucket whose single label match is `r₀` scans to `found` with `r₀`'s
unmasked beta and exactly `r₀`'s ID appended. -/
theorem tsetScan_of_filter (K L : List Nat) :
    ∀ (bucket : List TRecord) (r₀ : TRecord),
    bucket.filter (fun r => decide (r.label = L)) = [r₀] →
    tsetScan K L bucket
      = (true, (List.zipWith Nat.xor r₀.value K).getD 0 0,
         [(List.zipWith Nat.xor r₀.value K).drop 1]) := by
  intro bucket
  induction bucket with
  | nil => intro r₀ h; simp at h
  | cons r rest ih =>
    intro r₀ h
    rw [List.filter_cons] at h
    by_cases hl : r.label = L
    · rw [if_pos (by simp [hl])] at h
      have h1 : r = r₀ ∧ rest.filter (fun r => decide (r.label = L)) = [] := by
        constructor
        · exact (List.cons.injEq _ _ _ _ ▸ h).1
        · exact (List.cons.injEq _ _ _ _ ▸ h).2
      have hrest : tsetScan K L rest = (false, 0, []) := by
        apply tsetScan_none
        intro x hx hxl
        have := List.filter_eq_nil.mp h1.2 x hx
        simp [hxl] at this
      unfold tsetScan
      rw [if_pos hl, hrest, h1.1]
      simp
    · rw [if_neg (by simp [hl])] at h
      unfold tsetScan
      rw [if_neg hl]
      exact ih r₀ h

theorem zipWith_xor_cancel : ∀ (v K : List Nat), v.length ≤ K.length →
    List.zipWith Nat.xor (List.zipWith Nat.xor v K) K = v := by
  intro v
  induction v with
  | nil => intro K h; simp
  | cons a v ih =>
    intro K h
    cases K with
    | nil => simp at h
    | cons k K =>
      rw [List.zipWith_cons_cons, List.zipWith_cons_cons,
        ih K (by simpa using h)]
      have : Nat.xor (Nat.xor a k) k = a := Nat.xor_cancel_right k a
      rw [this]

theorem filter_of_nodup_labels :
    ∀ (es : List (Nat × TRecord)) (e₀ : Nat × TRecord),
    (es.map (fun e => e.2.label)).Nodup → e₀ ∈ es →
    es.filter (fun e => decide (e.2.label = e₀.2.label)) = [e₀] := by
  intro es
  induction es with
  | nil => intro e₀ _ hmem; simp at hmem
  | cons e es ih =>
    intro e₀ hnd hmem
    rw [List.map_cons, List.nodup_cons] at hnd
    rw [List.filter_cons]
    rcases List.mem_cons.mp hmem with he | he
    · rw [← he]
      rw [if_pos (by simp)]
      have hnone : es.filter (fun x => decide (x.2.label = e₀.2.label)) = [] := by
        apply List.filter_eq_nil.mpr
        intro x hx hlab
        apply hnd.1
        simp only [decide_eq_true_eq] at hlab
        rw [he] at hlab
        rw [← hlab]
        exact List.mem_map_of_mem _ hx
      rw [hnone]
    · have hne : ¬ e.2.label = e₀.2.label := by
        intro hcon
        apply hnd.1
        rw [hcon]
        exact List.mem_map_of_mem _ he
      rw [if_neg (by simp [hne])]
      exact ih e₀ hnd.2 he

theorem getD_replicate_nil (b j : Nat) :
    (List.replicate b ([] : List TRecord)).getD j [] = [] := by
  rw [List.getD_eq_getElem?_getD]
  rcases Nat.lt_or_ge j b with hj | hj
  · rw [List.getElem?_eq_getElem (by simpa using hj)]
    simp
  · rw [List.getElem?_eq_none (by simpa using hj)]
    rfl

/-- In the distributed buckets, the bucket of an entry filtered by its label
is exactly that entry's record: distinct labels make each chain link unique. -/
theorem bucket_filter_singleton (es : List (Nat × TRecord)) (b : Nat)
    (e₀ : Nat × TRecord) (hb : ∀ e ∈ es, e.1 < b)
    (hnd : (es.map (fun e => e.2.label)).Nodup) (hmem : e₀ ∈ es) :
    ((insertEntries es (List.replicate b [])).getD e₀.1 []).filter
      (fun r => decide (r.label = e₀.2.label)) = [e₀.2] := by
  rw [insertEntries_getD es _ (by simpa using hb) e₀.1, getD_replicate_nil]
  rw [List.nil_append]
  have hall : (es.map (fun e => e.2)).filter
      (fun r => decide (r.label = e₀.2.label)) = [e₀.2] := by
    rw [List.filter_map]
    have hcomp : ((fun r : TRecord => decide (r.label = e₀.2.label)) ∘
        (fun e : Nat × TRecord => e.2))
        = fun e : Nat × TRecord => decide (e.2.label = e₀.2.label) := rfl
    rw [hcomp, filter_of_nodup_labels es e₀ hnd hmem]
    rfl
  have hsub : (((es.filter (fun e => decide (e.1 = e₀.1))).map
        (fun e => e.2)).filter
      (fun r => decide (r.label = e₀.2.label))).Sublist [e₀.2] := by
    rw [← hall]
    exact ((es.filter_sublist).map _).filter _
  have hmem2 : e₀.2 ∈ ((es.filter (fun e => decide (e.1 = e₀.1))).map
        (fun e => e.2)).filter
      (fun r => decide (r.label = e₀.2.label)) := by
    apply List.mem_filter.mpr
    refine ⟨List.mem_map_of_mem _ (List.mem_filter.mpr ⟨hmem, by simp⟩), by simp⟩
  rcases List.sublist_singleton.mp hsub with hnil | hone
  · rw [hnil] at hmem2; simp at hmem2
  · exact hone

theorem tsetB_pos {T : List (List Nat × List (List Nat))}
    {w : List Nat} {t : List (List Nat)} (hmem : (w, t) ∈ T) (htne : t ≠ []) :
    1 ≤ tsetB T := by
  have h1 : t.length ≤ (T.map (fun p => p.2.length)).sum := by
    apply List.single_le_sum (by intro x _; omega)
    exact List.mem_map_of_mem _ hmem
  have h2 : 0 < t.length := List.length_pos.mpr htne
  have h3 : tsetB T = if (T.map (fun p => p.2.length)).sum / 2 = 0
      then (T.map (fun p => p.2.length)).sum
      else (T.map (fun p => p.2.length)).sum / 2 := rfl
  rw [h3]
  split <;> omega

theorem allEntries_bucket_lt (aes : List Nat → Block → Block)
    (sha : List Nat → List Nat) (b : Nat) (hb : 1 ≤ b) (kt : List Nat)
    (T : List (List Nat × List (List Nat))) :
    ∀ e ∈ allEntries aes sha b kt T, e.1 < b := by
  intro e he
  obtain ⟨p, _, hin⟩ := List.mem_flatMap.mp he
  obtain ⟨q, _, hq⟩ := List.mem_map.mp hin
  rw [← hq]
  show (entryHash aes sha b (stagOf aes kt p.1) q.1).1 < b
  unfold entryHash tsetHash
  exact Nat.mod_lt _ (by omega)

theorem mem_allEntries (aes : List Nat → Block → Block)
    (sha : List Nat → List Nat) (b : Nat) (kt : List Nat)
    {T : List (List Nat × List (List Nat))} {w : List Nat}
    {t : List (List Nat)} (hmem : (w, t) ∈ T) {i : Nat} (hi : i < t.length) :
    ((entryHash aes sha b (stagOf aes kt w) i).1,
      entryRec aes sha b (stagOf aes kt w) t.length i (t.getD i []))
      ∈ allEntries aes sha b kt T := by
  apply List.mem_flatMap.mpr
  refine ⟨(w, t), hmem, ?_⟩
  apply List.mem_map.mpr
  refine ⟨(i, t[i]), ?_, ?_⟩
  · apply List.getElem?_mem
    rw [List.getElem?_enumFrom, List.getElem?_eq_getElem hi]
    simp
  · rw [List.getD_eq_getElem _ _ hi]

theorem entryHash_pad_length (aes : List Nat → Block → Block)
    (sha : List Nat → List Nat) (hsha : ∀ d : List Nat, 37 ≤ (sha d).length)
    (b : Nat) (stag : List Nat) (i : Nat) :
    (entryHash aes sha b stag i).2.2.length = 17 := by
  unfold entryHash tsetHash
  have := hsha (ilambdaOf aes stag i)
  simp
  omega

/-- Correct run of the retrieval loop over the chain of one keyword. -/
theorem tsetRetrieveLoop_ok (aes : List Nat → Block → Block)
    (sha : List Nat → List Nat)
    (haes : ∀ k (bl : Block), (aes k bl).length = bl.length)
    (records : List (List TRecord)) (stag : List Nat) (t : List (List Nat))
    (hstep : ∀ i, i < t.length →
      (records.getD (entryHash aes sha records.length stag i).1 []).filter
          (fun r => decide
            (r.label = (entryHash aes sha records.length stag i).2.1))
        = [entryRec aes sha records.length stag t.length i (t.getD i [])]
      ∧ (t.getD i []).length = 16
      ∧ (entryHash aes sha records.length stag i).2.2.length = 17) :
    ∀ (fuel i₀ : Nat) (acc : List (List Nat)) (st : PRFState),
      i₀ < t.length → t.length ≤ i₀ + fuel → ResetWF st →
    tsetRetrieveLoop aes sha records stag fuel i₀ st acc
      = .ok (acc ++ t.drop i₀) := by
  intro fuel
  induction fuel with
  | zero => intro i₀ acc st h1 h2 _; omega
  | succ f ih =>
    intro i₀ acc st h1 h2 hst
    obtain ⟨hfil, hsil, hklen⟩ := hstep i₀ h1
    have hdig : (prfData (aes stag) st (u64be i₀ ++ List.replicate 8 0)).1
        = ilambdaOf aes stag i₀ := hst.digest (haes stag) (by simp [u64be])
    have hdec : List.zipWith Nat.xor
        (entryRec aes sha records.length stag t.length i₀ (t.getD i₀ [])).value
        (entryHash aes sha records.length stag i₀).2.2
        = (if i₀ + 1 < t.length then 255 else 0) :: t.getD i₀ [] := by
      show List.zipWith Nat.xor (List.zipWith Nat.xor _ _) _ = _
      apply zipWith_xor_cancel
      rw [hklen]
      show (t.getD i₀ []).length + 1 ≤ 17
      omega
    have hstepv : tsetStep aes sha records stag i₀ st
        = ((prfData (aes stag) st (u64be i₀ ++ List.replicate 8 0)).2,
           true, (if i₀ + 1 < t.length then (255 : Nat) else 0),
           [t.getD i₀ []]) := by
      simp only [tsetStep]
      rw [hdig]
      rw [show tsetHash sha records.length (ilambdaOf aes stag i₀)
          = entryHash aes sha records.length stag i₀ from rfl]
      rw [tsetScan_of_filter _ _ _ _ hfil, hdec]
      rfl
    have hloop : tsetRetrieveLoop aes sha records stag (f + 1) i₀ st acc
        = if (tsetStep aes sha records stag i₀ st).2.1 then
            if (tsetStep aes sha records stag i₀ st).2.2.1 ≠ 0 then
              tsetRetrieveLoop aes sha records stag f (i₀ + 1)
                (tsetStep aes sha records stag i₀ st).1
                (acc ++ (tsetStep aes sha records stag i₀ st).2.2.2)
            else .ok (acc ++ (tsetStep aes sha records stag i₀ st).2.2.2)
          else .error .notFound := rfl
    rw [hloop, hstepv]
    dsimp only
    rw [if_pos rfl]
    by_cases hlast : i₀ + 1 < t.length
    · rw [if_pos hlast, if_pos (show (255 : Nat) ≠ 0 by omega)]
      rw [ih (i₀ + 1) (acc ++ [t.getD i₀ []]) _ hlast (by omega)
        (hst.data (haes stag) _)]
      rw [List.append_assoc]
      rw [List.drop_eq_getElem_cons h1, ← List.getD_eq_getElem t [] h1]
      rfl
    · rw [if_neg hlast, if_neg (show ¬ (0 : Nat) ≠ 0 by omega)]
      rw [List.drop_eq_getElem_cons h1, ← List.getD_eq_getElem t [] h1]
      rw [List.drop_eq_nil_of_le (by omega)]

/-- Main T-Set round trip: with pairwise-distinct labels (no SHA-512
collisions), non-empty keywords, a non-empty tuple list and 16-byte IDs,
`Retrieve (GetTag w)` returns exactly the tuple list of `w`, in order. -/
theorem tset_roundtrip_main (aes : List Nat → Block → Block)
    (sha : List Nat → List Nat)
    (haes : ∀ k (bl : Block), (aes k bl).length = bl.length)
    (hsha : ∀ d : List Nat, 37 ≤ (sha d).length)
    (kt : List Nat) (T : List (List Nat × List (List Nat)))
    (hwne : ∀ p ∈ T, p.1 ≠ [])
    (hvlen : ∀ p ∈ T, ∀ s ∈ p.2, s.length = 16)
    (hlab : (tsetLabels aes sha kt T).Nodup)
    (w : List Nat) (t : List (List Nat)) (hmem : (w, t) ∈ T) (htne : t ≠ [])
    (fuel : Nat) (hfuel : t.length ≤ fuel) :
    TSet.retrieve aes sha ((TSetSetup aes sha kt T).getTag aes w).2
      ((TSetSetup aes sha kt T).getTag aes w).1 fuel = .ok t := by
  obtain ⟨hrecs, hprf⟩ := tsetSetup_records aes sha haes kt T hwne
  have hb1 : 1 ≤ tsetB T := tsetB_pos hmem htne
  have hwne' : w ≠ [] := hwne (w, t) hmem
  have hstag : ((TSetSetup aes sha kt T).getTag aes w).1 = stagOf aes kt w := by
    show (prfData (aes (TSetSetup aes sha kt T).kt)
      (TSetSetup aes sha kt T).prfF w).1 = _
    rw [show (TSetSetup aes sha kt T).kt = kt from rfl]
    exact hprf.digest (haes kt) hwne'
  have hlen : (TSetSetup aes sha kt T).records.length = tsetB T := by
    rw [hrecs, insertEntries_length, List.length_replicate]
  show tsetRetrieveLoop aes sha (TSetSetup aes sha kt T).records
    ((TSetSetup aes sha kt T).getTag aes w).1 fuel 0 PRFState.init [] = _
  rw [hstag]
  have hmain := tsetRetrieveLoop_ok aes sha haes
    (TSetSetup aes sha kt T).records (stagOf aes kt w) t ?_ fuel 0 []
    PRFState.init (List.length_pos.mpr htne) (by omega) resetWF_init
  · rw [hmain]; rfl
  · intro i hi
    rw [hlen]
    refine ⟨?_, ?_, ?_⟩
    · have hmem2 := mem_allEntries aes sha (tsetB T) kt hmem hi
      have hfil := bucket_filter_singleton (allEntries aes sha (tsetB T) kt T)
        (tsetB T)
        ((entryHash aes sha (tsetB T) (stagOf aes kt w) i).1,
          entryRec aes sha (tsetB T) (stagOf aes kt w) t.length i (t.getD i []))
        (allEntries_bucket_lt aes sha (tsetB T) hb1 kt T) hlab hmem2
      rw [hrecs]
      exact hfil
    · have : t.getD i [] ∈ t := by
        rw [List.getD_eq_getElem t [] hi]
        exact List.getElem_mem hi
      exact hvlen (w, t) hmem _ this
    · exact entryHash_pad_length aes sha hsha _ _ i

/-! ### Concrete stand-ins for the library primitives

Used by counterexamples and witnesses: a keyed, length-preserving block
cipher and a 64-byte hash.  Any functions of the right shape would do. -/

/-- A toy keyed block transformation (length preserving). -/
def addCipher : List Nat → Block → Block :=
  fun k b => (List.zipWith (fun x y => (x + y) % 256) k b) ++ b.drop k.length

theorem addCipher_length (k : List Nat) (b : Block) :
    (addCipher k b).length = b.length := by
  simp [addCipher]
  omega

/-- A toy 64-byte hash. -/
def toySha (d : List Nat) : List Nat :=
  (List.range 64).map
    (fun i => (d.foldl (fun a x => (a * 31 + x) % 251) 7 + i) % 256)

theorem toySha_length (d : List Nat) : 37 ≤ (toySha d).length := by
  simp [toySha]

/-- C4 counterexample: with the empty keyword `""` the shared PRF instance of
`GetTag` emits a stale stag (a `Sum` with nothing pending returns the
retained output), so after `TSetSetup` on `[("a", [ones]), ("", [twos])]`
the retrieval for `""` does not return `[twos]`. -/
theorem tset_roundtrip_cex :
    TSet.retrieve addCipher toySha
      ((TSetSetup addCipher toySha (List.replicate 16 0)
        [([97], [List.replicate 16 1]), ([], [List.replicate 16 2])]).getTag
          addCipher []).2
      ((TSetSetup addCipher toySha (List.replicate 16 0)
        [([97], [List.replicate 16 1]), ([], [List.replicate 16 2])]).getTag
          addCipher []).1 4
      ≠ .ok [List.replicate 16 2] := by
  decide

/-- C4 (amended): for every T-Set input with non-empty keywords and
non-empty lists of 16-byte IDs, and distinct derived labels (no SHA-512
collisions), `Retrieve (GetTag w)` returns exactly `T[w]`, with the same
elements in the same insertion order. -/
theorem tset_roundtrip (aes : List Nat → Block → Block)
    (sha : List Nat → List Nat)
    (haes : ∀ k (bl : Block), (aes k bl).length = bl.length)
    (hsha : ∀ d : List Nat, 37 ≤ (sha d).length)
    (kt : List Nat) (T : List (List Nat × List (List Nat)))
    (hwne : ∀ p ∈ T, p.1 ≠ [])
    (hvlen : ∀ p ∈ T, ∀ s ∈ p.2, s.length = 16)
    (hlab : (tsetLabels aes sha kt T).Nodup)
    (w : List Nat) (t : List (List Nat)) (hmem : (w, t) ∈ T) (htne : t ≠ [])
    (fuel : Nat) (hfuel : t.length ≤ fuel) :
    TSet.retrieve aes sha ((TSetSetup aes sha kt T).getTag aes w).2
      ((TSetSetup aes sha kt T).getTag aes w).1 fuel = .ok t :=
  tset_roundtrip_main aes sha haes hsha kt T hwne hvlen hlab w t hmem htne
    fuel hfuel

/-- Witness for the amended C4 on a concrete two-keyword input. -/
theorem tset_roundtrip_witness :
    TSet.retrieve addCipher toySha
      ((TSetSetup addCipher toySha (List.replicate 16 3)
        [([97], [List.replicate 16 1, List.replicate 16 5]),
         ([98], [List.replicate 16 9])]).getTag addCipher [97]).2
      ((TSetSetup addCipher toySha (List.replicate 16 3)
        [([97], [List.replicate 16 1, List.replicate 16 5]),
         ([98], [List.replicate 16 9])]).getTag addCipher [97]).1 2
      = .ok [List.replicate 16 1, List.replicate 16 5] :=
  tset_roundtrip addCipher toySha addCipher_length toySha_length
    (List.replicate 16 3)
    [([97], [List.replicate 16 1, List.replicate 16 5]),
     ([98], [List.replicate 16 9])]
    (by decide) (by decide) (by decide)
    [97] [List.replicate 16 1, List.replicate 16 5] (by decide) (by decide)
    2 (by decide)

/-! ## SKS (sse/sks.go, with the sse ID codec)

`NewENC` opens an AES-128 block cipher; its encrypt and decrypt directions
are the parameters `encB` and `decB` (with `decB k ∘ encB k = id` on
16-byte blocks, as for AES). -/

/-- Go `int` to `uint64` (two's complement wrap). -/
def intToU64 (i : Int) : Nat := (i % (2 ^ 64 : Int)).toNat

/-- Go `int(u)` for a `uint64` value. -/
def u64ToInt (n : Nat) : Int :=
  if n < 2 ^ 63 then (n : Int) else (n : Int) - 2 ^ 64

/-- Big-endian read of the first 8 bytes (`ID.Uint64`). -/
def beU64 (l : List Nat) : Nat :=
  (l.take 8).foldl (fun a b => a * 256 + b) 0

/-- `var e ID; e.PutUint64(v)`: big-endian value in the first 8 bytes of a
zeroed 16-byte block. -/
def idBlock (v : Nat) : List Nat := u64be v ++ List.replicate 8 0

/-- The SKS handle: key `ks`, the stateful `ks`-keyed PRF, and the T-Set. -/
structure SKS where
  ks : List Nat
  prfKS : PRFState
  tset : TSet

/-- `SKSSetup` (sse/sks.go): per keyword derive `ke = prf.Data(w)`, encrypt
every document index as a 16-byte ID block under `ke`, and build the T-Set
from the encrypted lists.  The random keys `ks` and `kt` are parameters. -/
def SKSSetup (aes encB : List Nat → Block → Block)
    (sha : List Nat → List Nat) (ks kt : List Nat)
    (db : List (List Nat × List Int)) : SKS :=
  let f := db.foldl
    (fun (acc : List (List Nat × List (List Nat)) × PRFState) p =>
      (acc.1 ++ [(p.1, p.2.map (fun ind =>
          encB (prfData (aes ks) acc.2 p.1).1 (idBlock (intToU64 ind))))],
       (prfData (aes ks) acc.2 p.1).2))
    ([], PRFState.init)
  ⟨ks, f.2, TSetSetup aes sha kt f.1⟩

/-- `SKS.Search` (sse/sks.go): single-keyword queries only; stag and
retrieval through the T-Set, then decrypt each returned ID under `ke` and
decode the big-endian document index from its first 8 bytes. -/
def SKS.search (aes decB : List Nat → Block → Block)
    (sha : List Nat → List Nat) (sks : SKS) (query : List (List Nat))
    (fuel : Nat) : Except SSEErr (List Int) :=
  match query with
  | [q] =>
    match TSet.retrieve aes sha ((sks.tset.getTag aes q)).2
        ((sks.tset.getTag aes q)).1 fuel with
    | .error e => .error e
    | .ok t =>
      .ok (t.map (fun id =>
        u64ToInt (beU64 (decB (prfData (aes sks.ks) sks.prfKS q).1 id))))
  | _ => .error .badQuery

/-- The encrypted keyword map `SKSSetup` hands to `TSetSetup`, written with
fresh-instance digests. -/
def sksT (aes encB : List Nat → Block → Block) (ks : List Nat)
    (db : List (List Nat × List Int)) :
    List (List Nat × List (List Nat)) :=
  db.map (fun p => (p.1, p.2.map (fun ind =>
    encB (prfDataF (aes ks) p.1) (idBlock (intToU64 ind)))))

theorem sksSetup_fold (aes encB : List Nat → Block → Block)
    (haes : ∀ k (bl : Block), (aes k bl).length = bl.length)
    (ks : List Nat) :
    ∀ (db : List (List Nat × List Int))
      (acc : List (List Nat × List (List Nat))) (st : PRFState),
      ResetWF st → (∀ p ∈ db, p.1 ≠ []) →
    (db.foldl
      (fun (acc : List (List Nat × List (List Nat)) × PRFState) p =>
        (acc.1 ++ [(p.1, p.2.map (fun ind =>
            encB (prfData (aes ks) acc.2 p.1).1 (idBlock (intToU64 ind))))],
         (prfData (aes ks) acc.2 p.1).2)) (acc, st)).1
      = acc ++ sksT aes encB ks db
    ∧ ResetWF (db.foldl
      (fun (acc : List (List Nat × List (List Nat)) × PRFState) p =>
        (acc.1 ++ [(p.1, p.2.map (fun ind =>
            encB (prfData (aes ks) acc.2 p.1).1 (idBlock (intToU64 ind))))],
         (prfData (aes ks) acc.2 p.1).2)) (acc, st)).2 := by
  intro db
  induction db with
  | nil => intro acc st hst _; exact ⟨by simp [sksT], hst⟩
  | cons p db ih =>
    intro acc st hst hw
    rw [List.foldl_cons]
    have hke : (prfData (aes ks) st p.1).1 = prfDataF (aes ks) p.1 :=
      hst.digest (haes ks) (hw p (by simp))
    have h := ih (acc ++ [(p.1, p.2.map (fun ind =>
        encB (prfData (aes ks) st p.1).1 (idBlock (intToU64 ind))))])
      (prfData (aes ks) st p.1).2 (hst.data (haes ks) _)
      (fun q hq => hw q (by simp [hq]))
    refine ⟨?_, h.2⟩
    rw [h.1, hke]
    simp [sksT]

theorem beU64_u64be (v : Nat) (hv : v < 2 ^ 64) (rest : List Nat) :
    beU64 (u64be v ++ rest) = v := by
  show List.foldl _ 0 ((u64be v ++ rest).take 8) = v
  rw [show (u64be v ++ rest).take 8 = u64be v by
    rw [List.take_append_of_le_length (by simp [u64be])]
    simp [u64be]]
  simp only [u64be, List.foldl_cons, List.foldl_nil]
  omega

theorem u64ToInt_intToU64 (i : Int) (h1 : -(2 ^ 63) ≤ i) (h2 : i < 2 ^ 63) :
    u64ToInt (intToU64 i) = i := by
  unfold u64ToInt intToU64
  split <;> omega

theorem intToU64_lt (i : Int) : intToU64 i < 2 ^ 64 := by
  unfold intToU64
  omega

/-- A toy self-inverse keyed block cipher (XOR pad). -/
def xorCipher : List Nat → Block → Block :=
  fun k b => List.zipWith Nat.xor k b ++ b.drop k.length

theorem xorCipher_length (k : List Nat) (b : Block) :
    (xorCipher k b).length = b.length := by
  simp [xorCipher]
  omega

theorem xorCipher_involutive : ∀ (k b : List Nat),
    xorCipher k (xorCipher k b) = b := by
  intro k
  induction k with
  | nil => intro b; simp [xorCipher]
  | cons c k ih =>
    intro b
    cases b with
    | nil => simp [xorCipher]
    | cons x b =>
      have hstep : ∀ y bs, xorCipher (c :: k) (y :: bs)
          = Nat.xor c y :: xorCipher k bs := by
        intro y bs
        simp [xorCipher]
      rw [hstep, hstep, ih b]
      congr 1
      exact Nat.xor_cancel_left c x

/-- C5 counterexample: a keyword mapped to the empty index list makes
`Search` fail with `NotFound` (the chain's first link does not exist)
instead of returning the empty list. -/
theorem sks_roundtrip_cex :
    SKS.search addCipher xorCipher toySha
      (SKSSetup addCipher xorCipher toySha (List.replicate 16 4)
        (List.replicate 16 7) [([97], []), ([98], [0])]) [[97]] 4
      = .error SSEErr.notFound := by
  decide

/-- C5 (amended): for every database with non-empty keywords, a queried
keyword with a non-empty index list of int64 values, and distinct derived
T-Set labels (no SHA-512 collisions), `Search([w])` returns exactly `db[w]`
in order — in particular the two lists are equal as unordered multisets. -/
theorem sks_roundtrip (aes encB decB : List Nat → Block → Block)
    (sha : List Nat → List Nat)
    (haes : ∀ k (bl : Block), (aes k bl).length = bl.length)
    (hencB : ∀ k (bl : Block), (encB k bl).length = bl.length)
    (hdec : ∀ k (bl : Block), bl.length = 16 → decB k (encB k bl) = bl)
    (hsha : ∀ d : List Nat, 37 ≤ (sha d).length)
    (ks kt : List Nat) (db : List (List Nat × List Int))
    (hwne : ∀ p ∈ db, p.1 ≠ [])
    (hlab : (tsetLabels aes sha kt (sksT aes encB ks db)).Nodup)
    (w : List Nat) (inds : List Int) (hmem : (w, inds) ∈ db)
    (hine : inds ≠ [])
    (hrange : ∀ i ∈ inds, -(2 ^ 63) ≤ i ∧ i < 2 ^ 63)
    (fuel : Nat) (hfuel : inds.length ≤ fuel) :
    SKS.search aes decB sha (SKSSetup aes encB sha ks kt db) [w] fuel
      = .ok inds := by
  have hfold := sksSetup_fold aes encB haes ks db [] PRFState.init
    resetWF_init hwne
  have hT : (SKSSetup aes encB sha ks kt db).tset
      = TSetSetup aes sha kt (sksT aes encB ks db) := by
    show TSetSetup aes sha kt _ = _
    rw [hfold.1]
    rfl
  have hks : (SKSSetup aes encB sha ks kt db).ks = ks := rfl
  have hprfKS : ResetWF (SKSSetup aes encB sha ks kt db).prfKS := hfold.2
  have hwne' : w ≠ [] := hwne (w, inds) hmem
  have hkeq : (prfData (aes (SKSSetup aes encB sha ks kt db).ks)
      (SKSSetup aes encB sha ks kt db).prfKS w).1 = prfDataF (aes ks) w := by
    rw [hks]
    exact hprfKS.digest (haes ks) hwne'
  have hmemT : (w, inds.map (fun ind =>
      encB (prfDataF (aes ks) w) (idBlock (intToU64 ind))))
      ∈ sksT aes encB ks db := by
    unfold sksT
    exact List.mem_map_of_mem _ hmem
  have hret := tset_roundtrip_main aes sha haes hsha kt (sksT aes encB ks db)
    (by intro p hp
        obtain ⟨q, hq, hqe⟩ := List.mem_map.mp hp
        rw [← hqe]
        exact hwne q hq)
    (by intro p hp s hs
        obtain ⟨q, _, hqe⟩ := List.mem_map.mp hp
        rw [← hqe] at hs
        obtain ⟨ind, _, hie⟩ := List.mem_map.mp hs
        rw [← hie, hencB]
        simp [idBlock, u64be])
    hlab w _ hmemT
    (by intro hc
        rw [List.map_eq_nil_iff] at hc
        exact hine hc)
    fuel (by rw [List.length_map]; exact hfuel)
  show (match TSet.retrieve aes sha
      (((SKSSetup aes encB sha ks kt db).tset.getTag aes w)).2
      (((SKSSetup aes encB sha ks kt db).tset.getTag aes w)).1 fuel with
    | Except.error e => (Except.error e : Except SSEErr (List Int))
    | Except.ok t => Except.ok (t.map (fun id =>
        u64ToInt (beU64 (decB (prfData
          (aes (SKSSetup aes encB sha ks kt db).ks)
          (SKSSetup aes encB sha ks kt db).prfKS w).1 id)))))
    = Except.ok inds
  rw [hT, hret, hkeq]
  show Except.ok _ = _
  rw [List.map_map]
  have hpt : ∀ i ∈ inds, ((fun id => u64ToInt (beU64 (decB (prfDataF (aes ks) w) id)))
      ∘ (fun ind => encB (prfDataF (aes ks) w) (idBlock (intToU64 ind)))) i = i := by
    intro i hi
    show u64ToInt (beU64 (decB _ (encB _ (idBlock (intToU64 i))))) = i
    rw [hdec _ _ (by simp [idBlock, u64be])]
    unfold idBlock
    rw [beU64_u64be _ (intToU64_lt i)]
    exact u64ToInt_intToU64 i (hrange i hi).1 (hrange i hi).2
  rw [List.map_congr_left hpt]
  simp

/-- Witness for the amended C5 on a concrete two-keyword database. -/
theorem sks_roundtrip_witness :
    SKS.search addCipher xorCipher toySha
      (SKSSetup addCipher xorCipher toySha (List.replicate 16 4)
        (List.replicate 16 7) [([97], [0, 5]), ([98], [1])]) [[97]] 2
      = .ok [0, 5] :=
  sks_roundtrip addCipher xorCipher xorCipher toySha addCipher_length
    xorCipher_length (fun k bl _ => xorCipher_involutive k bl) toySha_length
    (List.replicate 16 4) (List.replicate 16 7) [([97], [0, 5]), ([98], [1])]
    (by decide) (by decide) [97] [0, 5] (by decide) (by decide) (by decide)
    2 (by decide)

/-! ## Page store (db package)

The zero-key AES cipher that `PageTable.hash` (a `crypto.PRF`) wraps is the
parameter `hcf`; its digests are written `prfDataF hcf` (the instance is
reset after every `Data`, and every input is non-empty, so the shared
instance always produces the fresh digest).  Pages are byte functions on
`[0, pageSize)`; the in-memory device is content plus capacity;
`time.Now()` is the parameter `ts`.  Go panics (unreachable under the
stated invariants) are modelled as `.badRef` errors; `Device.Sync` of
`MemDevice` is a no-op. -/

/-- Page-store error kinds. -/
inductive DBErr
  | devOutOfRange
  | corrupted
  | unmapped
  | readOnly
  | busy
  | workingSetTooBig
  | notNew
  | badRef
  | fuelOut
deriving Repr, DecidableEq

/-- `PhysicalID.Pagenum`: low 48 bits. -/
def pidPagenum (pid : Nat) : Nat := pid % 2 ^ 48

/-- `PhysicalID.Meta`: high 16 bits. -/
def pidMeta (pid : Nat) : Nat := pid / 2 ^ 48 % 2 ^ 16

/-- `NewPhysicalID meta pagenum` = `meta<<48 | pagenum&mask` (the Go
constructor panics when pagenum overflows 48 bits; callers stay in range). -/
def newPhysicalID (meta pagenum : Nat) : Nat :=
  meta % 2 ^ 16 * 2 ^ 48 + pagenum % 2 ^ 48

/-- `LogicalID.Pagenum`: low 48 bits (the only part the page table uses). -/
def lidPagenum (id : Nat) : Nat := id % 2 ^ 48

/-- `NewLogicalID meta objectID pagenum`. -/
def newLogicalID (meta obj pagenum : Nat) : Nat :=
  meta % 4 * 2 ^ 62 + obj % 2 ^ 14 * 2 ^ 48 + pagenum % 2 ^ 48

/-- A page buffer: bytes as a function, read on `[0, pageSize)`. -/
abbrev Page := Nat → Nat

def zeroPage : Page := fun _ => 0

/-- `MemDevice` (db/memdevice.go): byte vector of fixed capacity. -/
structure Device where
  size : Nat
  content : Nat → Nat

/-- `MemDevice.ReadAt` of one whole page (the only read size the cache
issues): out-of-range fails. -/
def deviceReadPage (d : Device) (pageSize off : Nat) : Except DBErr Page :=
  if off + pageSize ≤ d.size then .ok (fun i => d.content (off + i))
  else .error .devOutOfRange

/-- `MemDevice.WriteAt` of one whole page. -/
def deviceWritePage (d : Device) (pageSize off : Nat) (p : Page) :
    Except DBErr Device :=
  if off + pageSize ≤ d.size then
    .ok ⟨d.size, fun a => if off ≤ a ∧ a < off + pageSize then p (a - off)
      else d.content a⟩
  else .error .devOutOfRange

/-- `PageRef` (db/cache.go). -/
structure PageRef where
  pid : Nat
  data : Page
  refcount : Int
  dirty : Bool

def PageRef.empty : PageRef := ⟨0, zeroPage, 0, false⟩

/-- `Cache` (db/cache.go): arena of `numRefs = 128 MiB / PageSize` slots
(`lru`), the clock hand, and the pid → slot residency map (the Go map as an
association list). -/
structure Cache where
  numRefs : Nat
  lru : Nat → PageRef
  clock : Nat
  cached : List (Nat × Nat)

/-- `RootPointer` (db/pagetable.go); the `Checksum` field lives in the
serialized bytes. -/
structure RootPointer where
  magic : Nat := 0
  flags : Nat := 0
  depth : Nat := 0
  pageSize : Nat := 0
  timestamp : Nat := 0
  generation : Nat := 0
  nextPhysical : Nat := 0
  nextLogical : Nat := 0
  pageTable : Nat := 0
  freelist : Nat := 0
  snapshots : Nat := 0
  userData : Nat := 0
deriving Repr, DecidableEq

/-- The whole DB state a `*DB` reaches: parameters, device, cache, and the
page table's two root pointers plus its held root-block ref (slot index). -/
structure Sys where
  pageSize : Nat
  dev : Device
  cache : Cache
  root0 : RootPointer
  root1 : RootPointer
  rootSlot : Nat

def cacheFindSlot (c : Cache) (pid : Nat) : Option Nat :=
  (c.cached.find? (fun e => e.1 == pid)).map (fun e => e.2)

def setSlot (c : Cache) (i : Nat) (r : PageRef) : Cache :=
  { c with lru := fun j => if j = i then r else c.lru j }

def slotPage (sys : Sys) (slot : Nat) : Page := (sys.cache.lru slot).data

/-- `PageRef.flush`: a dirty slot's page goes to the device at
`pagenum * PageSize`; a clean slot is left alone. -/
def refFlush (sys : Sys) (slot : Nat) : Except DBErr Sys :=
  if (sys.cache.lru slot).dirty then
    match deviceWritePage sys.dev sys.pageSize
        (pidPagenum (sys.cache.lru slot).pid * sys.pageSize)
        (sys.cache.lru slot).data with
    | .error e => .error e
    | .ok d => .ok { sys with
        dev := d
        cache := setSlot sys.cache slot
          { sys.cache.lru slot with dirty := false } }
  else .ok sys

/-- The clock scan of `Cache.newRef` (db/cache.go): find a slot with
refcount 0; flush and uncache its page first unless its pid is 0 (the root
block sentinel stays resident); one full revolution without a free slot is
`working set too big`.  `fuel` covers the bounded scan. -/
def cacheNewRefLoop (start : Nat) : Nat → Sys → Nat → Except DBErr (Nat × Sys)
  | 0, _, _ => .error .fuelOut
  | fuel + 1, sys, cur =>
    if (sys.cache.lru cur).refcount = 0 then
      if (sys.cache.lru cur).pid ≠ 0 then
        match refFlush sys cur with
        | .error e => .error e
        | .ok sys1 =>
          .ok (cur, { sys1 with cache :=
            { sys1.cache with
              cached := sys1.cache.cached.filter
                (fun e => ¬ e.1 = (sys1.cache.lru cur).pid)
              clock := cur } })
      else .ok (cur, { sys with cache := { sys.cache with clock := cur } })
    else
      if (cur + 1) % sys.cache.numRefs = start then .error .workingSetTooBig
      else cacheNewRefLoop start fuel sys ((cur + 1) % sys.cache.numRefs)

def cacheNewRef (sys : Sys) : Except DBErr (Nat × Sys) :=
  cacheNewRefLoop sys.cache.clock (sys.cache.numRefs + 1) sys sys.cache.clock

/-- `Cache.Get` (db/cache.go, the variant with `New`): a hit bumps the
refcount; a miss takes a free slot, installs the pid, reads the page from
the device and sets refcount 1. -/
def cacheGet (sys : Sys) (pid : Nat) : Except DBErr (Nat × Sys) :=
  match cacheFindSlot sys.cache pid with
  | some slot =>
    if (sys.cache.lru slot).pid ≠ pid then .error .badRef
    else .ok (slot, { sys with
        cache := setSlot sys.cache slot
          { sys.cache.lru slot with
            refcount := (sys.cache.lru slot).refcount + 1 } })
  | none =>
    match cacheNewRef sys with
    | .error e => .error e
    | .ok (slot, sys1) =>
      if (sys1.cache.lru slot).dirty then .error .badRef
      else
        match deviceReadPage sys1.dev sys1.pageSize
            (pidPagenum pid * sys1.pageSize) with
        | .error e => .error e
        | .ok p =>
          .ok (slot, { sys1 with cache :=
            { setSlot sys1.cache slot
                { pid := pid, data := p,
                  refcount := (sys1.cache.lru slot).refcount + 1,
                  dirty := false }
              with cached := (pid, slot) :: sys1.cache.cached } })

/-- `Cache.New` (db/cache.go): requires the pid not cached; installs a slot
whose data is a copy of `init` (a full page at every call site) or zeros. -/
def cacheNew (sys : Sys) (pid : Nat) (init : Option Page) :
    Except DBErr (Nat × Sys) :=
  match cacheFindSlot sys.cache pid with
  | some _ => .error .notNew
  | none =>
    match cacheNewRef sys with
    | .error e => .error e
    | .ok (slot, sys1) =>
      .ok (slot, { sys1 with cache :=
        { setSlot sys1.cache slot
            { pid := pid,
              data := init.getD zeroPage,
              refcount := (sys1.cache.lru slot).refcount + 1,
              dirty := (sys1.cache.lru slot).dirty }
          with cached := (pid, slot) :: sys1.cache.cached } })

/-- `PageRef.Release` (the Go panic on refcount ≤ 0 is unreachable in the
verified runs). -/
def refRelease (sys : Sys) (slot : Nat) : Sys :=
  { sys with
    cache := setSlot sys.cache slot
      { sys.cache.lru slot with
        refcount := (sys.cache.lru slot).refcount - 1 } }

/-- `PageRef.Data`: mark the slot dirty (writes through the returned buffer
are modelled by `setSlotData`). -/
def refData (sys : Sys) (slot : Nat) : Sys :=
  { sys with
    cache := setSlot sys.cache slot
      { sys.cache.lru slot with dirty := true } }

def setSlotData (sys : Sys) (slot : Nat) (p : Page) : Sys :=
  { sys with
    cache := setSlot sys.cache slot
      { sys.cache.lru slot with data := p } }

/-- `Cache.flush`: flush every cached slot (one Go map order). -/
def cacheFlushList : Sys → List (Nat × Nat) → Except DBErr Sys
  | sys, [] => .ok sys
  | sys, e :: rest =>
    match refFlush sys e.2 with
    | .error err => .error err
    | .ok sys1 => cacheFlushList sys1 rest

def cacheFlush (sys : Sys) : Except DBErr Sys :=
  cacheFlushList sys sys.cache.cached

/-- Big-endian uint64 at byte offset `off` of a page. -/
def pageU64 (p : Page) (off : Nat) : Nat :=
  p off * 2 ^ 56 + p (off + 1) * 2 ^ 48 + p (off + 2) * 2 ^ 40 +
  p (off + 3) * 2 ^ 32 + p (off + 4) * 2 ^ 24 + p (off + 5) * 2 ^ 16 +
  p (off + 6) * 2 ^ 8 + p (off + 7)

/-- `PutUint64` at byte offset `off` of a page. -/
def pageSetU64 (p : Page) (off v : Nat) : Page :=
  fun i => if off ≤ i ∧ i < off + 8 then (u64be v).getD (i - off) 0 else p i

/-! ### Root block (db/pagetable.go: formatRootBlock / parseRootBlock) -/

/-- Big-endian 16-bit bytes. -/
def u16be (v : Nat) : List Nat := [v / 2 ^ 8 % 256, v % 256]

/-- Big-endian 32-bit bytes. -/
def u32be (v : Nat) : List Nat :=
  [v / 2 ^ 24 % 256, v / 2 ^ 16 % 256, v / 2 ^ 8 % 256, v % 256]

/-- `RootPtrMagic` = 0x7b5368616465737d. -/
def rootPtrMagic : Nat := 0x7b5368616465737d

/-- The 80 field bytes of a root pointer, in the §3 layout. -/
def rpBytes80 (r : RootPointer) : List Nat :=
  u64be r.magic ++ u16be r.flags ++ u16be r.depth ++ u32be r.pageSize ++
  u64be r.timestamp ++ u64be r.generation ++ u64be r.nextPhysical ++
  u64be r.nextLogical ++ u64be r.pageTable ++ u64be r.freelist ++
  u64be r.snapshots ++ u64be r.userData

/-- One 96-byte root-pointer window: the fields plus their 16-byte
zero-key PRF-MAC. -/
def rootWindow (hcf : Block → Block) (r : RootPointer) : List Nat :=
  rpBytes80 r ++ prfDataF hcf (rpBytes80 r)

/-- `RootPtrPadding` = "mtr@iki.fi~" as bytes. -/
def padBytes : List Nat := [109, 116, 114, 64, 105, 107, 105, 46, 102, 105, 126]

/-- The number of 96-byte windows formatRootBlock writes (window 0 plus its
copies at `i = 96, 192, …` while `i + 96 < PageSize`), which equals the
number of windows parseRootBlock examines (`i + 96 < len(buf)`). -/
def numWins (pageSize : Nat) : Nat := (pageSize - 1) / 96

/-- The page `formatRootBlock` produces: the window replicated over every
full slot, the rest filled with the cyclic padding string, indexed by
absolute offset. -/
def rootBlockPage (hcf : Block → Block) (r : RootPointer) (pageSize : Nat) :
    Page :=
  fun j => if j < 96 * numWins pageSize
    then (rootWindow hcf r).getD (j % 96) 0
    else padBytes.getD (j % 11) 0

/-- Bytes `[off, off+len)` of a page as a list. -/
def pageBytes (p : Page) (off len : Nat) : List Nat :=
  (List.range len).map (fun i => p (off + i))

def winU16 (win : List Nat) (off : Nat) : Nat :=
  win.getD off 0 * 2 ^ 8 + win.getD (off + 1) 0

def winU32 (win : List Nat) (off : Nat) : Nat :=
  win.getD off 0 * 2 ^ 24 + win.getD (off + 1) 0 * 2 ^ 16 +
  win.getD (off + 2) 0 * 2 ^ 8 + win.getD (off + 3) 0

def winU64 (win : List Nat) (off : Nat) : Nat := beU64 (win.drop off)

/-- `parseRootPointer` field extraction. -/
def parseFields (win : List Nat) : RootPointer :=
  { magic := winU64 win 0
    flags := winU16 win 8
    depth := winU16 win 10
    pageSize := winU32 win 12
    timestamp := winU64 win 16
    generation := winU64 win 24
    nextPhysical := winU64 win 32
    nextLogical := winU64 win 40
    pageTable := winU64 win 48
    freelist := winU64 win 56
    snapshots := winU64 win 64
    userData := winU64 win 72 }

/-- `parseRootPointer` (db/pagetable.go): recompute the zero-key PRF-MAC of
the first 80 bytes and compare with the stored checksum. -/
def parseRootPointer (hcf : Block → Block) (win : List Nat) :
    Except DBErr RootPointer :=
  if prfDataF hcf (win.take 80) = win.drop 80 then .ok (parseFields win)
  else .error .corrupted

/-- The 96-byte window `k` of a page. -/
def winBytes (buf : Page) (k : Nat) : List Nat := pageBytes buf (96 * k) 96

/-- The window loop of `parseRootBlock`: keep the parsed pointer of the
highest-generation window whose checksum verifies (generation is read and
compared before the checksum is checked). -/
def parseLoop (hcf : Block → Block) (buf : Page) :
    List Nat → RootPointer → RootPointer
  | [], best => best
  | k :: ks, best =>
    if winU64 (winBytes buf k) 24 ≤ best.generation then
      parseLoop hcf buf ks best
    else
      match parseRootPointer hcf (winBytes buf k) with
      | .error _ => parseLoop hcf buf ks best
      | .ok rp => parseLoop hcf buf ks rp

/-- `parseRootBlock` (db/pagetable.go): scan all windows; a final
generation of zero means no valid root pointer was found. -/
def parseRootBlock (hcf : Block → Block) (buf : Page) (len : Nat) :
    Except DBErr RootPointer :=
  if (parseLoop hcf buf (List.range (numWins len)) {}).generation = 0
  then .error .corrupted
  else .ok (parseLoop hcf buf (List.range (numWins len)) {})

/-! ### Page table and transactions (db/pagetable.go, basetransaction.go) -/

/-- `RootPointer.idsPerPage`. -/
def rpIdsPerPage (r : RootPointer) : Nat := r.pageSize / 8

/-- `RootPointer.numPages` = idsPerPage ^ Depth. -/
def rpNumPages (r : RootPointer) : Nat := rpIdsPerPage r ^ r.depth

/-- A fresh `*DB` before Init/Open (db.go newDB + NewCache):
`numRefs = 128 MiB / PageSize`, zeroed slots, empty residency map. -/
def newSys (pageSize : Nat) (dev : Device) : Sys :=
  { pageSize := pageSize
    dev := dev
    cache := { numRefs := 128 * 1024 * 1024 / pageSize
               lru := fun _ => PageRef.empty
               clock := 0
               cached := [] }
    root0 := {}
    root1 := {}
    rootSlot := 0 }

/-- `PageTable.Init` (db/pagetable.go): new zero pages for the root block
(pid 0, ref held) and the initial page-table node (pid 1, marked dirty and
released), the initial root pointer, the formatted root block, a cache
flush and a device sync. -/
def ptInit (hcf : Block → Block) (ts : Nat) (sys : Sys) : Except DBErr Sys :=
  match cacheNew sys 0 none with
  | .error e => .error e
  | .ok (slot0, sys1) =>
    let sys2 := refData sys1 slot0
    match cacheNew sys2 (newPhysicalID 0 1) none with
    | .error e => .error e
    | .ok (slot1, sys3) =>
      let sys4 := refRelease (refData sys3 slot1) slot1
      let r0 : RootPointer :=
        { magic := rootPtrMagic
          depth := 1
          pageSize := sys4.pageSize
          generation := 1
          nextPhysical := 2
          nextLogical := 1
          pageTable := newPhysicalID 0 1
          freelist := 0 }
      let r1 := { r0 with timestamp := ts }
      let sys5 := setSlotData (refData sys4 slot0) slot0
        (rootBlockPage hcf r1 sys4.pageSize)
      cacheFlush { sys5 with root0 := r1, rootSlot := slot0 }

/-- `Create` (db.go): new DB then `pt.Init`. -/
def dbCreate (hcf : Block → Block) (ts pageSize : Nat) (dev : Device) :
    Except DBErr Sys :=
  ptInit hcf ts (newSys pageSize dev)

/-- `PageTable.Open` (db/pagetable.go): get and hold the root-block page,
parse it into `root0`. -/
def ptOpen (hcf : Block → Block) (sys : Sys) : Except DBErr Sys :=
  match cacheGet sys 0 with
  | .error e => .error e
  | .ok (slot, sys1) =>
    match parseRootBlock hcf (slotPage sys1 slot) sys1.pageSize with
    | .error e => .error e
    | .ok r => .ok { sys1 with root0 := r, rootSlot := slot }

/-- `Open` (db.go): new DB then `pt.Open`. -/
def dbOpen (hcf : Block → Block) (pageSize : Nat) (dev : Device) :
    Except DBErr Sys :=
  ptOpen hcf (newSys pageSize dev)

/-- `BaseTransaction`: mode and the shadow map `writable[new] = old`
(the Go map as an association list; `old = 0` marks fresh pages). -/
structure Tr where
  rw : Bool
  writable : List (Nat × Nat)

/-- `PageTable.newTransaction`: a second base transaction while one is
outstanding is detected by `root1.Generation > root0.Generation`;
otherwise `root1` becomes a copy of `root0` with the generation bumped. -/
def newTransaction (sys : Sys) (rw : Bool) : Except DBErr (Tr × Sys) :=
  if sys.root1.generation > sys.root0.generation then .error .busy
  else .ok (⟨rw, []⟩,
    { sys with root1 :=
      { sys.root0 with generation := sys.root0.generation + 1 } })

/-- `PageTable.commit`: read-only restores the generation; read-write
formats the root block from `root1` into the held root page, flushes the
cache, syncs, and promotes `root1` to `root0`. -/
def ptCommit (hcf : Block → Block) (ts : Nat) (sys : Sys) (tr : Tr) :
    Except DBErr Sys :=
  if ¬ tr.rw then
    .ok { sys with root1 :=
      { sys.root1 with generation := sys.root0.generation } }
  else
    let r1 := { sys.root1 with timestamp := ts }
    let sys1 := setSlotData (refData sys sys.rootSlot) sys.rootSlot
      (rootBlockPage hcf r1 sys.pageSize)
    match cacheFlush { sys1 with root1 := r1 } with
    | .error e => .error e
    | .ok sys2 => .ok { sys2 with root0 := sys2.root1 }

/-- `PageTable.abort`: restore the generation. -/
def ptAbort (sys : Sys) : Sys :=
  { sys with root1 := { sys.root1 with generation := sys.root0.generation } }

/-- `PageTable.allocPhysicalID`. -/
def allocPhysicalID (sys : Sys) : Nat × Sys :=
  (newPhysicalID 0 sys.root1.nextPhysical,
   { sys with root1 :=
     { sys.root1 with nextPhysical := sys.root1.nextPhysical + 1 } })

/-- `PageTable.allocLogicalID`. -/
def allocLogicalID (sys : Sys) : Nat × Sys :=
  (newLogicalID 0 0 sys.root1.nextLogical,
   { sys with root1 :=
     { sys.root1 with nextLogical := sys.root1.nextLogical + 1 } })

/-- The leaf read of `PageTable.get`. -/
def ptGetLeaf (sys : Sys) (pagenum slot : Nat) : Except DBErr (Nat × Sys) :=
  let pid := pageU64 (slotPage sys slot) (pagenum * 8)
  let sys1 := refRelease sys slot
  if pidPagenum pid = 0 then .error .unmapped else .ok (pid, sys1)

/-- The traversal loop of `PageTable.get`, by remaining depth: at depth ≤ 1
the leaf entry is the physical ID; above, follow the child entry. -/
def ptGetLoop (perPage : Nat) :
    Nat → Sys → Nat → Nat → Nat → Except DBErr (Nat × Sys)
  | 0, sys, _, pagenum, slot =>
    ptGetLeaf sys pagenum slot
  | 1, sys, _, pagenum, slot =>
    ptGetLeaf sys pagenum slot
  | depth + 2, sys, perID, pagenum, slot =>
    let next := pageU64 (slotPage sys slot) (pagenum / perID * 8)
    let sys1 := refRelease sys slot
    if pidPagenum next = 0 then .error .unmapped
    else
      match cacheGet sys1 next with
      | .error e => .error e
      | .ok (slot2, sys2) =>
        ptGetLoop perPage (depth + 1) sys2 (perID / perPage)
          (pagenum % perID) slot2

/-- `PageTable.get` (db/pagetable.go): bound check against
`root1.numPages`, then traverse from `root1.PageTable`. -/
def ptGet (sys : Sys) (id : Nat) : Except DBErr (Nat × Sys) :=
  if lidPagenum id ≥ rpNumPages sys.root1 then .error .unmapped
  else
    match cacheGet sys sys.root1.pageTable with
    | .error e => .error e
    | .ok (slot, sys1) =>
      ptGetLoop (rpIdsPerPage sys.root1) sys.root1.depth sys1
        (rpIdsPerPage sys.root1 ^ (sys.root1.depth - 1)) (lidPagenum id) slot

/-- `PageTable.writable` (db/pagetable.go): a pid already shadowed in this
transaction is just re-acquired; otherwise allocate a new physical ID, copy
the page into it via `Cache.New`, record `writable[new] = old`, release the
old ref.  Returns slot, new pid, transaction and state. -/
def ptWritable (sys : Sys) (tr : Tr) (pid : Nat) :
    Except DBErr (Nat × Nat × Tr × Sys) :=
  if (tr.writable.find? (fun e => e.1 == pid)).isSome then
    match cacheGet sys pid with
    | .error e => .error e
    | .ok (slot, sys1) => .ok (slot, pid, tr, sys1)
  else
    match cacheGet (allocPhysicalID sys).2 pid with
    | .error e => .error e
    | .ok (oldSlot, sys1) =>
      match cacheNew sys1 (allocPhysicalID sys).1
          (some (slotPage sys1 oldSlot)) with
      | .error e => .error e
      | .ok (newSlot, sys2) =>
        .ok (newSlot, (allocPhysicalID sys).1,
             { tr with writable := ((allocPhysicalID sys).1, pid) :: tr.writable },
             refRelease sys2 oldSlot)

/-- The depth-growth loop of `PageTable.set`: while the pagenum exceeds the
tree's range, push a new root node whose entry 0 is the old root.  The Go
loop has no intrinsic bound; `fuel` (chosen ≥ the iterations needed
whenever `perPage ≥ 2`) covers it. -/
def ptSetGrow : Nat → Sys → Tr → Nat → Except DBErr (Tr × Sys)
  | 0, _, _, _ => .error .fuelOut
  | fuel + 1, sys, tr, pagenum =>
    if pagenum ≥ rpNumPages sys.root1 then
      match cacheNew (allocPhysicalID sys).2 (allocPhysicalID sys).1 none with
      | .error e => .error e
      | .ok (slot, sys1) =>
        let tr1 : Tr := { tr with writable := ((allocPhysicalID sys).1, 0) :: tr.writable }
        let sys2 := refData sys1 slot
        let sys3 := setSlotData sys2 slot
          (pageSetU64 (slotPage sys2 slot) 0 sys2.root1.pageTable)
        let sys4 := refRelease sys3 slot
        ptSetGrow fuel
          { sys4 with root1 :=
            { sys4.root1 with
              pageTable := (allocPhysicalID sys).1
              depth := sys4.root1.depth + 1 } }
          tr1 pagenum
    else .ok (tr, sys)

/-- The leaf write of `PageTable.set`. -/
def ptSetLeaf (sys : Sys) (tr : Tr) (pagenum pid slot : Nat) :
    Except DBErr (Tr × Sys) :=
  let sysA := refData sys slot
  let sysB := setSlotData sysA slot
    (pageSetU64 (slotPage sysA slot) (pagenum * 8) pid)
  .ok (tr, refRelease sysB slot)

/-- The descend loop of `PageTable.set`: every node on the path is made
writable (shadow copies tracked in `tr.writable`), missing children are
allocated as fresh zero pages, the parent entry is rewritten to the new
child pid. -/
def ptSetLoop (perPage pid : Nat) :
    Nat → Sys → Tr → Nat → Nat → Nat → Except DBErr (Tr × Sys)
  | 0, sys, tr, _, pagenum, slot => ptSetLeaf sys tr pagenum pid slot
  | 1, sys, tr, _, pagenum, slot => ptSetLeaf sys tr pagenum pid slot
  | depth + 2, sys, tr, perID, pagenum, slot =>
    let sysA := refData sys slot
    let child := pageU64 (slotPage sysA slot) (pagenum / perID * 8)
    if pidPagenum child = 0 then
      match cacheNew (allocPhysicalID sysA).2 (allocPhysicalID sysA).1 none with
      | .error e => .error e
      | .ok (nslot, sysB) =>
        let tr1 : Tr := { tr with writable := ((allocPhysicalID sysA).1, 0) :: tr.writable }
        let sysC := setSlotData sysB slot
          (pageSetU64 (slotPage sysB slot) (pagenum / perID * 8)
            (allocPhysicalID sysA).1)
        let sysD := refRelease sysC slot
        ptSetLoop perPage pid (depth + 1) sysD tr1 (perID / perPage)
          (pagenum % perID) nslot
    else
      match ptWritable sysA tr child with
      | .error e => .error e
      | .ok (nslot, npid, tr1, sysB) =>
        let sysC := setSlotData sysB slot
          (pageSetU64 (slotPage sysB slot) (pagenum / perID * 8) npid)
        let sysD := refRelease sysC slot
        ptSetLoop perPage pid (depth + 1) sysD tr1 (perID / perPage)
          (pagenum % perID) nslot

/-- `PageTable.set` (db/pagetable.go): grow the depth as needed, make the
root node writable (updating `root1.PageTable`), then descend and write
the leaf entry. -/
def ptSet (sys : Sys) (tr : Tr) (id pid : Nat) : Except DBErr (Tr × Sys) :=
  match ptSetGrow (lidPagenum id + 2) sys tr (lidPagenum id) with
  | .error e => .error e
  | .ok (tr1, sys1) =>
    match ptWritable sys1 tr1 sys1.root1.pageTable with
    | .error e => .error e
    | .ok (slot, npid, tr2, sys2) =>
      ptSetLoop (rpIdsPerPage sys2.root1) pid sys2.root1.depth
        { sys2 with root1 := { sys2.root1 with pageTable := npid } }
        tr2 (rpIdsPerPage sys2.root1 ^ (sys2.root1.depth - 1))
        (lidPagenum id) slot

/-- `BaseTransaction.NewPage` (db/basetransaction.go): allocate logical and
physical IDs, install the mapping, record `writable[pid] = 0`, then obtain
the page via `cache.Get(pid)` — a device read — and bump the refcount once
more for the caller.  Returns slot, logical ID, transaction and state. -/
def trNewPage (sys : Sys) (tr : Tr) : Except DBErr (Nat × Nat × Tr × Sys) :=
  if ¬ tr.rw then .error .readOnly
  else
    match ptSet (allocPhysicalID (allocLogicalID sys).2).2 tr
        (allocLogicalID sys).1 (allocPhysicalID (allocLogicalID sys).2).1 with
    | .error e => .error e
    | .ok (tr1, sys1) =>
      let tr2 : Tr := { tr1 with writable :=
        ((allocPhysicalID (allocLogicalID sys).2).1, 0) :: tr1.writable }
      match cacheGet sys1 (allocPhysicalID (allocLogicalID sys).2).1 with
      | .error e => .error e
      | .ok (slot, sys2) =>
        .ok (slot, (allocLogicalID sys).1, tr2,
          { sys2 with
            cache := setSlot sys2.cache slot
              { sys2.cache.lru slot with
                refcount := (sys2.cache.lru slot).refcount + 1 } })

/-- `BaseTransaction.ReadablePage`: translate and `cache.Get`. -/
def trReadablePage (sys : Sys) (id : Nat) : Except DBErr (Nat × Sys) :=
  match ptGet sys id with
  | .error e => .error e
  | .ok (pid, sys1) => cacheGet sys1 pid

/-! ### C2: root-block corruption resilience -/

theorem prfDataF_length {enc : Block → Block}
    (henc : ∀ b : Block, (enc b).length = b.length) (d : List Nat) :
    (prfDataF enc d).length = 16 := by
  have h1 := prfWrite_wf henc PRFWF.init d
  have h2 : PRFWF (prfPad enc (prfWrite enc PRFState.init d)) := by
    unfold prfPad
    split
    · exact prfWrite_wf henc h1 _
    · exact h1
  exact h2.2.2

theorem rpBytes80_length (r : RootPointer) : (rpBytes80 r).length = 80 := by
  simp [rpBytes80, u64be, u16be, u32be]

theorem rootWindow_length (hcf : Block → Block)
    (hhcf : ∀ b : Block, (hcf b).length = b.length) (r : RootPointer) :
    (rootWindow hcf r).length = 96 := by
  simp [rootWindow, rpBytes80_length, prfDataF_length hhcf]

/-- Every root-pointer field fits its on-disk width. -/
def rpWF (r : RootPointer) : Prop :=
  r.magic < 2 ^ 64 ∧ r.flags < 2 ^ 16 ∧ r.depth < 2 ^ 16 ∧
  r.pageSize < 2 ^ 32 ∧ r.timestamp < 2 ^ 64 ∧ r.generation < 2 ^ 64 ∧
  r.nextPhysical < 2 ^ 64 ∧ r.nextLogical < 2 ^ 64 ∧ r.pageTable < 2 ^ 64 ∧
  r.freelist < 2 ^ 64 ∧ r.snapshots < 2 ^ 64 ∧ r.userData < 2 ^ 64

instance (r : RootPointer) : Decidable (rpWF r) := by
  unfold rpWF
  infer_instance

/-- Parsing an uncorrupted window recovers every field. -/
theorem parseFields_rootWindow (hcf : Block → Block) (r : RootPointer)
    (hwf : rpWF r) : parseFields (rootWindow hcf r) = r := by
  obtain ⟨h1, h2, h3, h4, h5, h6, h7, h8, h9, h10, h11, h12⟩ := hwf
  rcases r with ⟨m, fl, d, ps, ts, g, np, nl, pt, fr, sn, ud⟩
  simp only at h1 h2 h3 h4 h5 h6 h7 h8 h9 h10 h11 h12
  unfold parseFields winU16 winU32 winU64 beU64
  simp [rootWindow, rpBytes80, u64be, u16be, u32be]
  refine ⟨?_, ?_, ?_, ?_, ?_, ?_, ?_, ?_, ?_, ?_, ?_, ?_⟩ <;> omega

/-- An uncorrupted window passes the checksum check and parses to the
formatted pointer. -/
theorem parseRootPointer_rootWindow (hcf : Block → Block) (r : RootPointer)
    (hwf : rpWF r) :
    parseRootPointer hcf (rootWindow hcf r) = .ok r := by
  have htake : (rootWindow hcf r).take 80 = rpBytes80 r := by
    unfold rootWindow
    rw [List.take_append_of_le_length (by rw [rpBytes80_length]),
      List.take_of_length_le (by rw [rpBytes80_length])]
  have hdrop : (rootWindow hcf r).drop 80 = prfDataF hcf (rpBytes80 r) := by
    unfold rootWindow
    rw [← rpBytes80_length r, List.drop_left]
  unfold parseRootPointer
  rw [htake, hdrop, if_pos rfl, parseFields_rootWindow hcf r hwf]

theorem parseRootPointer_gen (hcf : Block → Block) (win : List Nat)
    (rp : RootPointer) (h : parseRootPointer hcf win = .ok rp) :
    rp.generation = winU64 win 24 := by
  unfold parseRootPointer at h
  split at h
  · cases Except.ok.inj h
    rfl
  · exact absurd h (by simp)

theorem parseLoop_cons (hcf : Block → Block) (buf : Page) (k : Nat)
    (ks : List Nat) (best : RootPointer) :
    parseLoop hcf buf (k :: ks) best =
      if winU64 (winBytes buf k) 24 ≤ best.generation then
        parseLoop hcf buf ks best
      else match parseRootPointer hcf (winBytes buf k) with
        | .error _ => parseLoop hcf buf ks best
        | .ok rp => parseLoop hcf buf ks rp := rfl

/-- The best generation never decreases while the window loop runs. -/
theorem parseLoop_gen_mono (hcf : Block → Block) (buf : Page) :
    ∀ (ks : List Nat) (best : RootPointer),
    best.generation ≤ (parseLoop hcf buf ks best).generation := by
  intro ks
  induction ks with
  | nil =>
    intro best
    exact Nat.le_refl _
  | cons k ks ih =>
    intro best
    rw [parseLoop_cons]
    split
    · exact ih best
    · rename_i hgt
      split
      · exact ih best
      · rename_i rp hp
        calc best.generation ≤ rp.generation := by
              rw [parseRootPointer_gen hcf _ rp hp]
              omega
          _ ≤ _ := ih rp

/-- The loop result dominates the generation of every verifying window. -/
theorem parseLoop_dominates (hcf : Block → Block) (buf : Page) :
    ∀ (ks : List Nat) (best : RootPointer) (k : Nat), k ∈ ks →
    ∀ rp', parseRootPointer hcf (winBytes buf k) = .ok rp' →
    rp'.generation ≤ (parseLoop hcf buf ks best).generation := by
  intro ks
  induction ks with
  | nil =>
    intro best k hk
    exact absurd hk (List.not_mem_nil k)
  | cons a ks ih =>
    intro best k hk rp' hp
    rcases List.mem_cons.mp hk with heq | hmem
    · subst heq
      rw [parseLoop_cons]
      split
      · rename_i hle
        have hgen := parseRootPointer_gen hcf _ rp' hp
        calc rp'.generation ≤ best.generation := by omega
          _ ≤ _ := parseLoop_gen_mono hcf buf ks best
      · split
        · rename_i e hee
          rw [hp] at hee
          exact absurd hee (by simp)
        · rename_i rp hee
          rw [hp] at hee
          cases Except.ok.inj hee
          exact parseLoop_gen_mono hcf buf ks rp'
    · rw [parseLoop_cons]
      split
      · exact ih best k hmem rp' hp
      · split
        · exact ih best k hmem rp' hp
        · exact ih _ k hmem rp' hp

/-- The loop result is the initial best or the parse of some window. -/
theorem parseLoop_from_window (hcf : Block → Block) (buf : Page) :
    ∀ (ks : List Nat) (best : RootPointer),
    parseLoop hcf buf ks best = best ∨
    ∃ k ∈ ks, parseRootPointer hcf (winBytes buf k)
      = .ok (parseLoop hcf buf ks best) := by
  intro ks
  induction ks with
  | nil =>
    intro best
    left
    rfl
  | cons a ks ih =>
    intro best
    rw [parseLoop_cons]
    split
    · rcases ih best with h | ⟨k, hk, hp⟩
      · left; exact h
      · right; exact ⟨k, List.mem_cons_of_mem a hk, hp⟩
    · split
      · rcases ih best with h | ⟨k, hk, hp⟩
        · left; exact h
        · right; exact ⟨k, List.mem_cons_of_mem a hk, hp⟩
      · rename_i rp hee
        rcases ih rp with h | ⟨k, hk, hp⟩
        · right
          refine ⟨a, List.mem_cons_self a ks, ?_⟩
          rw [h]
          exact hee
        · right; exact ⟨k, List.mem_cons_of_mem a hk, hp⟩

theorem winBytes_congr (b1 b2 : Page) (h : ∀ j, b1 j = b2 j) (k : Nat) :
    winBytes b1 k = winBytes b2 k := by
  unfold winBytes pageBytes
  exact List.map_congr_left (fun i _ => h _)

theorem parseLoop_congr (hcf : Block → Block) (b1 b2 : Page)
    (h : ∀ j, b1 j = b2 j) :
    ∀ (ks : List Nat) (best : RootPointer),
    parseLoop hcf b1 ks best = parseLoop hcf b2 ks best := by
  intro ks
  induction ks with
  | nil =>
    intro best
    rfl
  | cons a ks ih =>
    intro best
    rw [parseLoop_cons, parseLoop_cons, winBytes_congr b1 b2 h a]
    split
    · exact ih best
    · split
      · exact ih best
      · exact ih _

theorem parseRootBlock_congr (hcf : Block → Block) (b1 b2 : Page)
    (h : ∀ j, b1 j = b2 j) (len : Nat) :
    parseRootBlock hcf b1 len = parseRootBlock hcf b2 len := by
  unfold parseRootBlock
  rw [parseLoop_congr hcf b1 b2 h]

/-- Pigeonhole: fewer corrupted positions than windows leave one window
whose byte range is untouched. -/
theorem exists_clean_window (ps : List Nat) (n : Nat) (hn : ps.length < n) :
    ∃ k, k < n ∧ ∀ p ∈ ps, p / 96 ≠ k := by
  by_contra hcon
  push_neg at hcon
  have hsub : Finset.range n ⊆ (ps.map (fun p => p / 96)).toFinset := by
    intro x hx
    obtain ⟨p, hp, hpx⟩ := hcon x (Finset.mem_range.mp hx)
    rw [List.mem_toFinset]
    exact List.mem_map.mpr ⟨p, hp, hpx⟩
  have hc1 := Finset.card_le_card hsub
  rw [Finset.card_range] at hc1
  have hc2 := (ps.map (fun p => p / 96)).toFinset_card_le
  rw [List.length_map] at hc2
  omega

/-- A window whose bytes all agree with the formatted root block is the
format's window verbatim. -/
theorem winBytes_intact (hcf : Block → Block)
    (hhcf : ∀ b : Block, (hcf b).length = b.length)
    (r : RootPointer) (pageSize : Nat) (buf : Page) (k : Nat)
    (hk : k < numWins pageSize)
    (hb : ∀ i, i < 96 →
      buf (96 * k + i) = rootBlockPage hcf r pageSize (96 * k + i)) :
    winBytes buf k = rootWindow hcf r := by
  unfold winBytes pageBytes
  have hlen := rootWindow_length hcf hhcf r
  apply List.ext_getElem
  · simp [hlen]
  · intro i hi1 hi2
    simp only [List.getElem_map, List.getElem_range]
    have hi : i < 96 := by simpa using hi1
    rw [hb i hi]
    unfold rootBlockPage
    rw [if_pos (by omega)]
    have hmod : (96 * k + i) % 96 = i := by omega
    rw [hmod, List.getD_eq_getElem _ _ (by omega)]

/-- `cache.Get` on a freshly opened DB: the empty cache misses, the clock
hands out slot 0 without any flush, and the page is read from the device. -/
theorem cacheGet_fresh (pageSize : Nat) (dev : Device) (pid : Nat)
    (hsize : pidPagenum pid * pageSize + pageSize ≤ dev.size) :
    cacheGet (newSys pageSize dev) pid
      = .ok (0, { newSys pageSize dev with cache :=
          { setSlot (newSys pageSize dev).cache 0
              { pid := pid,
                data := fun i => dev.content (pidPagenum pid * pageSize + i),
                refcount := 1,
                dirty := false }
            with cached := [(pid, 0)] } }) := by
  unfold cacheGet
  rw [show cacheFindSlot (newSys pageSize dev).cache pid = none from rfl]
  dsimp only
  have hloop : cacheNewRef (newSys pageSize dev)
      = .ok (0, newSys pageSize dev) := by
    unfold cacheNewRef
    show cacheNewRefLoop 0 (128 * 1024 * 1024 / pageSize + 1) _ 0 = _
    simp only [cacheNewRefLoop]
    rw [if_pos (show ((newSys pageSize dev).cache.lru 0).refcount = 0 from
        rfl),
      if_neg (show ¬ ((newSys pageSize dev).cache.lru 0).pid ≠ 0 from
        fun h => h rfl)]
    rfl
  rw [hloop]
  dsimp only
  rw [if_neg (show ¬ ((newSys pageSize dev).cache.lru 0).dirty = true from
    fun h => nomatch h)]
  have hrd : deviceReadPage (newSys pageSize dev).dev
      (newSys pageSize dev).pageSize
      (pidPagenum pid * (newSys pageSize dev).pageSize)
      = .ok (fun i => dev.content (pidPagenum pid * pageSize + i)) := by
    show deviceReadPage dev pageSize (pidPagenum pid * pageSize) = _
    unfold deviceReadPage
    rw [if_pos hsize]
  rw [hrd]
  dsimp only
  rfl

/-- `Open` of a device: on success, `root0` is what `parseRootBlock` makes
of the device's page 0. -/
theorem dbOpen_eval (hcf : Block → Block) (pageSize : Nat) (dev : Device)
    (hsize : pageSize ≤ dev.size) (r : RootPointer)
    (hparse : parseRootBlock hcf
      (fun i => dev.content (pidPagenum 0 * pageSize + i)) pageSize
      = .ok r) :
    ∃ sys, dbOpen hcf pageSize dev = .ok sys ∧ sys.root0 = r := by
  have hsz : pidPagenum 0 * pageSize + pageSize ≤ dev.size := by
    rw [show pidPagenum 0 = 0 from rfl]
    omega
  unfold dbOpen ptOpen
  rcases hget : cacheGet (newSys pageSize dev) 0 with e | p
  · rw [cacheGet_fresh pageSize dev 0 hsz] at hget
    exact absurd hget (by simp)
  · obtain ⟨slot, sys2⟩ := p
    dsimp only
    rw [cacheGet_fresh pageSize dev 0 hsz] at hget
    obtain ⟨h1, h2⟩ := Prod.mk.inj (Except.ok.inj hget)
    cases h1
    have hsp : slotPage sys2 0
        = fun i => dev.content (pidPagenum 0 * pageSize + i) := by
      rw [← h2]
      rfl
    have hps2 : sys2.pageSize = pageSize := by
      rw [← h2]
      rfl
    rw [hsp, hps2, hparse]
    dsimp only
    exact ⟨_, rfl, rfl⟩

/-- C2: a committed root block still opens after corrupting fewer than
`PageSize/96` byte positions of page 0: some window's checksum verifies, so
`Open` succeeds, the adopted pointer is the parse of a verifying window,
and its generation dominates the generation of every verifying window. -/
theorem root_block_resilient (hcf : Block → Block)
    (hhcf : ∀ b : Block, (hcf b).length = b.length)
    (r : RootPointer) (pageSize : Nat) (ps : List Nat) (dev : Device)
    (hdvd : ¬ 96 ∣ pageSize) (hwf : rpWF r) (hgen : 1 ≤ r.generation)
    (hsize : pageSize ≤ dev.size)
    (hcard : ps.length + 1 ≤ pageSize / 96)
    (hbuf : ∀ j, j ∉ ps → dev.content j = rootBlockPage hcf r pageSize j) :
    ∃ rp sys,
      dbOpen hcf pageSize dev = .ok sys ∧ sys.root0 = rp
      ∧ (∃ k, k < numWins pageSize
          ∧ parseRootPointer hcf (winBytes dev.content k) = .ok rp)
      ∧ (∀ k, k < numWins pageSize → ∀ rp',
          parseRootPointer hcf (winBytes dev.content k) = .ok rp' →
          rp'.generation ≤ rp.generation) := by
  have hnw : numWins pageSize = pageSize / 96 := by
    unfold numWins
    omega
  obtain ⟨k₀, hk₀n, hk₀⟩ := exists_clean_window ps (numWins pageSize)
    (by omega)
  have hintact : winBytes dev.content k₀ = rootWindow hcf r := by
    apply winBytes_intact hcf hhcf r pageSize dev.content k₀ hk₀n
    intro i hi
    apply hbuf
    intro hmem
    exact hk₀ _ hmem (by omega)
  have hpk₀ : parseRootPointer hcf (winBytes dev.content k₀) = .ok r := by
    rw [hintact]
    exact parseRootPointer_rootWindow hcf r hwf
  have hge : r.generation ≤ (parseLoop hcf dev.content
      (List.range (numWins pageSize)) {}).generation :=
    parseLoop_dominates hcf dev.content _ {} k₀
      (List.mem_range.mpr hk₀n) r hpk₀
  have hne : ¬ (parseLoop hcf dev.content
      (List.range (numWins pageSize)) {}).generation = 0 := by
    omega
  have hok : parseRootBlock hcf dev.content pageSize
      = .ok (parseLoop hcf dev.content (List.range (numWins pageSize)) {}) := by
    unfold parseRootBlock
    rw [if_neg hne]
  have hcong : parseRootBlock hcf
      (fun i => dev.content (pidPagenum 0 * pageSize + i)) pageSize
      = parseRootBlock hcf dev.content pageSize :=
    parseRootBlock_congr hcf _ _
      (fun j => by
        rw [show pidPagenum 0 * pageSize + j = j from by
          rw [show pidPagenum 0 = 0 from rfl]
          omega])
      pageSize
  obtain ⟨sys, hdb, hroot⟩ := dbOpen_eval hcf pageSize dev hsize _
    (by rw [hcong]; exact hok)
  refine ⟨parseLoop hcf dev.content (List.range (numWins pageSize)) {},
    sys, hdb, hroot, ?_, ?_⟩
  · rcases parseLoop_from_window hcf dev.content
      (List.range (numWins pageSize)) {} with h | ⟨k, hk, hp⟩
    · exfalso
      apply hne
      rw [h]
    · exact ⟨k, List.mem_range.mp hk, hp⟩
  · intro k hkn rp' hp
    exact parseLoop_dominates hcf dev.content _ {} k
      (List.mem_range.mpr hkn) rp' hp

/-- A committed root pointer for a 512-byte-page DB. -/
def rW : RootPointer :=
  { magic := rootPtrMagic
    depth := 1
    pageSize := 512
    generation := 1
    nextPhysical := 2
    nextLogical := 1
    pageTable := 1 }

/-- Page 0 of `rW`'s root block with the first byte of four of its five
windows corrupted. -/
def bufW : Page := fun j =>
  if j = 0 ∨ j = 96 ∨ j = 192 ∨ j = 288 then 255
  else rootBlockPage (fun b => b) rW 512 j

/-- Witness for C2: four corrupted windows out of five still open. -/
theorem root_block_resilient_witness :
    ∃ rp sys,
      dbOpen (fun b => b) 512 ⟨512, bufW⟩ = .ok sys ∧ sys.root0 = rp
      ∧ (∃ k, k < numWins 512
          ∧ parseRootPointer (fun b => b) (winBytes bufW k) = .ok rp)
      ∧ (∀ k, k < numWins 512 → ∀ rp',
          parseRootPointer (fun b => b) (winBytes bufW k) = .ok rp' →
          rp'.generation ≤ rp.generation) :=
  root_block_resilient (fun b => b) (fun b => rfl) rW 512 [0, 96, 192, 288]
    ⟨512, bufW⟩ (by decide) (by decide) (by decide) (by decide) (by decide)
    (fun j hj => by
      show bufW j = rootBlockPage (fun b => b) rW 512 j
      unfold bufW
      rw [if_neg (fun hc => hj (by
        rcases hc with h | h | h | h <;> subst h <;> decide))])

/-! ### C1: page-table set / commit / get round trip -/

/-- Reading a 64-bit entry back from where it was just written. -/
theorem pageU64_set_self (p : Page) (off v : Nat) (hv : v < 2 ^ 64) :
    pageU64 (pageSetU64 p off v) off = v := by
  simp only [pageU64, pageSetU64]
  rw [if_pos (show off ≤ off ∧ off < off + 8 by omega),
    if_pos (show off ≤ off + 1 ∧ off + 1 < off + 8 by omega),
    if_pos (show off ≤ off + 2 ∧ off + 2 < off + 8 by omega),
    if_pos (show off ≤ off + 3 ∧ off + 3 < off + 8 by omega),
    if_pos (show off ≤ off + 4 ∧ off + 4 < off + 8 by omega),
    if_pos (show off ≤ off + 5 ∧ off + 5 < off + 8 by omega),
    if_pos (show off ≤ off + 6 ∧ off + 6 < off + 8 by omega),
    if_pos (show off ≤ off + 7 ∧ off + 7 < off + 8 by omega)]
  simp [u64be, Nat.sub_self, Nat.add_sub_cancel_left]
  omega

/-- A 64-bit write at a disjoint offset does not change the entry. -/
theorem pageU64_set_other (p : Page) (off1 off2 v : Nat)
    (h : off1 + 8 ≤ off2 ∨ off2 + 8 ≤ off1) :
    pageU64 (pageSetU64 p off2 v) off1 = pageU64 p off1 := by
  simp only [pageU64, pageSetU64]
  rw [if_neg (show ¬ (off2 ≤ off1 ∧ off1 < off2 + 8) by omega),
    if_neg (show ¬ (off2 ≤ off1 + 1 ∧ off1 + 1 < off2 + 8) by omega),
    if_neg (show ¬ (off2 ≤ off1 + 2 ∧ off1 + 2 < off2 + 8) by omega),
    if_neg (show ¬ (off2 ≤ off1 + 3 ∧ off1 + 3 < off2 + 8) by omega),
    if_neg (show ¬ (off2 ≤ off1 + 4 ∧ off1 + 4 < off2 + 8) by omega),
    if_neg (show ¬ (off2 ≤ off1 + 5 ∧ off1 + 5 < off2 + 8) by omega),
    if_neg (show ¬ (off2 ≤ off1 + 6 ∧ off1 + 6 < off2 + 8) by omega),
    if_neg (show ¬ (off2 ≤ off1 + 7 ∧ off1 + 7 < off2 + 8) by omega)]

theorem pageU64_zero (off : Nat) : pageU64 zeroPage off = 0 := by
  simp [pageU64, zeroPage]

/-- Two pages agreeing on an 8-byte window have the same entry there. -/
theorem pageU64_congr (p q : Page) (off : Nat)
    (h : ∀ j, off ≤ j → j < off + 8 → p j = q j) :
    pageU64 p off = pageU64 q off := by
  unfold pageU64
  rw [h off (Nat.le_refl off) (by omega),
    h (off + 1) (by omega) (by omega),
    h (off + 2) (by omega) (by omega),
    h (off + 3) (by omega) (by omega),
    h (off + 4) (by omega) (by omega),
    h (off + 5) (by omega) (by omega),
    h (off + 6) (by omega) (by omega),
    h (off + 7) (by omega) (by omega)]

theorem winBytes_congr_lt (b1 b2 : Page) (n : Nat)
    (h : ∀ j, j < 96 * n → b1 j = b2 j) (k : Nat) (hk : k < n) :
    winBytes b1 k = winBytes b2 k := by
  unfold winBytes pageBytes
  refine List.map_congr_left (fun i hi => ?_)
  have : i < 96 := List.mem_range.mp hi
  exact h _ (by omega)

theorem parseLoop_congr_lt (hcf : Block → Block) (b1 b2 : Page) (n : Nat)
    (h : ∀ j, j < 96 * n → b1 j = b2 j) :
    ∀ (ks : List Nat) (best : RootPointer), (∀ k ∈ ks, k < n) →
    parseLoop hcf b1 ks best = parseLoop hcf b2 ks best := by
  intro ks
  induction ks with
  | nil =>
    intro best _
    rfl
  | cons a ks ih =>
    intro best hks
    rw [parseLoop_cons, parseLoop_cons,
      winBytes_congr_lt b1 b2 n h a (hks a (List.mem_cons_self a ks))]
    have hks' : ∀ k ∈ ks, k < n :=
      fun k hk => hks k (List.mem_cons_of_mem a hk)
    split
    · exact ih best hks'
    · split
      · exact ih best hks'
      · exact ih _ hks'

theorem parseRootBlock_congr_lt (hcf : Block → Block) (b1 b2 : Page)
    (len : Nat) (h : ∀ j, j < 96 * numWins len → b1 j = b2 j) :
    parseRootBlock hcf b1 len = parseRootBlock hcf b2 len := by
  unfold parseRootBlock
  rw [parseLoop_congr_lt hcf b1 b2 (numWins len) h _ {}
    (fun k hk => List.mem_range.mp hk)]

/-- Parsing an uncorrupted formatted root block recovers the pointer. -/
theorem parseRootBlock_format (hcf : Block → Block)
    (hhcf : ∀ b : Block, (hcf b).length = b.length)
    (r : RootPointer) (len : Nat) (hwf : rpWF r) (hgen : 1 ≤ r.generation)
    (hlen : 96 < len) :
    parseRootBlock hcf (rootBlockPage hcf r len) len = .ok r := by
  have hwin : ∀ k, k < numWins len →
      parseRootPointer hcf (winBytes (rootBlockPage hcf r len) k) = .ok r := by
    intro k hk
    rw [winBytes_intact hcf hhcf r len _ k hk (fun i _ => rfl)]
    exact parseRootPointer_rootWindow hcf r hwf
  have h1 : 1 ≤ numWins len := by
    unfold numWins
    omega
  have hge : r.generation ≤ (parseLoop hcf (rootBlockPage hcf r len)
      (List.range (numWins len)) {}).generation :=
    parseLoop_dominates hcf _ _ {} 0 (List.mem_range.mpr (by omega)) r
      (hwin 0 (by omega))
  have hres : parseLoop hcf (rootBlockPage hcf r len)
      (List.range (numWins len)) {} = r := by
    rcases parseLoop_from_window hcf (rootBlockPage hcf r len)
      (List.range (numWins len)) {} with h | ⟨k, hk, hp⟩
    · exfalso
      rw [h] at hge
      simp only at hge
      omega
    · rw [hwin k (List.mem_range.mp hk)] at hp
      exact (Except.ok.inj hp).symm
  unfold parseRootBlock
  rw [hres, if_neg (by omega)]

/-- `Open` on a device: the exact state it produces. -/
theorem dbOpen_state (hcf : Block → Block) (pageSize : Nat) (dev : Device)
    (hsize : pageSize ≤ dev.size) (r : RootPointer)
    (hparse : parseRootBlock hcf
      (fun i => dev.content (pidPagenum 0 * pageSize + i)) pageSize
      = .ok r) :
    dbOpen hcf pageSize dev
      = .ok { { newSys pageSize dev with cache :=
          { setSlot (newSys pageSize dev).cache 0
              { pid := 0,
                data := fun i => dev.content (pidPagenum 0 * pageSize + i),
                refcount := 1,
                dirty := false }
            with cached := [(0, 0)] } }
          with root0 := r, rootSlot := 0 } := by
  have hsz : pidPagenum 0 * pageSize + pageSize ≤ dev.size := by
    rw [show pidPagenum 0 = 0 from rfl]
    omega
  unfold dbOpen ptOpen
  rw [cacheGet_fresh pageSize dev 0 hsz]
  dsimp only
  rw [show slotPage { newSys pageSize dev with cache :=
      { setSlot (newSys pageSize dev).cache 0
          { pid := 0,
            data := fun i => dev.content (pidPagenum 0 * pageSize + i),
            refcount := 1,
            dirty := false }
        with cached := [(0, 0)] } } 0
      = (fun i => dev.content (pidPagenum 0 * pageSize + i)) from rfl]
  rw [show ({ newSys pageSize dev with cache :=
      { setSlot (newSys pageSize dev).cache 0
          { pid := 0,
            data := fun i => dev.content (pidPagenum 0 * pageSize + i),
            refcount := 1,
            dirty := false }
        with cached := [(0, 0)] } } : Sys).pageSize = pageSize from rfl]
  rw [hparse]

/-- The device for the C1 scenario: 8 zeroed 512-byte pages. -/
def c1Dev : Device := ⟨4096, fun _ => 0⟩

/-! #### Step equations for the cache and device operations -/

/-- The clock scan stops at a free pid-0 slot (no flush, no uncache). -/
theorem cacheNewRefLoop_found (start fuel : Nat) (sys : Sys) (cur : Nat)
    (h0 : (sys.cache.lru cur).refcount = 0)
    (hp : (sys.cache.lru cur).pid = 0) :
    cacheNewRefLoop start (fuel + 1) sys cur
      = .ok (cur, { sys with cache := { sys.cache with clock := cur } }) := by
  simp only [cacheNewRefLoop]
  rw [if_pos h0, if_neg (by simp [hp])]

/-- The clock scan skips a slot with a live reference. -/
theorem cacheNewRefLoop_skip (start fuel : Nat) (sys : Sys) (cur : Nat)
    (h0 : ¬ (sys.cache.lru cur).refcount = 0)
    (hw : ¬ (cur + 1) % sys.cache.numRefs = start) :
    cacheNewRefLoop start (fuel + 1) sys cur
      = cacheNewRefLoop start fuel sys ((cur + 1) % sys.cache.numRefs) := by
  simp only [cacheNewRefLoop]
  rw [if_neg h0, if_neg hw]

/-- `newRef` when the slot at the clock hand is free and holds pid 0. -/
theorem cacheNewRef_at_clock (sys : Sys)
    (h0 : (sys.cache.lru sys.cache.clock).refcount = 0)
    (hp : (sys.cache.lru sys.cache.clock).pid = 0) :
    cacheNewRef sys = .ok (sys.cache.clock, sys) := by
  unfold cacheNewRef
  rw [cacheNewRefLoop_found _ _ _ _ h0 hp]

/-- `Cache.New` as one equation. -/
theorem cacheNew_eq (sys : Sys) (pid : Nat) (init : Option Page)
    (slot : Nat) (sys1 : Sys)
    (hmiss : cacheFindSlot sys.cache pid = none)
    (hnr : cacheNewRef sys = .ok (slot, sys1)) :
    cacheNew sys pid init = .ok (slot,
      { sys1 with
        cache :=
          { setSlot sys1.cache slot
              { pid := pid,
                data := init.getD zeroPage,
                refcount := (sys1.cache.lru slot).refcount + 1,
                dirty := (sys1.cache.lru slot).dirty }
            with cached := (pid, slot) :: sys1.cache.cached } }) := by
  unfold cacheNew
  rw [hmiss]
  dsimp only
  rw [hnr]

/-- `Cache.Get` on a hit as one equation. -/
theorem cacheGet_hit (sys : Sys) (pid slot : Nat)
    (hfind : cacheFindSlot sys.cache pid = some slot)
    (hpid : (sys.cache.lru slot).pid = pid) :
    cacheGet sys pid = .ok (slot,
      { sys with
        cache :=
          setSlot sys.cache slot
            { sys.cache.lru slot with
              refcount := (sys.cache.lru slot).refcount + 1 } }) := by
  unfold cacheGet
  rw [hfind]
  dsimp only
  rw [if_neg (by simp [hpid])]

/-- `Cache.Get` on a miss as one equation. -/
theorem cacheGet_miss_eq (sys : Sys) (pid slot : Nat) (sys1 : Sys) (pg : Page)
    (hmiss : cacheFindSlot sys.cache pid = none)
    (hnr : cacheNewRef sys = .ok (slot, sys1))
    (hdirty : ¬ (sys1.cache.lru slot).dirty = true)
    (hread : deviceReadPage sys1.dev sys1.pageSize
      (pidPagenum pid * sys1.pageSize) = .ok pg) :
    cacheGet sys pid = .ok (slot,
      { sys1 with
        cache :=
          { setSlot sys1.cache slot
              { pid := pid, data := pg,
                refcount := (sys1.cache.lru slot).refcount + 1,
                dirty := false }
            with cached := (pid, slot) :: sys1.cache.cached } }) := by
  unfold cacheGet
  rw [hmiss]
  dsimp only
  rw [hnr]
  dsimp only
  rw [if_neg hdirty, hread]

/-- A device write inside the bounds as one equation. -/
theorem deviceWritePage_eq (d : Device) (ps off : Nat) (p : Page)
    (h : off + ps ≤ d.size) :
    deviceWritePage d ps off p
      = .ok ⟨d.size, fun a => if off ≤ a ∧ a < off + ps then p (a - off)
          else d.content a⟩ := by
  unfold deviceWritePage
  rw [if_pos h]

/-- Flushing a dirty slot as one equation. -/
theorem refFlush_dirty_eq (sys : Sys) (slot : Nat) (d : Device)
    (hd : (sys.cache.lru slot).dirty = true)
    (hw : deviceWritePage sys.dev sys.pageSize
      (pidPagenum (sys.cache.lru slot).pid * sys.pageSize)
      (sys.cache.lru slot).data = .ok d) :
    refFlush sys slot = .ok { sys with
      dev := d
      cache := setSlot sys.cache slot
        { sys.cache.lru slot with dirty := false } } := by
  unfold refFlush
  rw [if_pos hd, hw]

/-- Flushing a clean slot does nothing. -/
theorem refFlush_clean_eq (sys : Sys) (slot : Nat)
    (hd : ¬ (sys.cache.lru slot).dirty = true) :
    refFlush sys slot = .ok sys := by
  unfold refFlush
  rw [if_neg hd]

/-- Flushing a two-element residency list. -/
theorem cacheFlush_two (sys sysA sysB : Sys)
    (hc : sys.cache.cached = [(1, 1), (0, 0)])
    (hfA : refFlush sys 1 = .ok sysA)
    (hfB : refFlush sysA 0 = .ok sysB) :
    cacheFlush sys = .ok sysB := by
  unfold cacheFlush
  rw [hc]
  simp only [cacheFlushList]
  rw [hfA]
  dsimp only
  rw [hfB]

/-! #### The freshly created DB, stage by stage -/

/-- The pristine state `Create` starts from. -/
def c1N0 : Sys := newSys 512 c1Dev

/-- After `cache.New(0, nil)`: the root-block page held in slot 0. -/
def c1C1 : Sys :=
  { c1N0 with
    cache :=
      { setSlot c1N0.cache 0 ⟨0, zeroPage, 1, false⟩
        with cached := [(0, 0)] } }

/-- Slot 0 marked dirty by `Data()`. -/
def c1C2 : Sys := refData c1C1 0

/-- The clock hand after scanning past the held slot 0. -/
def c1C2c : Sys := { c1C2 with cache := { c1C2.cache with clock := 1 } }

/-- After `cache.New(1, nil)`: the page-table root node in slot 1. -/
def c1C3 : Sys :=
  { c1C2c with
    cache :=
      { setSlot c1C2c.cache 1 ⟨1, zeroPage, 1, false⟩
        with cached := [(1, 1), (0, 0)] } }

/-- Slot 1 marked dirty and released. -/
def c1C4 : Sys := refRelease (refData c1C3 1) 1

/-- The initial root pointer Create formats (timestamp 0). -/
def c1Root : RootPointer :=
  { magic := rootPtrMagic
    depth := 1
    pageSize := 512
    generation := 1
    nextPhysical := 2
    nextLogical := 1
    pageTable := 1
    freelist := 0 }

/-- The formatted root block written into slot 0. -/
def c1C5 (hcf : Block → Block) : Sys :=
  setSlotData (refData c1C4 0) 0 (rootBlockPage hcf c1Root 512)

/-- Root pointer and held slot recorded. -/
def c1C6 (hcf : Block → Block) : Sys :=
  { c1C5 hcf with
    root0 := c1Root
    rootSlot := 0 }

/-- The device after flushing the zeroed page-table node to page 1. -/
def c1DevA : Device :=
  ⟨4096, fun a => if 512 ≤ a ∧ a < 512 + 512 then zeroPage (a - 512) else 0⟩

/-- After flushing slot 1. -/
def c1C7 (hcf : Block → Block) : Sys :=
  { c1C6 hcf with
    dev := c1DevA
    cache := setSlot (c1C6 hcf).cache 1 ⟨1, zeroPage, 0, false⟩ }

/-- The device after also flushing the root block to page 0. -/
def c1DevB (hcf : Block → Block) : Device :=
  ⟨4096, fun a => if 0 ≤ a ∧ a < 0 + 512
    then rootBlockPage hcf c1Root 512 (a - 0) else c1DevA.content a⟩

/-- The freshly created DB (`Create` on the zeroed device). -/
def c1L (hcf : Block → Block) : Sys :=
  { c1C7 hcf with
    dev := c1DevB hcf
    cache := setSlot (c1C7 hcf).cache 0
      ⟨0, rootBlockPage hcf c1Root 512, 1, false⟩ }

theorem c1Create_ok (hcf : Block → Block) :
    dbCreate hcf 0 512 c1Dev = .ok (c1L hcf) := by
  have h1 : cacheNew c1N0 0 none = .ok (0, c1C1) := by
    have hnr : cacheNewRef c1N0 = .ok (0, c1N0) :=
      cacheNewRef_at_clock c1N0 rfl rfl
    rw [cacheNew_eq c1N0 0 none 0 c1N0 rfl hnr]
    rfl
  have hnr2 : cacheNewRef c1C2 = .ok (1, c1C2c) := by
    unfold cacheNewRef
    rw [show c1C2.cache.clock = 0 from rfl,
      show c1C2.cache.numRefs = 262144 from rfl,
      cacheNewRefLoop_skip 0 262144 c1C2 0 (by decide) (by decide),
      show (0 + 1) % c1C2.cache.numRefs = 1 from rfl,
      cacheNewRefLoop_found 0 262143 c1C2 1 (by decide) (by decide)]
    rfl
  have h2 : cacheNew c1C2 (newPhysicalID 0 1) none = .ok (1, c1C3) := by
    rw [cacheNew_eq c1C2 (newPhysicalID 0 1) none 1 c1C2c rfl hnr2]
    rfl
  have hw1 : deviceWritePage (c1C6 hcf).dev (c1C6 hcf).pageSize
      (pidPagenum ((c1C6 hcf).cache.lru 1).pid * (c1C6 hcf).pageSize)
      ((c1C6 hcf).cache.lru 1).data = .ok c1DevA := by
    rw [deviceWritePage_eq _ _ _ _ (by
      rw [show pidPagenum ((c1C6 hcf).cache.lru 1).pid * (c1C6 hcf).pageSize
          = 512 from rfl,
        show (c1C6 hcf).pageSize = 512 from rfl,
        show (c1C6 hcf).dev.size = 4096 from rfl]
      omega)]
    rfl
  have hf1 : refFlush (c1C6 hcf) 1 = .ok (c1C7 hcf) := by
    rw [refFlush_dirty_eq _ 1 c1DevA rfl hw1]
    rfl
  have hw0 : deviceWritePage (c1C7 hcf).dev (c1C7 hcf).pageSize
      (pidPagenum ((c1C7 hcf).cache.lru 0).pid * (c1C7 hcf).pageSize)
      ((c1C7 hcf).cache.lru 0).data = .ok (c1DevB hcf) := by
    rw [deviceWritePage_eq _ _ _ _ (by
      rw [show pidPagenum ((c1C7 hcf).cache.lru 0).pid * (c1C7 hcf).pageSize
          = 0 from rfl,
        show (c1C7 hcf).pageSize = 512 from rfl,
        show (c1C7 hcf).dev.size = 4096 from rfl]
      omega)]
    rfl
  have hf0 : refFlush (c1C7 hcf) 0 = .ok (c1L hcf) := by
    rw [refFlush_dirty_eq _ 0 (c1DevB hcf) rfl hw0]
    rfl
  unfold dbCreate ptInit
  rw [show newSys 512 c1Dev = c1N0 from rfl, h1]
  dsimp only
  rw [show refData c1C1 0 = c1C2 from rfl, h2]
  dsimp only
  exact cacheFlush_two _ (c1C7 hcf) (c1L hcf) rfl hf1 hf0

/-- Flushing a three-element residency list. -/
theorem cacheFlush_three (sys sysA sysB sysC : Sys)
    (hc : sys.cache.cached = [(2, 2), (1, 1), (0, 0)])
    (hfA : refFlush sys 2 = .ok sysA)
    (hfB : refFlush sysA 1 = .ok sysB)
    (hfC : refFlush sysB 0 = .ok sysC) :
    cacheFlush sys = .ok sysC := by
  unfold cacheFlush
  rw [hc]
  simp only [cacheFlushList]
  rw [hfA]
  dsimp only
  rw [hfB]
  dsimp only
  rw [hfC]

/-- The state after `newTransaction(rw)` on the fresh DB. -/
def c1S2 (hcf : Block → Block) : Sys :=
  { c1L hcf with root1 := { c1Root with generation := 2 } }

theorem c1S2_ok (hcf : Block → Block) :
    newTransaction (c1L hcf) true = .ok (⟨true, []⟩, c1S2 hcf) := by
  unfold newTransaction
  rw [if_neg (by
    rw [show (c1L hcf).root1.generation = 0 from rfl,
      show (c1L hcf).root0.generation = 1 from rfl]
    omega)]
  rfl

theorem c1S2_numPages (hcf : Block → Block) :
    rpNumPages (c1S2 hcf).root1 = 64 := by
  unfold rpNumPages rpIdsPerPage
  rw [show (c1S2 hcf).root1.pageSize = 512 from rfl,
    show (c1S2 hcf).root1.depth = 1 from rfl]
  norm_num

/-! #### `set` in the depth-1 case -/

/-- New physical ID 2 allocated for the shadow copy of the root node. -/
def c1A1 (hcf : Block → Block) : Sys :=
  { c1S2 hcf with root1 := { (c1S2 hcf).root1 with nextPhysical := 3 } }

/-- The old root node re-acquired. -/
def c1A2 (hcf : Block → Block) : Sys :=
  { c1A1 hcf with cache := setSlot (c1A1 hcf).cache 1 ⟨1, zeroPage, 1, false⟩ }

/-- The clock hand after scanning past the re-acquired slot 1. -/
def c1A2c (hcf : Block → Block) : Sys :=
  { c1A2 hcf with cache := { (c1A2 hcf).cache with clock := 2 } }

/-- The shadow copy of the root node installed in slot 2 as pid 2. -/
def c1A3 (hcf : Block → Block) : Sys :=
  { c1A2c hcf with
    cache :=
      { setSlot (c1A2c hcf).cache 2 ⟨2, zeroPage, 1, false⟩
        with cached := [(2, 2), (1, 1), (0, 0)] } }

/-- The old root node released. -/
def c1A4 (hcf : Block → Block) : Sys := refRelease (c1A3 hcf) 1

theorem c1Wr_ok (hcf : Block → Block) :
    ptWritable (c1S2 hcf) ⟨true, []⟩ 1
      = .ok (2, 2, ⟨true, [(2, 1)]⟩, c1A4 hcf) := by
  have hget1 : cacheGet (c1A1 hcf) 1 = .ok (1, c1A2 hcf) := by
    rw [cacheGet_hit (c1A1 hcf) 1 1 rfl rfl]
    rfl
  have hnr : cacheNewRef (c1A2 hcf) = .ok (2, c1A2c hcf) := by
    unfold cacheNewRef
    rw [show (c1A2 hcf).cache.clock = 1 from rfl,
      show (c1A2 hcf).cache.numRefs = 262144 from rfl,
      cacheNewRefLoop_skip 1 262144 (c1A2 hcf) 1
        (by rw [show ((c1A2 hcf).cache.lru 1).refcount = 1 from rfl]; decide)
        (by rw [show (1 + 1) % (c1A2 hcf).cache.numRefs = 2 from rfl]; decide),
      show (1 + 1) % (c1A2 hcf).cache.numRefs = 2 from rfl,
      cacheNewRefLoop_found 1 262143 (c1A2 hcf) 2
        (by rw [show ((c1A2 hcf).cache.lru 2).refcount = 0 from rfl])
        (by rw [show ((c1A2 hcf).cache.lru 2).pid = 0 from rfl])]
    rfl
  have hnew : cacheNew (c1A2 hcf) 2 (some zeroPage) = .ok (2, c1A3 hcf) := by
    rw [cacheNew_eq (c1A2 hcf) 2 (some zeroPage) 2 (c1A2c hcf) rfl hnr]
    rfl
  unfold ptWritable
  rw [if_neg (by decide)]
  rw [show (allocPhysicalID (c1S2 hcf)).2 = c1A1 hcf from rfl,
    show (allocPhysicalID (c1S2 hcf)).1 = 2 from rfl,
    hget1]
  dsimp only
  rw [show slotPage (c1A2 hcf) 1 = zeroPage from rfl, hnew]
  dsimp only
  rfl

/-- The shadow root made current in `root1`. -/
def c1A5 (hcf : Block → Block) : Sys :=
  { c1A4 hcf with root1 := { (c1A4 hcf).root1 with pageTable := 2 } }

/-- The leaf page of the depth-1 case: entry `pagenum(id)` holds `pid`. -/
def c1Leaf (hcf : Block → Block) (id pid : Nat) : Page :=
  pageSetU64 (slotPage (refData (c1A5 hcf) 2) 2) (lidPagenum id * 8) pid

/-- The state after `set(id, pid)` in the depth-1 case. -/
def c1S3 (hcf : Block → Block) (id pid : Nat) : Sys :=
  refRelease (setSlotData (refData (c1A5 hcf) 2) 2 (c1Leaf hcf id pid)) 2

/-- `set` in the depth-1 case: no growth, shadow the root node, write the
leaf entry. -/
theorem c1Set1_ok (hcf : Block → Block) (id pid : Nat)
    (hid : lidPagenum id < 64) :
    ptSet (c1S2 hcf) ⟨true, []⟩ id pid
      = .ok (⟨true, [(2, 1)]⟩, c1S3 hcf id pid) := by
  unfold ptSet
  simp only [ptSetGrow]
  rw [c1S2_numPages hcf, if_neg (by omega)]
  dsimp only
  rw [show (c1S2 hcf).root1.pageTable = 1 from rfl, c1Wr_ok hcf]
  dsimp only
  rw [show (c1A4 hcf).root1.depth = 1 from rfl]
  simp only [ptSetLoop]
  unfold ptSetLeaf
  dsimp only
  rfl

/-! #### Commit in the depth-1 case -/

/-- A dirty flush with the written device spelled out. -/
theorem refFlush_dirty_eq2 (sys : Sys) (slot : Nat)
    (hd : (sys.cache.lru slot).dirty = true)
    (hb : pidPagenum (sys.cache.lru slot).pid * sys.pageSize + sys.pageSize
      ≤ sys.dev.size) :
    refFlush sys slot = .ok { sys with
      dev := ⟨sys.dev.size, fun a =>
        if pidPagenum (sys.cache.lru slot).pid * sys.pageSize ≤ a
          ∧ a < pidPagenum (sys.cache.lru slot).pid * sys.pageSize
            + sys.pageSize
        then (sys.cache.lru slot).data
          (a - pidPagenum (sys.cache.lru slot).pid * sys.pageSize)
        else sys.dev.content a⟩
      cache := setSlot sys.cache slot
        { sys.cache.lru slot with dirty := false } } := by
  unfold refFlush
  rw [if_pos hd, deviceWritePage_eq _ _ _ _ hb]

/-- A read-write commit as one equation over its cache flush. -/
theorem ptCommit_rw_eq (hcf : Block → Block) (ts : Nat) (sys : Sys) (tr : Tr)
    (htr : tr.rw = true) (sysF : Sys)
    (hfl : cacheFlush { setSlotData (refData sys sys.rootSlot) sys.rootSlot
        (rootBlockPage hcf { sys.root1 with timestamp := ts } sys.pageSize)
      with root1 := { sys.root1 with timestamp := ts } } = .ok sysF) :
    ptCommit hcf ts sys tr = .ok { sysF with root0 := sysF.root1 } := by
  unfold ptCommit
  rw [if_neg (by simp [htr])]
  dsimp only
  rw [hfl]

/-- The root pointer a depth-1 commit formats. -/
def c1Root2 (ts : Nat) : RootPointer :=
  { magic := rootPtrMagic
    depth := 1
    pageSize := 512
    timestamp := ts
    generation := 2
    nextPhysical := 3
    nextLogical := 1
    pageTable := 2
    freelist := 0 }

/-- The committed root block formatted into slot 0. -/
def c1K1 (hcf : Block → Block) (ts id pid : Nat) : Sys :=
  { setSlotData (refData (c1S3 hcf id pid) 0) 0
      (rootBlockPage hcf (c1Root2 ts) 512) with
    root1 := c1Root2 ts }

/-- The device after flushing the written leaf node to page 2. -/
def c1DevC (hcf : Block → Block) (ts id pid : Nat) : Device :=
  ⟨4096, fun a => if 1024 ≤ a ∧ a < 1024 + 512
    then c1Leaf hcf id pid (a - 1024) else (c1DevB hcf).content a⟩

/-- After flushing slot 2. -/
def c1K2 (hcf : Block → Block) (ts id pid : Nat) : Sys :=
  { c1K1 hcf ts id pid with
    dev := c1DevC hcf ts id pid
    cache := setSlot (c1K1 hcf ts id pid).cache 2
      ⟨2, c1Leaf hcf id pid, 0, false⟩ }

/-- The device after also flushing the committed root block to page 0. -/
def c1DevD (hcf : Block → Block) (ts id pid : Nat) : Device :=
  ⟨4096, fun a => if 0 ≤ a ∧ a < 0 + 512
    then rootBlockPage hcf (c1Root2 ts) 512 (a - 0)
    else (c1DevC hcf ts id pid).content a⟩

/-- After flushing slot 0. -/
def c1K3 (hcf : Block → Block) (ts id pid : Nat) : Sys :=
  { c1K2 hcf ts id pid with
    dev := c1DevD hcf ts id pid
    cache := setSlot (c1K2 hcf ts id pid).cache 0
      ⟨0, rootBlockPage hcf (c1Root2 ts) 512, 1, false⟩ }

/-- The state after the depth-1 commit. -/
def c1S4 (hcf : Block → Block) (ts id pid : Nat) : Sys :=
  { c1K3 hcf ts id pid with root0 := c1Root2 ts }

theorem c1Commit_ok (hcf : Block → Block) (ts id pid : Nat) :
    ptCommit hcf ts (c1S3 hcf id pid) ⟨true, [(2, 1)]⟩
      = .ok (c1S4 hcf ts id pid) := by
  have hfa : refFlush (c1K1 hcf ts id pid) 2 = .ok (c1K2 hcf ts id pid) := by
    rw [refFlush_dirty_eq2 (c1K1 hcf ts id pid) 2 rfl
      ((by omega : (1024 : Nat) + 512 ≤ 4096) :
        pidPagenum ((c1K1 hcf ts id pid).cache.lru 2).pid
          * (c1K1 hcf ts id pid).pageSize + (c1K1 hcf ts id pid).pageSize
          ≤ (c1K1 hcf ts id pid).dev.size)]
    rfl
  have hfb : refFlush (c1K2 hcf ts id pid) 1 = .ok (c1K2 hcf ts id pid) :=
    refFlush_clean_eq _ 1 (by
      rw [show ((c1K2 hcf ts id pid).cache.lru 1).dirty = false from rfl]
      decide)
  have hfc : refFlush (c1K2 hcf ts id pid) 0 = .ok (c1K3 hcf ts id pid) := by
    rw [refFlush_dirty_eq2 (c1K2 hcf ts id pid) 0 rfl
      ((by omega : (0 : Nat) + 512 ≤ 4096) :
        pidPagenum ((c1K2 hcf ts id pid).cache.lru 0).pid
          * (c1K2 hcf ts id pid).pageSize + (c1K2 hcf ts id pid).pageSize
          ≤ (c1K2 hcf ts id pid).dev.size)]
    rfl
  have hfl : cacheFlush (c1K1 hcf ts id pid) = .ok (c1K3 hcf ts id pid) :=
    cacheFlush_three _ (c1K2 hcf ts id pid) (c1K2 hcf ts id pid)
      (c1K3 hcf ts id pid) rfl hfa hfb hfc
  rw [ptCommit_rw_eq hcf ts (c1S3 hcf id pid) ⟨true, [(2, 1)]⟩ rfl
    (c1K3 hcf ts id pid) hfl]
  rfl

/-! #### Get and reopen in the depth-1 case -/

/-- The read-only transaction after the commit. -/
def c1S5 (hcf : Block → Block) (ts id pid : Nat) : Sys :=
  { c1S4 hcf ts id pid with
    root1 := { c1Root2 ts with generation := 3 } }

theorem c1S5_ok (hcf : Block → Block) (ts id pid : Nat) :
    newTransaction (c1S4 hcf ts id pid) false
      = .ok (⟨false, []⟩, c1S5 hcf ts id pid) := by
  unfold newTransaction
  rw [if_neg (by
    rw [show (c1S4 hcf ts id pid).root1.generation = 2 from rfl,
      show (c1S4 hcf ts id pid).root0.generation = 2 from rfl]
    omega)]
  rfl

/-- The leaf node re-acquired by `get`. -/
def c1S6 (hcf : Block → Block) (ts id pid : Nat) : Sys :=
  { c1S5 hcf ts id pid with
    cache := setSlot (c1S5 hcf ts id pid).cache 2
      ⟨2, c1Leaf hcf id pid, 1, false⟩ }

/-- `get` after the depth-1 commit returns the stored pid. -/
theorem c1Get1_ok (hcf : Block → Block) (ts id pid : Nat)
    (hid : lidPagenum id < 64) (hpid : pid < 2 ^ 64)
    (hpn : pidPagenum pid ≠ 0) :
    ∃ sysa, ptGet (c1S5 hcf ts id pid) id = .ok (pid, sysa) := by
  refine ⟨refRelease (c1S6 hcf ts id pid) 2, ?_⟩
  unfold ptGet
  have hnum : rpNumPages (c1S5 hcf ts id pid).root1 = 64 := by
    unfold rpNumPages rpIdsPerPage
    rw [show (c1S5 hcf ts id pid).root1.pageSize = 512 from rfl,
      show (c1S5 hcf ts id pid).root1.depth = 1 from rfl]
    norm_num
  rw [hnum, if_neg (by omega),
    show (c1S5 hcf ts id pid).root1.pageTable = 2 from rfl]
  have hg : cacheGet (c1S5 hcf ts id pid) 2
      = .ok (2, c1S6 hcf ts id pid) := by
    rw [cacheGet_hit (c1S5 hcf ts id pid) 2 2 rfl rfl]
    rfl
  rw [hg]
  dsimp only
  rw [show (c1S5 hcf ts id pid).root1.depth = 1 from rfl]
  simp only [ptGetLoop]
  unfold ptGetLeaf
  dsimp only
  rw [show slotPage (c1S6 hcf ts id pid) 2 = c1Leaf hcf id pid from rfl]
  unfold c1Leaf
  rw [pageU64_set_self _ _ _ hpid, if_neg hpn]

/-- The state `Open` builds on the committed device. -/
def c1O1 (hcf : Block → Block) (ts id pid : Nat) : Sys :=
  { { newSys 512 (c1S4 hcf ts id pid).dev with
      cache :=
        { setSlot (newSys 512 (c1S4 hcf ts id pid).dev).cache 0
            { pid := 0
              data := fun i => (c1S4 hcf ts id pid).dev.content
                (pidPagenum 0 * 512 + i)
              refcount := 1
              dirty := false }
          with cached := [(0, 0)] } }
    with
    root0 := c1Root2 ts
    rootSlot := 0 }

/-- Reopening the committed device parses the committed root pointer. -/
theorem c1Open_ok (hcf : Block → Block)
    (hhcf : ∀ b : Block, (hcf b).length = b.length)
    (ts id pid : Nat) (hts : ts < 2 ^ 64) :
    dbOpen hcf 512 (c1S4 hcf ts id pid).dev = .ok (c1O1 hcf ts id pid) := by
  have hwf : rpWF (c1Root2 ts) := by
    unfold rpWF c1Root2 rootPtrMagic
    dsimp only
    omega
  have hparse : parseRootBlock hcf
      (fun i => (c1S4 hcf ts id pid).dev.content (pidPagenum 0 * 512 + i))
      512 = .ok (c1Root2 ts) := by
    rw [parseRootBlock_congr_lt hcf _ (rootBlockPage hcf (c1Root2 ts) 512)
      512 ?hpt]
    · exact parseRootBlock_format hcf hhcf (c1Root2 ts) 512 hwf
        (by rw [show (c1Root2 ts).generation = 2 from rfl]; omega)
        (by omega)
    case hpt =>
      intro j hj
      have hj480 : j < 480 := by
        rw [show numWins 512 = 5 from rfl] at hj
        omega
      show (c1S4 hcf ts id pid).dev.content (pidPagenum 0 * 512 + j) = _
      rw [show pidPagenum 0 * 512 = 0 from rfl,
        show (c1S4 hcf ts id pid).dev.content
          = (c1DevD hcf ts id pid).content from rfl]
      show (if 0 ≤ 0 + j ∧ 0 + j < 0 + 512
        then rootBlockPage hcf (c1Root2 ts) 512 (0 + j - 0)
        else (c1DevC hcf ts id pid).content (0 + j))
        = rootBlockPage hcf (c1Root2 ts) 512 j
      rw [if_pos (by omega), show 0 + j - 0 = j from by omega]
  rw [dbOpen_state hcf 512 (c1S4 hcf ts id pid).dev
    (by rw [show (c1S4 hcf ts id pid).dev.size = 4096 from rfl]; omega)
    (c1Root2 ts) hparse]
  rfl

/-- The read-only transaction after the reopen. -/
def c1O2 (hcf : Block → Block) (ts id pid : Nat) : Sys :=
  { c1O1 hcf ts id pid with
    root1 := { c1Root2 ts with generation := 3 } }

theorem c1O2_ok (hcf : Block → Block) (ts id pid : Nat) :
    newTransaction (c1O1 hcf ts id pid) false
      = .ok (⟨false, []⟩, c1O2 hcf ts id pid) := by
  unfold newTransaction
  rw [if_neg (by
    rw [show (c1O1 hcf ts id pid).root1.generation = 0 from rfl,
      show (c1O1 hcf ts id pid).root0.generation = 2 from rfl]
    omega)]
  rfl

/-- The clock hand after scanning past the held root-block slot. -/
def c1O2m (hcf : Block → Block) (ts id pid : Nat) : Sys :=
  { c1O2 hcf ts id pid with
    cache := { (c1O2 hcf ts id pid).cache with clock := 1 } }

/-- The leaf node read from the device into slot 1. -/
def c1O3 (hcf : Block → Block) (ts id pid : Nat) : Sys :=
  { c1O2m hcf ts id pid with
    cache :=
      { setSlot (c1O2m hcf ts id pid).cache 1
          ⟨2, fun i => (c1S4 hcf ts id pid).dev.content (1024 + i), 1, false⟩
        with cached := [(2, 1), (0, 0)] } }

/-- `get` after the reopen also returns the stored pid. -/
theorem c1GetR1_ok (hcf : Block → Block) (ts id pid : Nat)
    (hid : lidPagenum id < 64) (hpid : pid < 2 ^ 64)
    (hpn : pidPagenum pid ≠ 0) :
    ∃ sysa, ptGet (c1O2 hcf ts id pid) id = .ok (pid, sysa) := by
  refine ⟨refRelease (c1O3 hcf ts id pid) 1, ?_⟩
  unfold ptGet
  have hnum : rpNumPages (c1O2 hcf ts id pid).root1 = 64 := by
    unfold rpNumPages rpIdsPerPage
    rw [show (c1O2 hcf ts id pid).root1.pageSize = 512 from rfl,
      show (c1O2 hcf ts id pid).root1.depth = 1 from rfl]
    norm_num
  rw [hnum, if_neg (by omega),
    show (c1O2 hcf ts id pid).root1.pageTable = 2 from rfl]
  have hnr : cacheNewRef (c1O2 hcf ts id pid)
      = .ok (1, c1O2m hcf ts id pid) := by
    unfold cacheNewRef
    rw [show (c1O2 hcf ts id pid).cache.clock = 0 from rfl,
      show (c1O2 hcf ts id pid).cache.numRefs = 262144 from rfl,
      cacheNewRefLoop_skip 0 262144 (c1O2 hcf ts id pid) 0
        (by rw [show ((c1O2 hcf ts id pid).cache.lru 0).refcount = 1
          from rfl]; decide)
        (by rw [show (0 + 1) % (c1O2 hcf ts id pid).cache.numRefs = 1
          from rfl]; decide),
      show (0 + 1) % (c1O2 hcf ts id pid).cache.numRefs = 1 from rfl,
      cacheNewRefLoop_found 0 262143 (c1O2 hcf ts id pid) 1
        (by rw [show ((c1O2 hcf ts id pid).cache.lru 1).refcount = 0
          from rfl])
        (by rw [show ((c1O2 hcf ts id pid).cache.lru 1).pid = 0 from rfl])]
    rfl
  have hread : deviceReadPage (c1O2m hcf ts id pid).dev
      (c1O2m hcf ts id pid).pageSize
      (pidPagenum 2 * (c1O2m hcf ts id pid).pageSize)
      = .ok (fun i => (c1S4 hcf ts id pid).dev.content (1024 + i)) := by
    unfold deviceReadPage
    rw [if_pos (by
      rw [show pidPagenum 2 * (c1O2m hcf ts id pid).pageSize = 1024
          from rfl,
        show (c1O2m hcf ts id pid).pageSize = 512 from rfl,
        show (c1O2m hcf ts id pid).dev.size = 4096 from rfl]
      omega)]
    rfl
  have hget : cacheGet (c1O2 hcf ts id pid) 2
      = .ok (1, c1O3 hcf ts id pid) := by
    rw [cacheGet_miss_eq (c1O2 hcf ts id pid) 2 1 (c1O2m hcf ts id pid)
      (fun i => (c1S4 hcf ts id pid).dev.content (1024 + i)) rfl hnr
      (by rw [show ((c1O2m hcf ts id pid).cache.lru 1).dirty = false
        from rfl]; decide)
      hread]
    rfl
  rw [hget]
  dsimp only
  rw [show (c1O2 hcf ts id pid).root1.depth = 1 from rfl]
  simp only [ptGetLoop]
  unfold ptGetLeaf
  dsimp only
  rw [show slotPage (c1O3 hcf ts id pid) 1
    = (fun i => (c1S4 hcf ts id pid).dev.content (1024 + i)) from rfl]
  have hv : pageU64 (fun i => (c1S4 hcf ts id pid).dev.content (1024 + i))
      (lidPagenum id * 8) = pid := by
    rw [pageU64_congr _
      (pageSetU64 (slotPage (refData (c1A5 hcf) 2) 2) (lidPagenum id * 8)
        pid)
      (lidPagenum id * 8) ?hpt]
    · exact pageU64_set_self _ _ _ hpid
    case hpt =>
      intro j hj1 hj2
      have hj512 : j < 512 := by omega
      show (c1S4 hcf ts id pid).dev.content (1024 + j) = _
      rw [show (c1S4 hcf ts id pid).dev.content
        = (c1DevD hcf ts id pid).content from rfl]
      show (if 0 ≤ 1024 + j ∧ 1024 + j < 0 + 512
        then rootBlockPage hcf (c1Root2 ts) 512 (1024 + j - 0)
        else (c1DevC hcf ts id pid).content (1024 + j)) = _
      rw [if_neg (by omega)]
      show (if 1024 ≤ 1024 + j ∧ 1024 + j < 1024 + 512
        then c1Leaf hcf id pid (1024 + j - 1024)
        else (c1DevB hcf).content (1024 + j)) = _
      rw [if_pos (by omega), show 1024 + j - 1024 = j from by omega]
      rfl
  rw [hv, if_neg hpn]

/-! #### Step equations for eviction, growth and traversal -/

/-- The clock scan evicts a free slot holding a non-root page: flush it and
drop it from the residency map. -/
theorem cacheNewRefLoop_evict (start fuel : Nat) (sys sys1 : Sys) (cur : Nat)
    (h0 : (sys.cache.lru cur).refcount = 0)
    (hp : (sys.cache.lru cur).pid ≠ 0)
    (hf : refFlush sys cur = .ok sys1) :
    cacheNewRefLoop start (fuel + 1) sys cur
      = .ok (cur, { sys1 with cache :=
          { sys1.cache with
            cached := sys1.cache.cached.filter
              (fun e => ¬ e.1 = (sys1.cache.lru cur).pid)
            clock := cur } }) := by
  simp only [cacheNewRefLoop]
  rw [if_pos h0, if_pos hp, hf]

theorem cacheFlushList_cons (sys sysA : Sys) (p a : Nat)
    (rest : List (Nat × Nat)) (hf : refFlush sys a = .ok sysA) :
    cacheFlushList sys ((p, a) :: rest) = cacheFlushList sysA rest := by
  simp only [cacheFlushList]
  rw [hf]

theorem cacheFlushList_nil (sys : Sys) : cacheFlushList sys [] = .ok sys := rfl

theorem cacheFlush_eq_list (sys : Sys) (l : List (Nat × Nat))
    (hc : sys.cache.cached = l) : cacheFlush sys = cacheFlushList sys l := by
  unfold cacheFlush
  rw [hc]

/-- One depth-growth iteration of `PageTable.set`. -/
theorem ptSetGrow_go (fuel : Nat) (sys sysN sysG : Sys) (tr : Tr)
    (pagenum slot : Nat)
    (h : pagenum ≥ rpNumPages sys.root1)
    (hnew : cacheNew (allocPhysicalID sys).2 (allocPhysicalID sys).1 none
      = .ok (slot, sysN))
    (hG : ({ refRelease (setSlotData (refData sysN slot) slot
          (pageSetU64 (slotPage (refData sysN slot) slot) 0
            (refData sysN slot).root1.pageTable)) slot with
        root1 := { (refRelease (setSlotData (refData sysN slot) slot
              (pageSetU64 (slotPage (refData sysN slot) slot) 0
                (refData sysN slot).root1.pageTable)) slot).root1 with
          pageTable := (allocPhysicalID sys).1
          depth := (refRelease (setSlotData (refData sysN slot) slot
              (pageSetU64 (slotPage (refData sysN slot) slot) 0
                (refData sysN slot).root1.pageTable)) slot).root1.depth
            + 1 } } : Sys) = sysG) :
    ptSetGrow (fuel + 1) sys tr pagenum
      = ptSetGrow fuel sysG
          { tr with writable := ((allocPhysicalID sys).1, 0) :: tr.writable }
          pagenum := by
  simp only [ptSetGrow]
  rw [if_pos h, hnew]
  subst hG
  rfl

/-- The growth loop stops as soon as the pagenum is in range. -/
theorem ptSetGrow_stop (fuel : Nat) (hf : 1 ≤ fuel) (sys : Sys) (tr : Tr)
    (pagenum : Nat) (h : ¬ pagenum ≥ rpNumPages sys.root1) :
    ptSetGrow fuel sys tr pagenum = .ok (tr, sys) := by
  cases fuel with
  | zero => exact absurd hf (by decide)
  | succ n =>
    simp only [ptSetGrow]
    rw [if_neg h]

/-- One interior step of `PageTable.set` allocating a missing child. -/
theorem ptSetLoop_alloc (perPage pid depth : Nat) (sys : Sys) (tr : Tr)
    (perID pagenum slot : Nat)
    (hchild : pageU64 (slotPage (refData sys slot) slot)
      (pagenum / perID * 8) = 0)
    (nslot : Nat) (sysB : Sys)
    (hnew : cacheNew (allocPhysicalID (refData sys slot)).2
      (allocPhysicalID (refData sys slot)).1 none = .ok (nslot, sysB)) :
    ptSetLoop perPage pid (depth + 2) sys tr perID pagenum slot
      = ptSetLoop perPage pid (depth + 1)
          (refRelease (setSlotData sysB slot
            (pageSetU64 (slotPage sysB slot) (pagenum / perID * 8)
              (allocPhysicalID (refData sys slot)).1)) slot)
          { tr with writable :=
            ((allocPhysicalID (refData sys slot)).1, 0) :: tr.writable }
          (perID / perPage) (pagenum % perID) nslot := by
  simp only [ptSetLoop]
  rw [hchild, if_pos (show pidPagenum 0 = 0 from rfl), hnew]

/-- One interior step of `PageTable.get` following a child entry. -/
theorem ptGetLoop_step (perPage depth : Nat) (sys : Sys)
    (perID pagenum slot next : Nat)
    (hnext : pageU64 (slotPage sys slot) (pagenum / perID * 8) = next)
    (hnz : ¬ pidPagenum next = 0)
    (slot2 : Nat) (sys2 : Sys)
    (hget : cacheGet (refRelease sys slot) next = .ok (slot2, sys2)) :
    ptGetLoop perPage (depth + 2) sys perID pagenum slot
      = ptGetLoop perPage (depth + 1) sys2 (perID / perPage)
          (pagenum % perID) slot2 := by
  simp only [ptGetLoop]
  rw [hnext, if_neg hnz, hget]

/-! #### `set` in the depth-2 case (64 ≤ pagenum < 4096) -/

/-- Slot 1 (free, pid 1) evicted by the clock scan during growth. -/
def c2G2 (hcf : Block → Block) : Sys :=
  { c1A1 hcf with
    cache := { (c1A1 hcf).cache with cached := [(0, 0)], clock := 1 } }

/-- The new depth-2 root node installed in slot 1 as pid 2. -/
def c2G3 (hcf : Block → Block) : Sys :=
  { c2G2 hcf with
    cache :=
      { setSlot (c2G2 hcf).cache 1 ⟨2, zeroPage, 1, false⟩
        with cached := [(2, 1), (0, 0)] } }

/-- The depth-2 root node: entry 0 points at the old page table (pid 1). -/
def c2Node1 : Page := pageSetU64 zeroPage 0 1

/-- After the growth iteration: node written, slot released, root pointer
advanced to depth 2 with page table pid 2. -/
def c2G6 (hcf : Block → Block) : Sys :=
  refRelease (setSlotData (refData (c2G3 hcf) 1) 1 c2Node1) 1

def c2G7 (hcf : Block → Block) : Sys :=
  { c2G6 hcf with
    root1 := { (c2G6 hcf).root1 with
      pageTable := 2
      depth := 2 } }

theorem c2G7_numPages (hcf : Block → Block) :
    rpNumPages (c2G7 hcf).root1 = 4096 := by
  unfold rpNumPages rpIdsPerPage
  rw [show (c2G7 hcf).root1.pageSize = 512 from rfl,
    show (c2G7 hcf).root1.depth = 2 from rfl]
  norm_num

/-- The first growth iteration's fresh node allocation (evicts slot 1). -/
theorem c2GrowNew_ok (hcf : Block → Block) :
    cacheNew (allocPhysicalID (c1S2 hcf)).2
      (allocPhysicalID (c1S2 hcf)).1 none = .ok (1, c2G3 hcf) := by
  have hnr : cacheNewRef (c1A1 hcf) = .ok (1, c2G2 hcf) := by
    unfold cacheNewRef
    rw [show (c1A1 hcf).cache.clock = 1 from rfl,
      show (c1A1 hcf).cache.numRefs = 262144 from rfl,
      cacheNewRefLoop_evict 1 262144 (c1A1 hcf) (c1A1 hcf) 1 rfl
        (by rw [show ((c1A1 hcf).cache.lru 1).pid = 1 from rfl]; decide)
        (refFlush_clean_eq _ 1 (by
          rw [show ((c1A1 hcf).cache.lru 1).dirty = false from rfl]
          decide))]
    rfl
  rw [show (allocPhysicalID (c1S2 hcf)).2 = c1A1 hcf from rfl,
    show (allocPhysicalID (c1S2 hcf)).1 = 2 from rfl,
    cacheNew_eq (c1A1 hcf) 2 none 1 (c2G2 hcf) rfl hnr]
  rfl

theorem c2Grow_ok (hcf : Block → Block) (id : Nat)
    (h1 : 64 ≤ lidPagenum id) (h2 : lidPagenum id < 4096) :
    ptSetGrow (lidPagenum id + 2) (c1S2 hcf) ⟨true, []⟩ (lidPagenum id)
      = .ok (⟨true, [(2, 0)]⟩, c2G7 hcf) := by
  rw [show lidPagenum id + 2 = lidPagenum id + 1 + 1 from rfl,
    ptSetGrow_go (lidPagenum id + 1) (c1S2 hcf) (c2G3 hcf) (c2G7 hcf)
      ⟨true, []⟩ (lidPagenum id) 1
      (by rw [ge_iff_le, c1S2_numPages]; omega) (c2GrowNew_ok hcf) rfl]
  exact ptSetGrow_stop (lidPagenum id + 1) (by omega) (c2G7 hcf) _ _
    (by rw [ge_iff_le, c2G7_numPages]; omega)

/-- The depth-2 root node re-acquired by `writable` (already shadowed). -/
def c2W1 (hcf : Block → Block) : Sys :=
  { c2G7 hcf with
    cache := setSlot (c2G7 hcf).cache 1 ⟨2, c2Node1, 1, true⟩ }

theorem c2Wr_ok (hcf : Block → Block) :
    ptWritable (c2G7 hcf) ⟨true, [(2, 0)]⟩ 2
      = .ok (1, 2, ⟨true, [(2, 0)]⟩, c2W1 hcf) := by
  unfold ptWritable
  rw [if_pos (by decide), cacheGet_hit (c2G7 hcf) 2 1 rfl rfl]
  rfl

def c2W2 (hcf : Block → Block) : Sys :=
  { c2W1 hcf with root1 := { (c2W1 hcf).root1 with pageTable := 2 } }

/-- Physical ID 3 allocated for the missing depth-2 leaf. -/
def c2L2 (hcf : Block → Block) : Sys :=
  { refData (c2W2 hcf) 1 with
    root1 := { (refData (c2W2 hcf) 1).root1 with nextPhysical := 4 } }

def c2L3 (hcf : Block → Block) : Sys :=
  { c2L2 hcf with cache := { (c2L2 hcf).cache with clock := 2 } }

/-- The fresh leaf installed in slot 2 as pid 3. -/
def c2L4 (hcf : Block → Block) : Sys :=
  { c2L3 hcf with
    cache :=
      { setSlot (c2L3 hcf).cache 2 ⟨3, zeroPage, 1, false⟩
        with cached := [(3, 2), (2, 1), (0, 0)] } }

/-- The depth-2 root node after `set` wrote the child entry. -/
def c2Node2 (id : Nat) : Page :=
  pageSetU64 c2Node1 (lidPagenum id / 64 * 8) 3

def c2L6 (hcf : Block → Block) (id : Nat) : Sys :=
  refRelease (setSlotData (c2L4 hcf) 1 (c2Node2 id)) 1

/-- The depth-2 leaf: entry `pagenum % 64` holds `pid`. -/
def c2Leaf (id pid : Nat) : Page :=
  pageSetU64 zeroPage (lidPagenum id % 64 * 8) pid

/-- The state after `set(id, pid)` in the depth-2 case. -/
def c2S3 (hcf : Block → Block) (id pid : Nat) : Sys :=
  refRelease (setSlotData (refData (c2L6 hcf id) 2) 2 (c2Leaf id pid)) 2

theorem c2Set_ok (hcf : Block → Block) (id pid : Nat)
    (h1 : 64 ≤ lidPagenum id) (h2 : lidPagenum id < 4096) :
    ptSet (c1S2 hcf) ⟨true, []⟩ id pid
      = .ok (⟨true, [(3, 0), (2, 0)]⟩, c2S3 hcf id pid) := by
  have hchild : pageU64 (slotPage (refData (c2W2 hcf) 1) 1)
      (lidPagenum id / 64 * 8) = 0 := by
    rw [show slotPage (refData (c2W2 hcf) 1) 1 = c2Node1 from rfl]
    unfold c2Node1
    rw [pageU64_set_other zeroPage (lidPagenum id / 64 * 8) 0 1
      (Or.inr (by omega))]
    exact pageU64_zero _
  have hnr3 : cacheNewRef (c2L2 hcf) = .ok (2, c2L3 hcf) := by
    unfold cacheNewRef
    rw [show (c2L2 hcf).cache.clock = 1 from rfl,
      show (c2L2 hcf).cache.numRefs = 262144 from rfl,
      cacheNewRefLoop_skip 1 262144 (c2L2 hcf) 1
        (by rw [show ((c2L2 hcf).cache.lru 1).refcount = 1 from rfl]; decide)
        (by rw [show (1 + 1) % (c2L2 hcf).cache.numRefs = 2 from rfl]; decide),
      show (1 + 1) % (c2L2 hcf).cache.numRefs = 2 from rfl,
      cacheNewRefLoop_found 1 262143 (c2L2 hcf) 2 rfl rfl]
    rfl
  have hnew2 : cacheNew (allocPhysicalID (refData (c2W2 hcf) 1)).2
      (allocPhysicalID (refData (c2W2 hcf) 1)).1 none
      = .ok (2, c2L4 hcf) := by
    rw [show (allocPhysicalID (refData (c2W2 hcf) 1)).2 = c2L2 hcf from rfl,
      show (allocPhysicalID (refData (c2W2 hcf) 1)).1 = 3 from rfl,
      cacheNew_eq (c2L2 hcf) 3 none 2 (c2L3 hcf) rfl hnr3]
    rfl
  unfold ptSet
  rw [c2Grow_ok hcf id h1 h2]
  dsimp only
  rw [show (c2G7 hcf).root1.pageTable = 2 from rfl, c2Wr_ok hcf]
  dsimp only
  have hipp : rpIdsPerPage (c2W1 hcf).root1 = 64 := by
    unfold rpIdsPerPage
    norm_num [show (c2W1 hcf).root1.pageSize = 512 from rfl]
  rw [show (c2W1 hcf).root1.depth = 2 from rfl, hipp,
    show (64 : Nat) ^ (2 - 1) = 64 from by norm_num]
  show ptSetLoop 64 pid 2 (c2W2 hcf) ⟨true, [(2, 0)]⟩ 64 (lidPagenum id) 1
    = .ok (⟨true, [(3, 0), (2, 0)]⟩, c2S3 hcf id pid)
  have e2 : ptSetLoop 64 pid 2 (c2W2 hcf) ⟨true, [(2, 0)]⟩ 64
      (lidPagenum id) 1
      = ptSetLoop 64 pid 1 (c2L6 hcf id) ⟨true, [(3, 0), (2, 0)]⟩ 1
          (lidPagenum id % 64) 2 :=
    ptSetLoop_alloc 64 pid 0 (c2W2 hcf) ⟨true, [(2, 0)]⟩ 64
      (lidPagenum id) 1 hchild 2 (c2L4 hcf) hnew2
  rw [e2]
  simp only [ptSetLoop]
  unfold ptSetLeaf
  dsimp only
  rfl

/-! #### Commit and get in the depth-2 case -/

/-- The root pointer a depth-2 commit formats. -/
def c2Root2 (ts : Nat) : RootPointer :=
  { magic := rootPtrMagic
    depth := 2
    pageSize := 512
    timestamp := ts
    generation := 2
    nextPhysical := 4
    nextLogical := 1
    pageTable := 2
    freelist := 0 }

/-- The committed root block formatted into slot 0. -/
def c2K1 (hcf : Block → Block) (ts id pid : Nat) : Sys :=
  { setSlotData (refData (c2S3 hcf id pid) 0) 0
      (rootBlockPage hcf (c2Root2 ts) 512) with
    root1 := c2Root2 ts }

/-- The device after flushing the leaf (pid 3) to page 3. -/
def c2DevC (hcf : Block → Block) (id pid : Nat) : Device :=
  ⟨4096, fun a => if 1536 ≤ a ∧ a < 1536 + 512
    then c2Leaf id pid (a - 1536) else (c1DevB hcf).content a⟩

def c2K2 (hcf : Block → Block) (ts id pid : Nat) : Sys :=
  { c2K1 hcf ts id pid with
    dev := c2DevC hcf id pid
    cache := setSlot (c2K1 hcf ts id pid).cache 2
      ⟨3, c2Leaf id pid, 0, false⟩ }

/-- The device after also flushing the root node (pid 2) to page 2. -/
def c2DevD (hcf : Block → Block) (id pid : Nat) : Device :=
  ⟨4096, fun a => if 1024 ≤ a ∧ a < 1024 + 512
    then c2Node2 id (a - 1024) else (c2DevC hcf id pid).content a⟩

def c2K3 (hcf : Block → Block) (ts id pid : Nat) : Sys :=
  { c2K2 hcf ts id pid with
    dev := c2DevD hcf id pid
    cache := setSlot (c2K2 hcf ts id pid).cache 1
      ⟨2, c2Node2 id, 0, false⟩ }

/-- The device after also flushing the committed root block to page 0. -/
def c2DevE (hcf : Block → Block) (ts id pid : Nat) : Device :=
  ⟨4096, fun a => if 0 ≤ a ∧ a < 0 + 512
    then rootBlockPage hcf (c2Root2 ts) 512 (a - 0)
    else (c2DevD hcf id pid).content a⟩

def c2K4 (hcf : Block → Block) (ts id pid : Nat) : Sys :=
  { c2K3 hcf ts id pid with
    dev := c2DevE hcf ts id pid
    cache := setSlot (c2K3 hcf ts id pid).cache 0
      ⟨0, rootBlockPage hcf (c2Root2 ts) 512, 1, false⟩ }

/-- The state after the depth-2 commit. -/
def c2S4 (hcf : Block → Block) (ts id pid : Nat) : Sys :=
  { c2K4 hcf ts id pid with root0 := c2Root2 ts }

theorem c2Commit_ok (hcf : Block → Block) (ts id pid : Nat) :
    ptCommit hcf ts (c2S3 hcf id pid) ⟨true, [(3, 0), (2, 0)]⟩
      = .ok (c2S4 hcf ts id pid) := by
  have hfa : refFlush (c2K1 hcf ts id pid) 2 = .ok (c2K2 hcf ts id pid) := by
    rw [refFlush_dirty_eq2 (c2K1 hcf ts id pid) 2 rfl
      ((by omega : (1536 : Nat) + 512 ≤ 4096) :
        pidPagenum ((c2K1 hcf ts id pid).cache.lru 2).pid
          * (c2K1 hcf ts id pid).pageSize + (c2K1 hcf ts id pid).pageSize
          ≤ (c2K1 hcf ts id pid).dev.size)]
    rfl
  have hfb : refFlush (c2K2 hcf ts id pid) 1 = .ok (c2K3 hcf ts id pid) := by
    rw [refFlush_dirty_eq2 (c2K2 hcf ts id pid) 1 rfl
      ((by omega : (1024 : Nat) + 512 ≤ 4096) :
        pidPagenum ((c2K2 hcf ts id pid).cache.lru 1).pid
          * (c2K2 hcf ts id pid).pageSize + (c2K2 hcf ts id pid).pageSize
          ≤ (c2K2 hcf ts id pid).dev.size)]
    rfl
  have hfc : refFlush (c2K3 hcf ts id pid) 0 = .ok (c2K4 hcf ts id pid) := by
    rw [refFlush_dirty_eq2 (c2K3 hcf ts id pid) 0 rfl
      ((by omega : (0 : Nat) + 512 ≤ 4096) :
        pidPagenum ((c2K3 hcf ts id pid).cache.lru 0).pid
          * (c2K3 hcf ts id pid).pageSize + (c2K3 hcf ts id pid).pageSize
          ≤ (c2K3 hcf ts id pid).dev.size)]
    rfl
  have hfl : cacheFlush (c2K1 hcf ts id pid) = .ok (c2K4 hcf ts id pid) := by
    rw [cacheFlush_eq_list (c2K1 hcf ts id pid) [(3, 2), (2, 1), (0, 0)] rfl,
      cacheFlushList_cons _ (c2K2 hcf ts id pid) 3 2 _ hfa,
      cacheFlushList_cons _ (c2K3 hcf ts id pid) 2 1 _ hfb,
      cacheFlushList_cons _ (c2K4 hcf ts id pid) 0 0 _ hfc,
      cacheFlushList_nil]
  rw [ptCommit_rw_eq hcf ts (c2S3 hcf id pid) ⟨true, [(3, 0), (2, 0)]⟩ rfl
    (c2K4 hcf ts id pid) hfl]
  rfl

/-- The read-only transaction after the depth-2 commit. -/
def c2S5 (hcf : Block → Block) (ts id pid : Nat) : Sys :=
  { c2S4 hcf ts id pid with
    root1 := { c2Root2 ts with generation := 3 } }

theorem c2S5_ok (hcf : Block → Block) (ts id pid : Nat) :
    newTransaction (c2S4 hcf ts id pid) false
      = .ok (⟨false, []⟩, c2S5 hcf ts id pid) := by
  unfold newTransaction
  rw [if_neg (by
    rw [show (c2S4 hcf ts id pid).root1.generation = 2 from rfl,
      show (c2S4 hcf ts id pid).root0.generation = 2 from rfl]
    omega)]
  rfl

/-- The held root node during the depth-2 get. -/
def c2S6 (hcf : Block → Block) (ts id pid : Nat) : Sys :=
  { c2S5 hcf ts id pid with
    cache := setSlot (c2S5 hcf ts id pid).cache 1
      ⟨2, c2Node2 id, 1, false⟩ }

def c2S7 (hcf : Block → Block) (ts id pid : Nat) : Sys :=
  refRelease (c2S6 hcf ts id pid) 1

/-- The held leaf during the depth-2 get. -/
def c2S8 (hcf : Block → Block) (ts id pid : Nat) : Sys :=
  { c2S7 hcf ts id pid with
    cache := setSlot (c2S7 hcf ts id pid).cache 2
      ⟨3, c2Leaf id pid, 1, false⟩ }

/-- `get` after the depth-2 commit returns the stored pid. -/
theorem c2Get_ok (hcf : Block → Block) (ts id pid : Nat)
    (h1 : 64 ≤ lidPagenum id) (h2 : lidPagenum id < 4096)
    (hpid : pid < 2 ^ 64) (hpn : pidPagenum pid ≠ 0) :
    ∃ sysa, ptGet (c2S5 hcf ts id pid) id = .ok (pid, sysa) := by
  refine ⟨refRelease (c2S8 hcf ts id pid) 2, ?_⟩
  unfold ptGet
  have hnum : rpNumPages (c2S5 hcf ts id pid).root1 = 4096 := by
    unfold rpNumPages rpIdsPerPage
    rw [show (c2S5 hcf ts id pid).root1.pageSize = 512 from rfl,
      show (c2S5 hcf ts id pid).root1.depth = 2 from rfl]
    norm_num
  rw [hnum, if_neg (by omega),
    show (c2S5 hcf ts id pid).root1.pageTable = 2 from rfl]
  have hg : cacheGet (c2S5 hcf ts id pid) 2
      = .ok (1, c2S6 hcf ts id pid) := by
    rw [cacheGet_hit (c2S5 hcf ts id pid) 2 1 rfl rfl]
    rfl
  rw [hg]
  dsimp only
  have hipp : rpIdsPerPage (c2S5 hcf ts id pid).root1 = 64 := by
    unfold rpIdsPerPage
    norm_num [show (c2S5 hcf ts id pid).root1.pageSize = 512 from rfl]
  rw [show (c2S5 hcf ts id pid).root1.depth = 2 from rfl, hipp,
    show (64 : Nat) ^ (2 - 1) = 64 from by norm_num]
  have hnext : pageU64 (slotPage (c2S6 hcf ts id pid) 1)
      (lidPagenum id / 64 * 8) = 3 := by
    rw [show slotPage (c2S6 hcf ts id pid) 1 = c2Node2 id from rfl]
    unfold c2Node2
    exact pageU64_set_self _ _ _ (by norm_num)
  have hg2 : cacheGet (refRelease (c2S6 hcf ts id pid) 1) 3
      = .ok (2, c2S8 hcf ts id pid) := by
    rw [show refRelease (c2S6 hcf ts id pid) 1 = c2S7 hcf ts id pid from rfl,
      cacheGet_hit (c2S7 hcf ts id pid) 3 2 rfl rfl]
    rfl
  have eg : ptGetLoop 64 2 (c2S6 hcf ts id pid) 64 (lidPagenum id) 1
      = ptGetLoop 64 1 (c2S8 hcf ts id pid) 1 (lidPagenum id % 64) 2 :=
    ptGetLoop_step 64 0 (c2S6 hcf ts id pid) 64 (lidPagenum id) 1 3
      hnext (by decide) 2 (c2S8 hcf ts id pid) hg2
  rw [eg]
  simp only [ptGetLoop]
  unfold ptGetLeaf
  dsimp only
  rw [show slotPage (c2S8 hcf ts id pid) 2 = c2Leaf id pid from rfl]
  unfold c2Leaf
  rw [pageU64_set_self _ _ _ hpid, if_neg hpn]

/-! #### Reopen in the depth-2 case -/

/-- The state `Open` builds on the depth-2 committed device. -/
def c2O1 (hcf : Block → Block) (ts id pid : Nat) : Sys :=
  { { newSys 512 (c2S4 hcf ts id pid).dev with
      cache :=
        { setSlot (newSys 512 (c2S4 hcf ts id pid).dev).cache 0
            { pid := 0
              data := fun i => (c2S4 hcf ts id pid).dev.content
                (pidPagenum 0 * 512 + i)
              refcount := 1
              dirty := false }
          with cached := [(0, 0)] } }
    with
    root0 := c2Root2 ts
    rootSlot := 0 }

/-- Reopening the depth-2 device parses the committed root pointer. -/
theorem c2Open_ok (hcf : Block → Block)
    (hhcf : ∀ b : Block, (hcf b).length = b.length)
    (ts id pid : Nat) (hts : ts < 2 ^ 64) :
    dbOpen hcf 512 (c2S4 hcf ts id pid).dev = .ok (c2O1 hcf ts id pid) := by
  have hwf : rpWF (c2Root2 ts) := by
    unfold rpWF c2Root2 rootPtrMagic
    dsimp only
    omega
  have hparse : parseRootBlock hcf
      (fun i => (c2S4 hcf ts id pid).dev.content (pidPagenum 0 * 512 + i))
      512 = .ok (c2Root2 ts) := by
    rw [parseRootBlock_congr_lt hcf _ (rootBlockPage hcf (c2Root2 ts) 512)
      512 ?hpt]
    · exact parseRootBlock_format hcf hhcf (c2Root2 ts) 512 hwf
        (by rw [show (c2Root2 ts).generation = 2 from rfl]; omega)
        (by omega)
    case hpt =>
      intro j hj
      have hj480 : j < 480 := by
        rw [show numWins 512 = 5 from rfl] at hj
        omega
      show (c2S4 hcf ts id pid).dev.content (pidPagenum 0 * 512 + j) = _
      rw [show pidPagenum 0 * 512 = 0 from rfl,
        show (c2S4 hcf ts id pid).dev.content
          = (c2DevE hcf ts id pid).content from rfl]
      show (if 0 ≤ 0 + j ∧ 0 + j < 0 + 512
        then rootBlockPage hcf (c2Root2 ts) 512 (0 + j - 0)
        else (c2DevD hcf id pid).content (0 + j))
        = rootBlockPage hcf (c2Root2 ts) 512 j
      rw [if_pos (by omega), show 0 + j - 0 = j from by omega]
  rw [dbOpen_state hcf 512 (c2S4 hcf ts id pid).dev
    (by rw [show (c2S4 hcf ts id pid).dev.size = 4096 from rfl]; omega)
    (c2Root2 ts) hparse]
  rfl

/-- The read-only transaction after the depth-2 reopen. -/
def c2O2 (hcf : Block → Block) (ts id pid : Nat) : Sys :=
  { c2O1 hcf ts id pid with
    root1 := { c2Root2 ts with generation := 3 } }

theorem c2O2_ok (hcf : Block → Block) (ts id pid : Nat) :
    newTransaction (c2O1 hcf ts id pid) false
      = .ok (⟨false, []⟩, c2O2 hcf ts id pid) := by
  unfold newTransaction
  rw [if_neg (by
    rw [show (c2O1 hcf ts id pid).root1.generation = 0 from rfl,
      show (c2O1 hcf ts id pid).root0.generation = 2 from rfl]
    omega)]
  rfl

/-- The clock hand after scanning past the held root-block slot. -/
def c2O2m (hcf : Block → Block) (ts id pid : Nat) : Sys :=
  { c2O2 hcf ts id pid with
    cache := { (c2O2 hcf ts id pid).cache with clock := 1 } }

/-- The depth-2 root node read from the device into slot 1. -/
def c2O3 (hcf : Block → Block) (ts id pid : Nat) : Sys :=
  { c2O2m hcf ts id pid with
    cache :=
      { setSlot (c2O2m hcf ts id pid).cache 1
          ⟨2, fun i => (c2S4 hcf ts id pid).dev.content (1024 + i), 1, false⟩
        with cached := [(2, 1), (0, 0)] } }

def c2O4 (hcf : Block → Block) (ts id pid : Nat) : Sys :=
  refRelease (c2O3 hcf ts id pid) 1

/-- Slot 1 evicted again for the leaf read. -/
def c2O4e (hcf : Block → Block) (ts id pid : Nat) : Sys :=
  { c2O4 hcf ts id pid with
    cache := { (c2O4 hcf ts id pid).cache with
      cached := [(0, 0)]
      clock := 1 } }

/-- The depth-2 leaf read from the device into slot 1. -/
def c2O5 (hcf : Block → Block) (ts id pid : Nat) : Sys :=
  { c2O4e hcf ts id pid with
    cache :=
      { setSlot (c2O4e hcf ts id pid).cache 1
          ⟨3, fun i => (c2S4 hcf ts id pid).dev.content (1536 + i), 1, false⟩
        with cached := [(3, 1), (0, 0)] } }

/-- `get` after the depth-2 reopen also returns the stored pid. -/
theorem c2GetR_ok (hcf : Block → Block) (ts id pid : Nat)
    (h1 : 64 ≤ lidPagenum id) (h2 : lidPagenum id < 4096)
    (hpid : pid < 2 ^ 64) (hpn : pidPagenum pid ≠ 0) :
    ∃ sysa, ptGet (c2O2 hcf ts id pid) id = .ok (pid, sysa) := by
  refine ⟨refRelease (c2O5 hcf ts id pid) 1, ?_⟩
  unfold ptGet
  have hnum : rpNumPages (c2O2 hcf ts id pid).root1 = 4096 := by
    unfold rpNumPages rpIdsPerPage
    rw [show (c2O2 hcf ts id pid).root1.pageSize = 512 from rfl,
      show (c2O2 hcf ts id pid).root1.depth = 2 from rfl]
    norm_num
  rw [hnum, if_neg (by omega),
    show (c2O2 hcf ts id pid).root1.pageTable = 2 from rfl]
  have hnr : cacheNewRef (c2O2 hcf ts id pid)
      = .ok (1, c2O2m hcf ts id pid) := by
    unfold cacheNewRef
    rw [show (c2O2 hcf ts id pid).cache.clock = 0 from rfl,
      show (c2O2 hcf ts id pid).cache.numRefs = 262144 from rfl,
      cacheNewRefLoop_skip 0 262144 (c2O2 hcf ts id pid) 0
        (by rw [show ((c2O2 hcf ts id pid).cache.lru 0).refcount = 1
          from rfl]; decide)
        (by rw [show (0 + 1) % (c2O2 hcf ts id pid).cache.numRefs = 1
          from rfl]; decide),
      show (0 + 1) % (c2O2 hcf ts id pid).cache.numRefs = 1 from rfl,
      cacheNewRefLoop_found 0 262143 (c2O2 hcf ts id pid) 1
        (by rw [show ((c2O2 hcf ts id pid).cache.lru 1).refcount = 0
          from rfl])
        (by rw [show ((c2O2 hcf ts id pid).cache.lru 1).pid = 0 from rfl])]
    rfl
  have hread : deviceReadPage (c2O2m hcf ts id pid).dev
      (c2O2m hcf ts id pid).pageSize
      (pidPagenum 2 * (c2O2m hcf ts id pid).pageSize)
      = .ok (fun i => (c2S4 hcf ts id pid).dev.content (1024 + i)) := by
    unfold deviceReadPage
    rw [if_pos (by
      rw [show pidPagenum 2 * (c2O2m hcf ts id pid).pageSize = 1024
          from rfl,
        show (c2O2m hcf ts id pid).pageSize = 512 from rfl,
        show (c2O2m hcf ts id pid).dev.size = 4096 from rfl]
      omega)]
    rfl
  have hget : cacheGet (c2O2 hcf ts id pid) 2
      = .ok (1, c2O3 hcf ts id pid) := by
    rw [cacheGet_miss_eq (c2O2 hcf ts id pid) 2 1 (c2O2m hcf ts id pid)
      (fun i => (c2S4 hcf ts id pid).dev.content (1024 + i)) rfl hnr
      (by rw [show ((c2O2m hcf ts id pid).cache.lru 1).dirty = false
        from rfl]; decide)
      hread]
    rfl
  rw [hget]
  dsimp only
  have hipp : rpIdsPerPage (c2O2 hcf ts id pid).root1 = 64 := by
    unfold rpIdsPerPage
    norm_num [show (c2O2 hcf ts id pid).root1.pageSize = 512 from rfl]
  rw [show (c2O2 hcf ts id pid).root1.depth = 2 from rfl, hipp,
    show (64 : Nat) ^ (2 - 1) = 64 from by norm_num]
  have hnext : pageU64 (slotPage (c2O3 hcf ts id pid) 1)
      (lidPagenum id / 64 * 8) = 3 := by
    rw [show slotPage (c2O3 hcf ts id pid) 1
      = (fun i => (c2S4 hcf ts id pid).dev.content (1024 + i)) from rfl,
      pageU64_congr _ (c2Node2 id) (lidPagenum id / 64 * 8) ?hpt]
    · unfold c2Node2
      exact pageU64_set_self _ _ _ (by norm_num)
    case hpt =>
      intro j hj1 hj2
      have hj512 : j < 512 := by omega
      show (c2S4 hcf ts id pid).dev.content (1024 + j) = _
      rw [show (c2S4 hcf ts id pid).dev.content
        = (c2DevE hcf ts id pid).content from rfl]
      show (if 0 ≤ 1024 + j ∧ 1024 + j < 0 + 512
        then rootBlockPage hcf (c2Root2 ts) 512 (1024 + j - 0)
        else (c2DevD hcf id pid).content (1024 + j)) = _
      rw [if_neg (by omega)]
      show (if 1024 ≤ 1024 + j ∧ 1024 + j < 1024 + 512
        then c2Node2 id (1024 + j - 1024)
        else (c2DevC hcf id pid).content (1024 + j)) = _
      rw [if_pos (by omega), show 1024 + j - 1024 = j from by omega]
  have hnr2 : cacheNewRef (c2O4 hcf ts id pid)
      = .ok (1, c2O4e hcf ts id pid) := by
    unfold cacheNewRef
    rw [show (c2O4 hcf ts id pid).cache.clock = 1 from rfl,
      show (c2O4 hcf ts id pid).cache.numRefs = 262144 from rfl,
      cacheNewRefLoop_evict 1 262144 (c2O4 hcf ts id pid)
        (c2O4 hcf ts id pid) 1 rfl
        (by rw [show ((c2O4 hcf ts id pid).cache.lru 1).pid = 2 from rfl]
            decide)
        (refFlush_clean_eq _ 1 (by
          rw [show ((c2O4 hcf ts id pid).cache.lru 1).dirty = false
            from rfl]
          decide))]
    rfl
  have hread2 : deviceReadPage (c2O4e hcf ts id pid).dev
      (c2O4e hcf ts id pid).pageSize
      (pidPagenum 3 * (c2O4e hcf ts id pid).pageSize)
      = .ok (fun i => (c2S4 hcf ts id pid).dev.content (1536 + i)) := by
    unfold deviceReadPage
    rw [if_pos (by
      rw [show pidPagenum 3 * (c2O4e hcf ts id pid).pageSize = 1536
          from rfl,
        show (c2O4e hcf ts id pid).pageSize = 512 from rfl,
        show (c2O4e hcf ts id pid).dev.size = 4096 from rfl]
      omega)]
    rfl
  have hget2 : cacheGet (c2O4 hcf ts id pid) 3
      = .ok (1, c2O5 hcf ts id pid) := by
    rw [cacheGet_miss_eq (c2O4 hcf ts id pid) 3 1 (c2O4e hcf ts id pid)
      (fun i => (c2S4 hcf ts id pid).dev.content (1536 + i)) rfl hnr2
      (by rw [show ((c2O4e hcf ts id pid).cache.lru 1).dirty = false
        from rfl]; decide)
      hread2]
    rfl
  have eg : ptGetLoop 64 2 (c2O3 hcf ts id pid) 64 (lidPagenum id) 1
      = ptGetLoop 64 1 (c2O5 hcf ts id pid) 1 (lidPagenum id % 64) 1 :=
    ptGetLoop_step 64 0 (c2O3 hcf ts id pid) 64 (lidPagenum id) 1 3
      hnext (by decide) 1 (c2O5 hcf ts id pid) hget2
  rw [eg]
  simp only [ptGetLoop]
  unfold ptGetLeaf
  dsimp only
  rw [show slotPage (c2O5 hcf ts id pid) 1
    = (fun i => (c2S4 hcf ts id pid).dev.content (1536 + i)) from rfl]
  have hv : pageU64 (fun i => (c2S4 hcf ts id pid).dev.content (1536 + i))
      (lidPagenum id % 64 * 8) = pid := by
    rw [pageU64_congr _ (c2Leaf id pid) (lidPagenum id % 64 * 8) ?hpt]
    · unfold c2Leaf
      exact pageU64_set_self _ _ _ hpid
    case hpt =>
      intro j hj1 hj2
      have hj512 : j < 512 := by omega
      show (c2S4 hcf ts id pid).dev.content (1536 + j) = _
      rw [show (c2S4 hcf ts id pid).dev.content
        = (c2DevE hcf ts id pid).content from rfl]
      show (if 0 ≤ 1536 + j ∧ 1536 + j < 0 + 512
        then rootBlockPage hcf (c2Root2 ts) 512 (1536 + j - 0)
        else (c2DevD hcf id pid).content (1536 + j)) = _
      rw [if_neg (by omega)]
      show (if 1024 ≤ 1536 + j ∧ 1536 + j < 1024 + 512
        then c2Node2 id (1536 + j - 1024)
        else (c2DevC hcf id pid).content (1536 + j)) = _
      rw [if_neg (by omega)]
      show (if 1536 ≤ 1536 + j ∧ 1536 + j < 1536 + 512
        then c2Leaf id pid (1536 + j - 1536)
        else (c1DevB hcf).content (1536 + j)) = _
      rw [if_pos (by omega), show 1536 + j - 1536 = j from by omega]
  rw [hv, if_neg hpn]

/-! #### `set` in the depth-3 case (4096 ≤ pagenum < 262144) -/

/-- Physical ID 3 allocated by the second growth iteration. -/
def c3H1 (hcf : Block → Block) : Sys :=
  { c2G7 hcf with
    root1 := { (c2G7 hcf).root1 with nextPhysical := 4 } }

/-- The dirty depth-2 root node flushed to page 2 by the eviction. -/
def c3DevB (hcf : Block → Block) : Device :=
  ⟨4096, fun a => if 1024 ≤ a ∧ a < 1024 + 512
    then c2Node1 (a - 1024) else (c1DevB hcf).content a⟩

def c3H2 (hcf : Block → Block) : Sys :=
  { c3H1 hcf with
    dev := c3DevB hcf
    cache := setSlot (c3H1 hcf).cache 1 ⟨2, c2Node1, 0, false⟩ }

def c3H3 (hcf : Block → Block) : Sys :=
  { c3H2 hcf with
    cache := { (c3H2 hcf).cache with cached := [(0, 0)], clock := 1 } }

/-- The new depth-3 root node installed in slot 1 as pid 3. -/
def c3H4 (hcf : Block → Block) : Sys :=
  { c3H3 hcf with
    cache :=
      { setSlot (c3H3 hcf).cache 1 ⟨3, zeroPage, 1, false⟩
        with cached := [(3, 1), (0, 0)] } }

/-- The depth-3 root node: entry 0 points at the depth-2 node (pid 2). -/
def c3Node1 : Page := pageSetU64 zeroPage 0 2

def c3H7 (hcf : Block → Block) : Sys :=
  refRelease (setSlotData (refData (c3H4 hcf) 1) 1 c3Node1) 1

def c3H8 (hcf : Block → Block) : Sys :=
  { c3H7 hcf with
    root1 := { (c3H7 hcf).root1 with
      pageTable := 3
      depth := 3 } }

theorem c3H8_numPages (hcf : Block → Block) :
    rpNumPages (c3H8 hcf).root1 = 262144 := by
  unfold rpNumPages rpIdsPerPage
  rw [show (c3H8 hcf).root1.pageSize = 512 from rfl,
    show (c3H8 hcf).root1.depth = 3 from rfl]
  norm_num

/-- The second growth iteration's fresh node allocation (flushes and evicts
the dirty depth-2 root node in slot 1). -/
theorem c3GrowNew_ok (hcf : Block → Block) :
    cacheNew (allocPhysicalID (c2G7 hcf)).2
      (allocPhysicalID (c2G7 hcf)).1 none = .ok (1, c3H4 hcf) := by
  have hfl : refFlush (c3H1 hcf) 1 = .ok (c3H2 hcf) := by
    rw [refFlush_dirty_eq2 (c3H1 hcf) 1 rfl
      ((by omega : (1024 : Nat) + 512 ≤ 4096) :
        pidPagenum ((c3H1 hcf).cache.lru 1).pid * (c3H1 hcf).pageSize
          + (c3H1 hcf).pageSize ≤ (c3H1 hcf).dev.size)]
    rfl
  have hnr : cacheNewRef (c3H1 hcf) = .ok (1, c3H3 hcf) := by
    unfold cacheNewRef
    rw [show (c3H1 hcf).cache.clock = 1 from rfl,
      show (c3H1 hcf).cache.numRefs = 262144 from rfl,
      cacheNewRefLoop_evict 1 262144 (c3H1 hcf) (c3H2 hcf) 1 rfl
        (by rw [show ((c3H1 hcf).cache.lru 1).pid = 2 from rfl]; decide)
        hfl]
    rfl
  rw [show (allocPhysicalID (c2G7 hcf)).2 = c3H1 hcf from rfl,
    show (allocPhysicalID (c2G7 hcf)).1 = 3 from rfl,
    cacheNew_eq (c3H1 hcf) 3 none 1 (c3H3 hcf) rfl hnr]
  rfl

theorem c3Grow_ok (hcf : Block → Block) (id : Nat)
    (h1 : 4096 ≤ lidPagenum id) (h2 : lidPagenum id < 262144) :
    ptSetGrow (lidPagenum id + 2) (c1S2 hcf) ⟨true, []⟩ (lidPagenum id)
      = .ok (⟨true, [(3, 0), (2, 0)]⟩, c3H8 hcf) := by
  rw [show lidPagenum id + 2 = lidPagenum id + 1 + 1 from rfl,
    ptSetGrow_go (lidPagenum id + 1) (c1S2 hcf) (c2G3 hcf) (c2G7 hcf)
      ⟨true, []⟩ (lidPagenum id) 1
      (by rw [ge_iff_le, c1S2_numPages]; omega) (c2GrowNew_ok hcf) rfl,
    ptSetGrow_go (lidPagenum id) (c2G7 hcf) (c3H4 hcf) (c3H8 hcf)
      _ (lidPagenum id) 1
      (by rw [ge_iff_le, c2G7_numPages]; omega) (c3GrowNew_ok hcf) rfl]
  exact ptSetGrow_stop (lidPagenum id) (by omega) (c3H8 hcf) _ _
    (by rw [ge_iff_le, c3H8_numPages]; omega)

/-- The depth-3 root node re-acquired by `writable` (already shadowed). -/
def c3W1 (hcf : Block → Block) : Sys :=
  { c3H8 hcf with
    cache := setSlot (c3H8 hcf).cache 1 ⟨3, c3Node1, 1, true⟩ }

theorem c3Wr_ok (hcf : Block → Block) :
    ptWritable (c3H8 hcf) ⟨true, [(3, 0), (2, 0)]⟩ 3
      = .ok (1, 3, ⟨true, [(3, 0), (2, 0)]⟩, c3W1 hcf) := by
  unfold ptWritable
  rw [if_pos (by decide), cacheGet_hit (c3H8 hcf) 3 1 rfl rfl]
  rfl

def c3W2 (hcf : Block → Block) : Sys :=
  { c3W1 hcf with root1 := { (c3W1 hcf).root1 with pageTable := 3 } }

/-- Physical ID 4 allocated for the missing depth-3 interior node. -/
def c3M2 (hcf : Block → Block) : Sys :=
  { refData (c3W2 hcf) 1 with
    root1 := { (refData (c3W2 hcf) 1).root1 with nextPhysical := 5 } }

def c3M3 (hcf : Block → Block) : Sys :=
  { c3M2 hcf with cache := { (c3M2 hcf).cache with clock := 2 } }

/-- The fresh interior node installed in slot 2 as pid 4. -/
def c3M4 (hcf : Block → Block) : Sys :=
  { c3M3 hcf with
    cache :=
      { setSlot (c3M3 hcf).cache 2 ⟨4, zeroPage, 1, false⟩
        with cached := [(4, 2), (3, 1), (0, 0)] } }

/-- The depth-3 root node after `set` wrote the child entry. -/
def c3Node2 (id : Nat) : Page :=
  pageSetU64 c3Node1 (lidPagenum id / 4096 * 8) 4

def c3M6 (hcf : Block → Block) (id : Nat) : Sys :=
  refRelease (setSlotData (c3M4 hcf) 1 (c3Node2 id)) 1

/-- Physical ID 5 allocated for the missing depth-3 leaf. -/
def c3N2 (hcf : Block → Block) (id : Nat) : Sys :=
  { refData (c3M6 hcf id) 2 with
    root1 := { (refData (c3M6 hcf id) 2).root1 with nextPhysical := 6 } }

def c3N3 (hcf : Block → Block) (id : Nat) : Sys :=
  { c3N2 hcf id with cache := { (c3N2 hcf id).cache with clock := 3 } }

/-- The fresh leaf installed in slot 3 as pid 5. -/
def c3N4 (hcf : Block → Block) (id : Nat) : Sys :=
  { c3N3 hcf id with
    cache :=
      { setSlot (c3N3 hcf id).cache 3 ⟨5, zeroPage, 1, false⟩
        with cached := [(5, 3), (4, 2), (3, 1), (0, 0)] } }

/-- The interior node after `set` wrote the child entry. -/
def c3Mid (id : Nat) : Page :=
  pageSetU64 zeroPage (lidPagenum id % 4096 / 64 * 8) 5

def c3N6 (hcf : Block → Block) (id : Nat) : Sys :=
  refRelease (setSlotData (c3N4 hcf id) 2 (c3Mid id)) 2

/-- The depth-3 leaf: entry `pagenum % 4096 % 64` holds `pid`. -/
def c3Leaf (id pid : Nat) : Page :=
  pageSetU64 zeroPage (lidPagenum id % 4096 % 64 * 8) pid

/-- The state after `set(id, pid)` in the depth-3 case. -/
def c3S3 (hcf : Block → Block) (id pid : Nat) : Sys :=
  refRelease (setSlotData (refData (c3N6 hcf id) 3) 3 (c3Leaf id pid)) 3

theorem c3Set_ok (hcf : Block → Block) (id pid : Nat)
    (h1 : 4096 ≤ lidPagenum id) (h2 : lidPagenum id < 262144) :
    ptSet (c1S2 hcf) ⟨true, []⟩ id pid
      = .ok (⟨true, [(5, 0), (4, 0), (3, 0), (2, 0)]⟩, c3S3 hcf id pid) := by
  have hchildM : pageU64 (slotPage (refData (c3W2 hcf) 1) 1)
      (lidPagenum id / 4096 * 8) = 0 := by
    rw [show slotPage (refData (c3W2 hcf) 1) 1 = c3Node1 from rfl]
    unfold c3Node1
    rw [pageU64_set_other zeroPage (lidPagenum id / 4096 * 8) 0 2
      (Or.inr (by omega))]
    exact pageU64_zero _
  have hnrM : cacheNewRef (c3M2 hcf) = .ok (2, c3M3 hcf) := by
    unfold cacheNewRef
    rw [show (c3M2 hcf).cache.clock = 1 from rfl,
      show (c3M2 hcf).cache.numRefs = 262144 from rfl,
      cacheNewRefLoop_skip 1 262144 (c3M2 hcf) 1
        (by rw [show ((c3M2 hcf).cache.lru 1).refcount = 1 from rfl]; decide)
        (by rw [show (1 + 1) % (c3M2 hcf).cache.numRefs = 2 from rfl]; decide),
      show (1 + 1) % (c3M2 hcf).cache.numRefs = 2 from rfl,
      cacheNewRefLoop_found 1 262143 (c3M2 hcf) 2 rfl rfl]
    rfl
  have hnewM : cacheNew (allocPhysicalID (refData (c3W2 hcf) 1)).2
      (allocPhysicalID (refData (c3W2 hcf) 1)).1 none
      = .ok (2, c3M4 hcf) := by
    rw [show (allocPhysicalID (refData (c3W2 hcf) 1)).2 = c3M2 hcf from rfl,
      show (allocPhysicalID (refData (c3W2 hcf) 1)).1 = 4 from rfl,
      cacheNew_eq (c3M2 hcf) 4 none 2 (c3M3 hcf) rfl hnrM]
    rfl
  have hchildN : pageU64 (slotPage (refData (c3M6 hcf id) 2) 2)
      (lidPagenum id % 4096 / 64 * 8) = 0 := by
    rw [show slotPage (refData (c3M6 hcf id) 2) 2 = zeroPage from rfl]
    exact pageU64_zero _
  have hnrN : cacheNewRef (c3N2 hcf id) = .ok (3, c3N3 hcf id) := by
    unfold cacheNewRef
    rw [show (c3N2 hcf id).cache.clock = 2 from rfl,
      show (c3N2 hcf id).cache.numRefs = 262144 from rfl,
      cacheNewRefLoop_skip 2 262144 (c3N2 hcf id) 2
        (by rw [show ((c3N2 hcf id).cache.lru 2).refcount = 1 from rfl]
            decide)
        (by rw [show (2 + 1) % (c3N2 hcf id).cache.numRefs = 3 from rfl]
            decide),
      show (2 + 1) % (c3N2 hcf id).cache.numRefs = 3 from rfl,
      cacheNewRefLoop_found 2 262143 (c3N2 hcf id) 3 rfl rfl]
    rfl
  have hnewN : cacheNew (allocPhysicalID (refData (c3M6 hcf id) 2)).2
      (allocPhysicalID (refData (c3M6 hcf id) 2)).1 none
      = .ok (3, c3N4 hcf id) := by
    rw [show (allocPhysicalID (refData (c3M6 hcf id) 2)).2 = c3N2 hcf id
        from rfl,
      show (allocPhysicalID (refData (c3M6 hcf id) 2)).1 = 5 from rfl,
      cacheNew_eq (c3N2 hcf id) 5 none 3 (c3N3 hcf id) rfl hnrN]
    rfl
  unfold ptSet
  rw [c3Grow_ok hcf id h1 h2]
  dsimp only
  rw [show (c3H8 hcf).root1.pageTable = 3 from rfl, c3Wr_ok hcf]
  dsimp only
  have hipp : rpIdsPerPage (c3W1 hcf).root1 = 64 := by
    unfold rpIdsPerPage
    norm_num [show (c3W1 hcf).root1.pageSize = 512 from rfl]
  rw [show (c3W1 hcf).root1.depth = 3 from rfl, hipp,
    show (64 : Nat) ^ (3 - 1) = 4096 from by norm_num]
  show ptSetLoop 64 pid 3 (c3W2 hcf) ⟨true, [(3, 0), (2, 0)]⟩ 4096
    (lidPagenum id) 1
    = .ok (⟨true, [(5, 0), (4, 0), (3, 0), (2, 0)]⟩, c3S3 hcf id pid)
  have e3 : ptSetLoop 64 pid 3 (c3W2 hcf) ⟨true, [(3, 0), (2, 0)]⟩ 4096
      (lidPagenum id) 1
      = ptSetLoop 64 pid 2 (c3M6 hcf id)
          ⟨true, [(4, 0), (3, 0), (2, 0)]⟩ 64 (lidPagenum id % 4096) 2 :=
    ptSetLoop_alloc 64 pid 1 (c3W2 hcf) ⟨true, [(3, 0), (2, 0)]⟩ 4096
      (lidPagenum id) 1 hchildM 2 (c3M4 hcf) hnewM
  have e4 : ptSetLoop 64 pid 2 (c3M6 hcf id)
      ⟨true, [(4, 0), (3, 0), (2, 0)]⟩ 64 (lidPagenum id % 4096) 2
      = ptSetLoop 64 pid 1 (c3N6 hcf id)
          ⟨true, [(5, 0), (4, 0), (3, 0), (2, 0)]⟩ 1
          (lidPagenum id % 4096 % 64) 3 :=
    ptSetLoop_alloc 64 pid 0 (c3M6 hcf id) ⟨true, [(4, 0), (3, 0), (2, 0)]⟩
      64 (lidPagenum id % 4096) 2 hchildN 3 (c3N4 hcf id) hnewN
  rw [e3, e4]
  simp only [ptSetLoop]
  unfold ptSetLeaf
  dsimp only
  rfl

/-! #### Commit and get in the depth-3 case -/

/-- The root pointer a depth-3 commit formats. -/
def c3Root2 (ts : Nat) : RootPointer :=
  { magic := rootPtrMagic
    depth := 3
    pageSize := 512
    timestamp := ts
    generation := 2
    nextPhysical := 6
    nextLogical := 1
    pageTable := 3
    freelist := 0 }

/-- The committed root block formatted into slot 0. -/
def c3K1 (hcf : Block → Block) (ts id pid : Nat) : Sys :=
  { setSlotData (refData (c3S3 hcf id pid) 0) 0
      (rootBlockPage hcf (c3Root2 ts) 512) with
    root1 := c3Root2 ts }

/-- The device after flushing the leaf (pid 5) to page 5. -/
def c3DevC (hcf : Block → Block) (id pid : Nat) : Device :=
  ⟨4096, fun a => if 2560 ≤ a ∧ a < 2560 + 512
    then c3Leaf id pid (a - 2560) else (c3DevB hcf).content a⟩

def c3K2 (hcf : Block → Block) (ts id pid : Nat) : Sys :=
  { c3K1 hcf ts id pid with
    dev := c3DevC hcf id pid
    cache := setSlot (c3K1 hcf ts id pid).cache 3
      ⟨5, c3Leaf id pid, 0, false⟩ }

/-- The device after also flushing the interior node (pid 4) to page 4. -/
def c3DevD (hcf : Block → Block) (id pid : Nat) : Device :=
  ⟨4096, fun a => if 2048 ≤ a ∧ a < 2048 + 512
    then c3Mid id (a - 2048) else (c3DevC hcf id pid).content a⟩

def c3K3 (hcf : Block → Block) (ts id pid : Nat) : Sys :=
  { c3K2 hcf ts id pid with
    dev := c3DevD hcf id pid
    cache := setSlot (c3K2 hcf ts id pid).cache 2
      ⟨4, c3Mid id, 0, false⟩ }

/-- The device after also flushing the root node (pid 3) to page 3. -/
def c3DevE (hcf : Block → Block) (id pid : Nat) : Device :=
  ⟨4096, fun a => if 1536 ≤ a ∧ a < 1536 + 512
    then c3Node2 id (a - 1536) else (c3DevD hcf id pid).content a⟩

def c3K4 (hcf : Block → Block) (ts id pid : Nat) : Sys :=
  { c3K3 hcf ts id pid with
    dev := c3DevE hcf id pid
    cache := setSlot (c3K3 hcf ts id pid).cache 1
      ⟨3, c3Node2 id, 0, false⟩ }

/-- The device after also flushing the committed root block to page 0. -/
def c3DevF (hcf : Block → Block) (ts id pid : Nat) : Device :=
  ⟨4096, fun a => if 0 ≤ a ∧ a < 0 + 512
    then rootBlockPage hcf (c3Root2 ts) 512 (a - 0)
    else (c3DevE hcf id pid).content a⟩

def c3K5 (hcf : Block → Block) (ts id pid : Nat) : Sys :=
  { c3K4 hcf ts id pid with
    dev := c3DevF hcf ts id pid
    cache := setSlot (c3K4 hcf ts id pid).cache 0
      ⟨0, rootBlockPage hcf (c3Root2 ts) 512, 1, false⟩ }

/-- The state after the depth-3 commit. -/
def c3S4 (hcf : Block → Block) (ts id pid : Nat) : Sys :=
  { c3K5 hcf ts id pid with root0 := c3Root2 ts }

theorem c3Commit_ok (hcf : Block → Block) (ts id pid : Nat) :
    ptCommit hcf ts (c3S3 hcf id pid) ⟨true, [(5, 0), (4, 0), (3, 0), (2, 0)]⟩
      = .ok (c3S4 hcf ts id pid) := by
  have hfa : refFlush (c3K1 hcf ts id pid) 3 = .ok (c3K2 hcf ts id pid) := by
    rw [refFlush_dirty_eq2 (c3K1 hcf ts id pid) 3 rfl
      ((by omega : (2560 : Nat) + 512 ≤ 4096) :
        pidPagenum ((c3K1 hcf ts id pid).cache.lru 3).pid
          * (c3K1 hcf ts id pid).pageSize + (c3K1 hcf ts id pid).pageSize
          ≤ (c3K1 hcf ts id pid).dev.size)]
    rfl
  have hfb : refFlush (c3K2 hcf ts id pid) 2 = .ok (c3K3 hcf ts id pid) := by
    rw [refFlush_dirty_eq2 (c3K2 hcf ts id pid) 2 rfl
      ((by omega : (2048 : Nat) + 512 ≤ 4096) :
        pidPagenum ((c3K2 hcf ts id pid).cache.lru 2).pid
          * (c3K2 hcf ts id pid).pageSize + (c3K2 hcf ts id pid).pageSize
          ≤ (c3K2 hcf ts id pid).dev.size)]
    rfl
  have hfc : refFlush (c3K3 hcf ts id pid) 1 = .ok (c3K4 hcf ts id pid) := by
    rw [refFlush_dirty_eq2 (c3K3 hcf ts id pid) 1 rfl
      ((by omega : (1536 : Nat) + 512 ≤ 4096) :
        pidPagenum ((c3K3 hcf ts id pid).cache.lru 1).pid
          * (c3K3 hcf ts id pid).pageSize + (c3K3 hcf ts id pid).pageSize
          ≤ (c3K3 hcf ts id pid).dev.size)]
    rfl
  have hfd : refFlush (c3K4 hcf ts id pid) 0 = .ok (c3K5 hcf ts id pid) := by
    rw [refFlush_dirty_eq2 (c3K4 hcf ts id pid) 0 rfl
      ((by omega : (0 : Nat) + 512 ≤ 4096) :
        pidPagenum ((c3K4 hcf ts id pid).cache.lru 0).pid
          * (c3K4 hcf ts id pid).pageSize + (c3K4 hcf ts id pid).pageSize
          ≤ (c3K4 hcf ts id pid).dev.size)]
    rfl
  have hfl : cacheFlush (c3K1 hcf ts id pid) = .ok (c3K5 hcf ts id pid) := by
    rw [cacheFlush_eq_list (c3K1 hcf ts id pid)
        [(5, 3), (4, 2), (3, 1), (0, 0)] rfl,
      cacheFlushList_cons _ (c3K2 hcf ts id pid) 5 3 _ hfa,
      cacheFlushList_cons _ (c3K3 hcf ts id pid) 4 2 _ hfb,
      cacheFlushList_cons _ (c3K4 hcf ts id pid) 3 1 _ hfc,
      cacheFlushList_cons _ (c3K5 hcf ts id pid) 0 0 _ hfd,
      cacheFlushList_nil]
  rw [ptCommit_rw_eq hcf ts (c3S3 hcf id pid)
    ⟨true, [(5, 0), (4, 0), (3, 0), (2, 0)]⟩ rfl
    (c3K5 hcf ts id pid) hfl]
  rfl

/-- The read-only transaction after the depth-3 commit. -/
def c3S5 (hcf : Block → Block) (ts id pid : Nat) : Sys :=
  { c3S4 hcf ts id pid with
    root1 := { c3Root2 ts with generation := 3 } }

theorem c3S5_ok (hcf : Block → Block) (ts id pid : Nat) :
    newTransaction (c3S4 hcf ts id pid) false
      = .ok (⟨false, []⟩, c3S5 hcf ts id pid) := by
  unfold newTransaction
  rw [if_neg (by
    rw [show (c3S4 hcf ts id pid).root1.generation = 2 from rfl,
      show (c3S4 hcf ts id pid).root0.generation = 2 from rfl]
    omega)]
  rfl

/-- The held root node during the depth-3 get. -/
def c3S6 (hcf : Block → Block) (ts id pid : Nat) : Sys :=
  { c3S5 hcf ts id pid with
    cache := setSlot (c3S5 hcf ts id pid).cache 1
      ⟨3, c3Node2 id, 1, false⟩ }

def c3S7 (hcf : Block → Block) (ts id pid : Nat) : Sys :=
  refRelease (c3S6 hcf ts id pid) 1

/-- The held interior node during the depth-3 get. -/
def c3S8 (hcf : Block → Block) (ts id pid : Nat) : Sys :=
  { c3S7 hcf ts id pid with
    cache := setSlot (c3S7 hcf ts id pid).cache 2
      ⟨4, c3Mid id, 1, false⟩ }

def c3S9 (hcf : Block → Block) (ts id pid : Nat) : Sys :=
  refRelease (c3S8 hcf ts id pid) 2

/-- The held leaf during the depth-3 get. -/
def c3S10 (hcf : Block → Block) (ts id pid : Nat) : Sys :=
  { c3S9 hcf ts id pid with
    cache := setSlot (c3S9 hcf ts id pid).cache 3
      ⟨5, c3Leaf id pid, 1, false⟩ }

/-- `get` after the depth-3 commit returns the stored pid. -/
theorem c3Get_ok (hcf : Block → Block) (ts id pid : Nat)
    (h1 : 4096 ≤ lidPagenum id) (h2 : lidPagenum id < 262144)
    (hpid : pid < 2 ^ 64) (hpn : pidPagenum pid ≠ 0) :
    ∃ sysa, ptGet (c3S5 hcf ts id pid) id = .ok (pid, sysa) := by
  refine ⟨refRelease (c3S10 hcf ts id pid) 3, ?_⟩
  unfold ptGet
  have hnum : rpNumPages (c3S5 hcf ts id pid).root1 = 262144 := by
    unfold rpNumPages rpIdsPerPage
    rw [show (c3S5 hcf ts id pid).root1.pageSize = 512 from rfl,
      show (c3S5 hcf ts id pid).root1.depth = 3 from rfl]
    norm_num
  rw [hnum, if_neg (by omega),
    show (c3S5 hcf ts id pid).root1.pageTable = 3 from rfl]
  have hg : cacheGet (c3S5 hcf ts id pid) 3
      = .ok (1, c3S6 hcf ts id pid) := by
    rw [cacheGet_hit (c3S5 hcf ts id pid) 3 1 rfl rfl]
    rfl
  rw [hg]
  dsimp only
  have hipp : rpIdsPerPage (c3S5 hcf ts id pid).root1 = 64 := by
    unfold rpIdsPerPage
    norm_num [show (c3S5 hcf ts id pid).root1.pageSize = 512 from rfl]
  rw [show (c3S5 hcf ts id pid).root1.depth = 3 from rfl, hipp,
    show (64 : Nat) ^ (3 - 1) = 4096 from by norm_num]
  have hnext1 : pageU64 (slotPage (c3S6 hcf ts id pid) 1)
      (lidPagenum id / 4096 * 8) = 4 := by
    rw [show slotPage (c3S6 hcf ts id pid) 1 = c3Node2 id from rfl]
    unfold c3Node2
    exact pageU64_set_self _ _ _ (by norm_num)
  have hg2 : cacheGet (refRelease (c3S6 hcf ts id pid) 1) 4
      = .ok (2, c3S8 hcf ts id pid) := by
    rw [show refRelease (c3S6 hcf ts id pid) 1 = c3S7 hcf ts id pid from rfl,
      cacheGet_hit (c3S7 hcf ts id pid) 4 2 rfl rfl]
    rfl
  have eg1 : ptGetLoop 64 3 (c3S6 hcf ts id pid) 4096 (lidPagenum id) 1
      = ptGetLoop 64 2 (c3S8 hcf ts id pid) 64 (lidPagenum id % 4096) 2 :=
    ptGetLoop_step 64 1 (c3S6 hcf ts id pid) 4096 (lidPagenum id) 1 4
      hnext1 (by decide) 2 (c3S8 hcf ts id pid) hg2
  have hnext2 : pageU64 (slotPage (c3S8 hcf ts id pid) 2)
      (lidPagenum id % 4096 / 64 * 8) = 5 := by
    rw [show slotPage (c3S8 hcf ts id pid) 2 = c3Mid id from rfl]
    unfold c3Mid
    exact pageU64_set_self _ _ _ (by norm_num)
  have hg3 : cacheGet (refRelease (c3S8 hcf ts id pid) 2) 5
      = .ok (3, c3S10 hcf ts id pid) := by
    rw [show refRelease (c3S8 hcf ts id pid) 2 = c3S9 hcf ts id pid from rfl,
      cacheGet_hit (c3S9 hcf ts id pid) 5 3 rfl rfl]
    rfl
  have eg2 : ptGetLoop 64 2 (c3S8 hcf ts id pid) 64 (lidPagenum id % 4096) 2
      = ptGetLoop 64 1 (c3S10 hcf ts id pid) 1
          (lidPagenum id % 4096 % 64) 3 :=
    ptGetLoop_step 64 0 (c3S8 hcf ts id pid) 64 (lidPagenum id % 4096) 2 5
      hnext2 (by decide) 3 (c3S10 hcf ts id pid) hg3
  rw [eg1, eg2]
  simp only [ptGetLoop]
  unfold ptGetLeaf
  dsimp only
  rw [show slotPage (c3S10 hcf ts id pid) 3 = c3Leaf id pid from rfl]
  unfold c3Leaf
  rw [pageU64_set_self _ _ _ hpid, if_neg hpn]

/-! #### Reopen in the depth-3 case -/

/-- The state `Open` builds on the depth-3 committed device. -/
def c3O1 (hcf : Block → Block) (ts id pid : Nat) : Sys :=
  { { newSys 512 (c3S4 hcf ts id pid).dev with
      cache :=
        { setSlot (newSys 512 (c3S4 hcf ts id pid).dev).cache 0
            { pid := 0
              data := fun i => (c3S4 hcf ts id pid).dev.content
                (pidPagenum 0 * 512 + i)
              refcount := 1
              dirty := false }
          with cached := [(0, 0)] } }
    with
    root0 := c3Root2 ts
    rootSlot := 0 }

/-- Reopening the depth-3 device parses the committed root pointer. -/
theorem c3Open_ok (hcf : Block → Block)
    (hhcf : ∀ b : Block, (hcf b).length = b.length)
    (ts id pid : Nat) (hts : ts < 2 ^ 64) :
    dbOpen hcf 512 (c3S4 hcf ts id pid).dev = .ok (c3O1 hcf ts id pid) := by
  have hwf : rpWF (c3Root2 ts) := by
    unfold rpWF c3Root2 rootPtrMagic
    dsimp only
    omega
  have hparse : parseRootBlock hcf
      (fun i => (c3S4 hcf ts id pid).dev.content (pidPagenum 0 * 512 + i))
      512 = .ok (c3Root2 ts) := by
    rw [parseRootBlock_congr_lt hcf _ (rootBlockPage hcf (c3Root2 ts) 512)
      512 ?hpt]
    · exact parseRootBlock_format hcf hhcf (c3Root2 ts) 512 hwf
        (by rw [show (c3Root2 ts).generation = 2 from rfl]; omega)
        (by omega)
    case hpt =>
      intro j hj
      have hj480 : j < 480 := by
        rw [show numWins 512 = 5 from rfl] at hj
        omega
      show (c3S4 hcf ts id pid).dev.content (pidPagenum 0 * 512 + j) = _
      rw [show pidPagenum 0 * 512 = 0 from rfl,
        show (c3S4 hcf ts id pid).dev.content
          = (c3DevF hcf ts id pid).content from rfl]
      show (if 0 ≤ 0 + j ∧ 0 + j < 0 + 512
        then rootBlockPage hcf (c3Root2 ts) 512 (0 + j - 0)
        else (c3DevE hcf id pid).content (0 + j))
        = rootBlockPage hcf (c3Root2 ts) 512 j
      rw [if_pos (by omega), show 0 + j - 0 = j from by omega]
  rw [dbOpen_state hcf 512 (c3S4 hcf ts id pid).dev
    (by rw [show (c3S4 hcf ts id pid).dev.size = 4096 from rfl]; omega)
    (c3Root2 ts) hparse]
  rfl

/-- The read-only transaction after the depth-3 reopen. -/
def c3O2 (hcf : Block → Block) (ts id pid : Nat) : Sys :=
  { c3O1 hcf ts id pid with
    root1 := { c3Root2 ts with generation := 3 } }

theorem c3O2_ok (hcf : Block → Block) (ts id pid : Nat) :
    newTransaction (c3O1 hcf ts id pid) false
      = .ok (⟨false, []⟩, c3O2 hcf ts id pid) := by
  unfold newTransaction
  rw [if_neg (by
    rw [show (c3O1 hcf ts id pid).root1.generation = 0 from rfl,
      show (c3O1 hcf ts id pid).root0.generation = 2 from rfl]
    omega)]
  rfl

def c3O2m (hcf : Block → Block) (ts id pid : Nat) : Sys :=
  { c3O2 hcf ts id pid with
    cache := { (c3O2 hcf ts id pid).cache with clock := 1 } }

/-- The depth-3 root node read from the device into slot 1. -/
def c3O3 (hcf : Block → Block) (ts id pid : Nat) : Sys :=
  { c3O2m hcf ts id pid with
    cache :=
      { setSlot (c3O2m hcf ts id pid).cache 1
          ⟨3, fun i => (c3S4 hcf ts id pid).dev.content (1536 + i), 1, false⟩
        with cached := [(3, 1), (0, 0)] } }

def c3O4 (hcf : Block → Block) (ts id pid : Nat) : Sys :=
  refRelease (c3O3 hcf ts id pid) 1

def c3O4e (hcf : Block → Block) (ts id pid : Nat) : Sys :=
  { c3O4 hcf ts id pid with
    cache := { (c3O4 hcf ts id pid).cache with
      cached := [(0, 0)]
      clock := 1 } }

/-- The interior node read from the device into slot 1. -/
def c3O5 (hcf : Block → Block) (ts id pid : Nat) : Sys :=
  { c3O4e hcf ts id pid with
    cache :=
      { setSlot (c3O4e hcf ts id pid).cache 1
          ⟨4, fun i => (c3S4 hcf ts id pid).dev.content (2048 + i), 1, false⟩
        with cached := [(4, 1), (0, 0)] } }

def c3O6 (hcf : Block → Block) (ts id pid : Nat) : Sys :=
  refRelease (c3O5 hcf ts id pid) 1

def c3O6e (hcf : Block → Block) (ts id pid : Nat) : Sys :=
  { c3O6 hcf ts id pid with
    cache := { (c3O6 hcf ts id pid).cache with
      cached := [(0, 0)]
      clock := 1 } }

/-- The leaf read from the device into slot 1. -/
def c3O7 (hcf : Block → Block) (ts id pid : Nat) : Sys :=
  { c3O6e hcf ts id pid with
    cache :=
      { setSlot (c3O6e hcf ts id pid).cache 1
          ⟨5, fun i => (c3S4 hcf ts id pid).dev.content (2560 + i), 1, false⟩
        with cached := [(5, 1), (0, 0)] } }

/-- `get` after the depth-3 reopen also returns the stored pid. -/
theorem c3GetR_ok (hcf : Block → Block) (ts id pid : Nat)
    (h1 : 4096 ≤ lidPagenum id) (h2 : lidPagenum id < 262144)
    (hpid : pid < 2 ^ 64) (hpn : pidPagenum pid ≠ 0) :
    ∃ sysa, ptGet (c3O2 hcf ts id pid) id = .ok (pid, sysa) := by
  refine ⟨refRelease (c3O7 hcf ts id pid) 1, ?_⟩
  unfold ptGet
  have hnum : rpNumPages (c3O2 hcf ts id pid).root1 = 262144 := by
    unfold rpNumPages rpIdsPerPage
    rw [show (c3O2 hcf ts id pid).root1.pageSize = 512 from rfl,
      show (c3O2 hcf ts id pid).root1.depth = 3 from rfl]
    norm_num
  rw [hnum, if_neg (by omega),
    show (c3O2 hcf ts id pid).root1.pageTable = 3 from rfl]
  have hnr : cacheNewRef (c3O2 hcf ts id pid)
      = .ok (1, c3O2m hcf ts id pid) := by
    unfold cacheNewRef
    rw [show (c3O2 hcf ts id pid).cache.clock = 0 from rfl,
      show (c3O2 hcf ts id pid).cache.numRefs = 262144 from rfl,
      cacheNewRefLoop_skip 0 262144 (c3O2 hcf ts id pid) 0
        (by rw [show ((c3O2 hcf ts id pid).cache.lru 0).refcount = 1
          from rfl]; decide)
        (by rw [show (0 + 1) % (c3O2 hcf ts id pid).cache.numRefs = 1
          from rfl]; decide),
      show (0 + 1) % (c3O2 hcf ts id pid).cache.numRefs = 1 from rfl,
      cacheNewRefLoop_found 0 262143 (c3O2 hcf ts id pid) 1
        (by rw [show ((c3O2 hcf ts id pid).cache.lru 1).refcount = 0
          from rfl])
        (by rw [show ((c3O2 hcf ts id pid).cache.lru 1).pid = 0 from rfl])]
    rfl
  have hread : deviceReadPage (c3O2m hcf ts id pid).dev
      (c3O2m hcf ts id pid).pageSize
      (pidPagenum 3 * (c3O2m hcf ts id pid).pageSize)
      = .ok (fun i => (c3S4 hcf ts id pid).dev.content (1536 + i)) := by
    unfold deviceReadPage
    rw [if_pos (by
      rw [show pidPagenum 3 * (c3O2m hcf ts id pid).pageSize = 1536
          from rfl,
        show (c3O2m hcf ts id pid).pageSize = 512 from rfl,
        show (c3O2m hcf ts id pid).dev.size = 4096 from rfl]
      omega)]
    rfl
  have hget : cacheGet (c3O2 hcf ts id pid) 3
      = .ok (1, c3O3 hcf ts id pid) := by
    rw [cacheGet_miss_eq (c3O2 hcf ts id pid) 3 1 (c3O2m hcf ts id pid)
      (fun i => (c3S4 hcf ts id pid).dev.content (1536 + i)) rfl hnr
      (by rw [show ((c3O2m hcf ts id pid).cache.lru 1).dirty = false
        from rfl]; decide)
      hread]
    rfl
  rw [hget]
  dsimp only
  have hipp : rpIdsPerPage (c3O2 hcf ts id pid).root1 = 64 := by
    unfold rpIdsPerPage
    norm_num [show (c3O2 hcf ts id pid).root1.pageSize = 512 from rfl]
  rw [show (c3O2 hcf ts id pid).root1.depth = 3 from rfl, hipp,
    show (64 : Nat) ^ (3 - 1) = 4096 from by norm_num]
  have hnext1 : pageU64 (slotPage (c3O3 hcf ts id pid) 1)
      (lidPagenum id / 4096 * 8) = 4 := by
    rw [show slotPage (c3O3 hcf ts id pid) 1
      = (fun i => (c3S4 hcf ts id pid).dev.content (1536 + i)) from rfl,
      pageU64_congr _ (c3Node2 id) (lidPagenum id / 4096 * 8) ?hpt]
    · unfold c3Node2
      exact pageU64_set_self _ _ _ (by norm_num)
    case hpt =>
      intro j hj1 hj2
      have hj512 : j < 512 := by omega
      show (c3S4 hcf ts id pid).dev.content (1536 + j) = _
      rw [show (c3S4 hcf ts id pid).dev.content
        = (c3DevF hcf ts id pid).content from rfl]
      show (if 0 ≤ 1536 + j ∧ 1536 + j < 0 + 512
        then rootBlockPage hcf (c3Root2 ts) 512 (1536 + j - 0)
        else (c3DevE hcf id pid).content (1536 + j)) = _
      rw [if_neg (by omega)]
      show (if 1536 ≤ 1536 + j ∧ 1536 + j < 1536 + 512
        then c3Node2 id (1536 + j - 1536)
        else (c3DevD hcf id pid).content (1536 + j)) = _
      rw [if_pos (by omega), show 1536 + j - 1536 = j from by omega]
  have hnr2 : cacheNewRef (c3O4 hcf ts id pid)
      = .ok (1, c3O4e hcf ts id pid) := by
    unfold cacheNewRef
    rw [show (c3O4 hcf ts id pid).cache.clock = 1 from rfl,
      show (c3O4 hcf ts id pid).cache.numRefs = 262144 from rfl,
      cacheNewRefLoop_evict 1 262144 (c3O4 hcf ts id pid)
        (c3O4 hcf ts id pid) 1 rfl
        (by rw [show ((c3O4 hcf ts id pid).cache.lru 1).pid = 3 from rfl]
            decide)
        (refFlush_clean_eq _ 1 (by
          rw [show ((c3O4 hcf ts id pid).cache.lru 1).dirty = false
            from rfl]
          decide))]
    rfl
  have hread2 : deviceReadPage (c3O4e hcf ts id pid).dev
      (c3O4e hcf ts id pid).pageSize
      (pidPagenum 4 * (c3O4e hcf ts id pid).pageSize)
      = .ok (fun i => (c3S4 hcf ts id pid).dev.content (2048 + i)) := by
    unfold deviceReadPage
    rw [if_pos (by
      rw [show pidPagenum 4 * (c3O4e hcf ts id pid).pageSize = 2048
          from rfl,
        show (c3O4e hcf ts id pid).pageSize = 512 from rfl,
        show (c3O4e hcf ts id pid).dev.size = 4096 from rfl]
      omega)]
    rfl
  have hget2 : cacheGet (c3O4 hcf ts id pid) 4
      = .ok (1, c3O5 hcf ts id pid) := by
    rw [cacheGet_miss_eq (c3O4 hcf ts id pid) 4 1 (c3O4e hcf ts id pid)
      (fun i => (c3S4 hcf ts id pid).dev.content (2048 + i)) rfl hnr2
      (by rw [show ((c3O4e hcf ts id pid).cache.lru 1).dirty = false
        from rfl]; decide)
      hread2]
    rfl
  have eg1 : ptGetLoop 64 3 (c3O3 hcf ts id pid) 4096 (lidPagenum id) 1
      = ptGetLoop 64 2 (c3O5 hcf ts id pid) 64 (lidPagenum id % 4096) 1 :=
    ptGetLoop_step 64 1 (c3O3 hcf ts id pid) 4096 (lidPagenum id) 1 4
      hnext1 (by decide) 1 (c3O5 hcf ts id pid) hget2
  have hnext2 : pageU64 (slotPage (c3O5 hcf ts id pid) 1)
      (lidPagenum id % 4096 / 64 * 8) = 5 := by
    rw [show slotPage (c3O5 hcf ts id pid) 1
      = (fun i => (c3S4 hcf ts id pid).dev.content (2048 + i)) from rfl,
      pageU64_congr _ (c3Mid id) (lidPagenum id % 4096 / 64 * 8) ?hpt]
    · unfold c3Mid
      exact pageU64_set_self _ _ _ (by norm_num)
    case hpt =>
      intro j hj1 hj2
      have hj512 : j < 512 := by omega
      show (c3S4 hcf ts id pid).dev.content (2048 + j) = _
      rw [show (c3S4 hcf ts id pid).dev.content
        = (c3DevF hcf ts id pid).content from rfl]
      show (if 0 ≤ 2048 + j ∧ 2048 + j < 0 + 512
        then rootBlockPage hcf (c3Root2 ts) 512 (2048 + j - 0)
        else (c3DevE hcf id pid).content (2048 + j)) = _
      rw [if_neg (by omega)]
      show (if 1536 ≤ 2048 + j ∧ 2048 + j < 1536 + 512
        then c3Node2 id (2048 + j - 1536)
        else (c3DevD hcf id pid).content (2048 + j)) = _
      rw [if_neg (by omega)]
      show (if 2048 ≤ 2048 + j ∧ 2048 + j < 2048 + 512
        then c3Mid id (2048 + j - 2048)
        else (c3DevC hcf id pid).content (2048 + j)) = _
      rw [if_pos (by omega), show 2048 + j - 2048 = j from by omega]
  have hnr3 : cacheNewRef (c3O6 hcf ts id pid)
      = .ok (1, c3O6e hcf ts id pid) := by
    unfold cacheNewRef
    rw [show (c3O6 hcf ts id pid).cache.clock = 1 from rfl,
      show (c3O6 hcf ts id pid).cache.numRefs = 262144 from rfl,
      cacheNewRefLoop_evict 1 262144 (c3O6 hcf ts id pid)
        (c3O6 hcf ts id pid) 1 rfl
        (by rw [show ((c3O6 hcf ts id pid).cache.lru 1).pid = 4 from rfl]
            decide)
        (refFlush_clean_eq _ 1 (by
          rw [show ((c3O6 hcf ts id pid).cache.lru 1).dirty = false
            from rfl]
          decide))]
    rfl
  have hread3 : deviceReadPage (c3O6e hcf ts id pid).dev
      (c3O6e hcf ts id pid).pageSize
      (pidPagenum 5 * (c3O6e hcf ts id pid).pageSize)
      = .ok (fun i => (c3S4 hcf ts id pid).dev.content (2560 + i)) := by
    unfold deviceReadPage
    rw [if_pos (by
      rw [show pidPagenum 5 * (c3O6e hcf ts id pid).pageSize = 2560
          from rfl,
        show (c3O6e hcf ts id pid).pageSize = 512 from rfl,
        show (c3O6e hcf ts id pid).dev.size = 4096 from rfl]
      omega)]
    rfl
  have hget3 : cacheGet (c3O6 hcf ts id pid) 5
      = .ok (1, c3O7 hcf ts id pid) := by
    rw [cacheGet_miss_eq (c3O6 hcf ts id pid) 5 1 (c3O6e hcf ts id pid)
      (fun i => (c3S4 hcf ts id pid).dev.content (2560 + i)) rfl hnr3
      (by rw [show ((c3O6e hcf ts id pid).cache.lru 1).dirty = false
        from rfl]; decide)
      hread3]
    rfl
  have eg2 : ptGetLoop 64 2 (c3O5 hcf ts id pid) 64 (lidPagenum id % 4096) 1
      = ptGetLoop 64 1 (c3O7 hcf ts id pid) 1
          (lidPagenum id % 4096 % 64) 1 :=
    ptGetLoop_step 64 0 (c3O5 hcf ts id pid) 64 (lidPagenum id % 4096) 1 5
      hnext2 (by decide) 1 (c3O7 hcf ts id pid) hget3
  rw [eg1, eg2]
  simp only [ptGetLoop]
  unfold ptGetLeaf
  dsimp only
  rw [show slotPage (c3O7 hcf ts id pid) 1
    = (fun i => (c3S4 hcf ts id pid).dev.content (2560 + i)) from rfl]
  have hv : pageU64 (fun i => (c3S4 hcf ts id pid).dev.content (2560 + i))
      (lidPagenum id % 4096 % 64 * 8) = pid := by
    rw [pageU64_congr _ (c3Leaf id pid) (lidPagenum id % 4096 % 64 * 8) ?hpt]
    · unfold c3Leaf
      exact pageU64_set_self _ _ _ hpid
    case hpt =>
      intro j hj1 hj2
      have hj512 : j < 512 := by omega
      show (c3S4 hcf ts id pid).dev.content (2560 + j) = _
      rw [show (c3S4 hcf ts id pid).dev.content
        = (c3DevF hcf ts id pid).content from rfl]
      show (if 0 ≤ 2560 + j ∧ 2560 + j < 0 + 512
        then rootBlockPage hcf (c3Root2 ts) 512 (2560 + j - 0)
        else (c3DevE hcf id pid).content (2560 + j)) = _
      rw [if_neg (by omega)]
      show (if 1536 ≤ 2560 + j ∧ 2560 + j < 1536 + 512
        then c3Node2 id (2560 + j - 1536)
        else (c3DevD hcf id pid).content (2560 + j)) = _
      rw [if_neg (by omega)]
      show (if 2048 ≤ 2560 + j ∧ 2560 + j < 2048 + 512
        then c3Mid id (2560 + j - 2048)
        else (c3DevC hcf id pid).content (2560 + j)) = _
      rw [if_neg (by omega)]
      show (if 2560 ≤ 2560 + j ∧ 2560 + j < 2560 + 512
        then c3Leaf id pid (2560 + j - 2560)
        else (c3DevB hcf).content (2560 + j)) = _
      rw [if_pos (by omega), show 2560 + j - 2560 = j from by omega]
  rw [hv, if_neg hpn]

/-- C1: on a freshly created DB (page size 512 on a zeroed 4096-byte
device), `PageTable.set(id, pid)` in a read-write transaction followed by
`commit` makes `PageTable.get(id)` in a subsequent transaction return
`pid`; the same holds after closing and reopening the device; and both
hold also for ids whose pagenum forces the page-table depth to grow to 2
or 3 levels, i.e. for every pagenum up to perPage³ - 1 = 262143 (with a
valid physical ID: pagenum part non-zero, value within 64 bits). -/
theorem pagetable_set_commit_get (hcf : Block → Block)
    (hhcf : ∀ b : Block, (hcf b).length = b.length)
    (ts id pid : Nat) (hts : ts < 2 ^ 64)
    (hid : lidPagenum id < 262144)
    (hpid : pid < 2 ^ 64) (hpn : pidPagenum pid ≠ 0) :
    ∃ sysC sysW trS sysS sysK sysR sysA sysO sysQ sysB,
      dbCreate hcf 0 512 c1Dev = .ok sysC ∧
      newTransaction sysC true = .ok (⟨true, []⟩, sysW) ∧
      ptSet sysW ⟨true, []⟩ id pid = .ok (trS, sysS) ∧
      ptCommit hcf ts sysS trS = .ok sysK ∧
      newTransaction sysK false = .ok (⟨false, []⟩, sysR) ∧
      ptGet sysR id = .ok (pid, sysA) ∧
      dbOpen hcf 512 sysK.dev = .ok sysO ∧
      newTransaction sysO false = .ok (⟨false, []⟩, sysQ) ∧
      ptGet sysQ id = .ok (pid, sysB) := by
  by_cases hc1 : lidPagenum id < 64
  · obtain ⟨sA, hA⟩ := c1Get1_ok hcf ts id pid hc1 hpid hpn
    obtain ⟨sB, hB⟩ := c1GetR1_ok hcf ts id pid hc1 hpid hpn
    exact ⟨c1L hcf, c1S2 hcf, ⟨true, [(2, 1)]⟩, c1S3 hcf id pid,
      c1S4 hcf ts id pid, c1S5 hcf ts id pid, sA, c1O1 hcf ts id pid,
      c1O2 hcf ts id pid, sB,
      c1Create_ok hcf, c1S2_ok hcf, c1Set1_ok hcf id pid hc1,
      c1Commit_ok hcf ts id pid, c1S5_ok hcf ts id pid, hA,
      c1Open_ok hcf hhcf ts id pid hts, c1O2_ok hcf ts id pid, hB⟩
  · by_cases hc2 : lidPagenum id < 4096
    · have h1 : 64 ≤ lidPagenum id := by omega
      obtain ⟨sA, hA⟩ := c2Get_ok hcf ts id pid h1 hc2 hpid hpn
      obtain ⟨sB, hB⟩ := c2GetR_ok hcf ts id pid h1 hc2 hpid hpn
      exact ⟨c1L hcf, c1S2 hcf, ⟨true, [(3, 0), (2, 0)]⟩, c2S3 hcf id pid,
        c2S4 hcf ts id pid, c2S5 hcf ts id pid, sA, c2O1 hcf ts id pid,
        c2O2 hcf ts id pid, sB,
        c1Create_ok hcf, c1S2_ok hcf, c2Set_ok hcf id pid h1 hc2,
        c2Commit_ok hcf ts id pid, c2S5_ok hcf ts id pid, hA,
        c2Open_ok hcf hhcf ts id pid hts, c2O2_ok hcf ts id pid, hB⟩
    · have h1 : 4096 ≤ lidPagenum id := by omega
      obtain ⟨sA, hA⟩ := c3Get_ok hcf ts id pid h1 hid hpid hpn
      obtain ⟨sB, hB⟩ := c3GetR_ok hcf ts id pid h1 hid hpid hpn
      exact ⟨c1L hcf, c1S2 hcf, ⟨true, [(5, 0), (4, 0), (3, 0), (2, 0)]⟩,
        c3S3 hcf id pid, c3S4 hcf ts id pid, c3S5 hcf ts id pid, sA,
        c3O1 hcf ts id pid, c3O2 hcf ts id pid, sB,
        c1Create_ok hcf, c1S2_ok hcf, c3Set_ok hcf id pid h1 hid,
        c3Commit_ok hcf ts id pid, c3S5_ok hcf ts id pid, hA,
        c3Open_ok hcf hhcf ts id pid hts, c3O2_ok hcf ts id pid, hB⟩

/-- The C1 round trip evaluated at a concrete input: the identity
compression function, timestamp 0, logical ID 5, physical ID 7. -/
theorem pagetable_set_commit_get_witness :
    ∃ sysC sysW trS sysS sysK sysR sysA sysO sysQ sysB,
      dbCreate (fun b => b) 0 512 c1Dev = .ok sysC ∧
      newTransaction sysC true = .ok (⟨true, []⟩, sysW) ∧
      ptSet sysW ⟨true, []⟩ 5 7 = .ok (trS, sysS) ∧
      ptCommit (fun b => b) 0 sysS trS = .ok sysK ∧
      newTransaction sysK false = .ok (⟨false, []⟩, sysR) ∧
      ptGet sysR 5 = .ok (7, sysA) ∧
      dbOpen (fun b => b) 512 sysK.dev = .ok sysO ∧
      newTransaction sysO false = .ok (⟨false, []⟩, sysQ) ∧
      ptGet sysQ 5 = .ok (7, sysB) :=
  pagetable_set_commit_get (fun b => b) (fun _ => rfl) 0 5 7
    (by decide) (by decide) (by decide) (by decide)

theorem setSlot_lru_self (c : Cache) (i : Nat) (r : PageRef) :
    (setSlot c i r).lru i = r := by
  simp [setSlot]

theorem setSlot_lru_other (c : Cache) (i j : Nat) (r : PageRef) (h : ¬ j = i) :
    (setSlot c i r).lru j = c.lru j := by
  simp [setSlot, h]

/-- Flushing never changes device bytes outside the slot's page region. -/
theorem refFlush_content_lt (sys : Sys) (slot : Nat) (sys1 : Sys)
    (h : refFlush sys slot = .ok sys1) (a : Nat)
    (hout : ¬ (pidPagenum (sys.cache.lru slot).pid * sys.pageSize ≤ a
      ∧ a < pidPagenum (sys.cache.lru slot).pid * sys.pageSize
        + sys.pageSize)) :
    sys1.dev.content a = sys.dev.content a := by
  unfold refFlush at h
  by_cases hd : (sys.cache.lru slot).dirty = true
  · rw [if_pos hd] at h
    rcases hw : deviceWritePage sys.dev sys.pageSize
        (pidPagenum (sys.cache.lru slot).pid * sys.pageSize)
        (sys.cache.lru slot).data with e | d
    · rw [hw] at h
      exact absurd h (by simp)
    · rw [hw] at h
      cases Except.ok.inj h
      unfold deviceWritePage at hw
      split at hw
      · cases Except.ok.inj hw
        show (if _ ∧ _ then _ else sys.dev.content a) = sys.dev.content a
        rw [if_neg hout]
      · exact absurd hw (by simp)
  · rw [if_neg hd] at h
    cases Except.ok.inj h
    rfl

/-- Flushing a dirty slot copies its page into its device region. -/
theorem refFlush_content_in (sys : Sys) (slot : Nat) (sys1 : Sys)
    (h : refFlush sys slot = .ok sys1) (a : Nat)
    (hd : (sys.cache.lru slot).dirty = true)
    (hin : pidPagenum (sys.cache.lru slot).pid * sys.pageSize ≤ a
      ∧ a < pidPagenum (sys.cache.lru slot).pid * sys.pageSize
        + sys.pageSize) :
    sys1.dev.content a = (sys.cache.lru slot).data
      (a - pidPagenum (sys.cache.lru slot).pid * sys.pageSize) := by
  unfold refFlush at h
  rw [if_pos hd] at h
  rcases hw : deviceWritePage sys.dev sys.pageSize
      (pidPagenum (sys.cache.lru slot).pid * sys.pageSize)
      (sys.cache.lru slot).data with e | d
  · rw [hw] at h
    exact absurd h (by simp)
  · rw [hw] at h
    cases Except.ok.inj h
    unfold deviceWritePage at hw
    split at hw
    · cases Except.ok.inj hw
      show (if _ ∧ _ then _ else _) = _
      rw [if_pos hin]
    · exact absurd hw (by simp)

/-- Flushing does not change any slot's pid or page data. -/
theorem refFlush_lru (sys : Sys) (slot : Nat) (sys1 : Sys)
    (h : refFlush sys slot = .ok sys1) (i : Nat) :
    (sys1.cache.lru i).pid = (sys.cache.lru i).pid
    ∧ (sys1.cache.lru i).data = (sys.cache.lru i).data := by
  unfold refFlush at h
  by_cases hd : (sys.cache.lru slot).dirty = true
  · rw [if_pos hd] at h
    rcases hw : deviceWritePage sys.dev sys.pageSize
        (pidPagenum (sys.cache.lru slot).pid * sys.pageSize)
        (sys.cache.lru slot).data with e | d
    · rw [hw] at h
      exact absurd h (by simp)
    · rw [hw] at h
      cases Except.ok.inj h
      show ((setSlot sys.cache slot _).lru i).pid = _
        ∧ ((setSlot sys.cache slot _).lru i).data = _
      by_cases hi : i = slot
      · subst hi
        rw [setSlot_lru_self]
        exact ⟨rfl, rfl⟩
      · rw [setSlot_lru_other _ _ _ _ hi]
        exact ⟨rfl, rfl⟩
  · rw [if_neg hd] at h
    cases Except.ok.inj h
    exact ⟨rfl, rfl⟩

/-- Flushing keeps the device size. -/
theorem refFlush_devsize (sys : Sys) (slot : Nat) (sys1 : Sys)
    (h : refFlush sys slot = .ok sys1) : sys1.dev.size = sys.dev.size := by
  unfold refFlush at h
  by_cases hd : (sys.cache.lru slot).dirty = true
  · rw [if_pos hd] at h
    rcases hw : deviceWritePage sys.dev sys.pageSize
        (pidPagenum (sys.cache.lru slot).pid * sys.pageSize)
        (sys.cache.lru slot).data with e | d
    · rw [hw] at h
      exact absurd h (by simp)
    · rw [hw] at h
      cases Except.ok.inj h
      unfold deviceWritePage at hw
      split at hw
      · cases Except.ok.inj hw
        rfl
      · exact absurd hw (by simp)
  · rw [if_neg hd] at h
    cases Except.ok.inj h
    rfl

/-! ### C3: single base transaction (Busy) -/

theorem refFlush_frame (sys : Sys) (slot : Nat) (sys1 : Sys)
    (h : refFlush sys slot = .ok sys1) :
    sys1.root0 = sys.root0 ∧ sys1.root1 = sys.root1 ∧
    sys1.pageSize = sys.pageSize ∧ sys1.rootSlot = sys.rootSlot := by
  unfold refFlush at h
  by_cases hd : (sys.cache.lru slot).dirty = true
  · rw [if_pos hd] at h
    rcases hw : deviceWritePage sys.dev sys.pageSize
        (pidPagenum (sys.cache.lru slot).pid * sys.pageSize)
        (sys.cache.lru slot).data with e | d
    · rw [hw] at h; exact absurd h (by simp)
    · rw [hw] at h
      have he := Except.ok.inj h
      rw [← he]
      exact ⟨rfl, rfl, rfl, rfl⟩
  · rw [if_neg hd] at h
    have he := Except.ok.inj h
    rw [← he]
    exact ⟨rfl, rfl, rfl, rfl⟩

theorem cacheFlushList_frame :
    ∀ (l : List (Nat × Nat)) (sys sys1 : Sys),
    cacheFlushList sys l = .ok sys1 →
    sys1.root0 = sys.root0 ∧ sys1.root1 = sys.root1 ∧
    sys1.pageSize = sys.pageSize ∧ sys1.rootSlot = sys.rootSlot := by
  intro l
  induction l with
  | nil =>
    intro sys sys1 h
    simp only [cacheFlushList] at h
    have he := Except.ok.inj h
    rw [← he]
    exact ⟨rfl, rfl, rfl, rfl⟩
  | cons e rest ih =>
    intro sys sys1 h
    simp only [cacheFlushList] at h
    rcases hf : refFlush sys e.2 with err | sysm
    · rw [hf] at h; exact absurd h (by simp)
    · rw [hf] at h
      obtain ⟨h1, h2, h3, h4⟩ := refFlush_frame sys e.2 sysm hf
      obtain ⟨g1, g2, g3, g4⟩ := ih sysm sys1 h
      exact ⟨g1.trans h1, g2.trans h2, g3.trans h3, g4.trans h4⟩

/-- After a successful commit the generations are back in the idle
relation `root1.generation ≤ root0.generation`. -/
theorem ptCommit_idle (hcf : Block → Block) (ts : Nat) (sys : Sys) (tr : Tr)
    (sys2 : Sys) (h : ptCommit hcf ts sys tr = .ok sys2) :
    sys2.root1.generation ≤ sys2.root0.generation := by
  simp only [ptCommit] at h
  split at h
  · cases Except.ok.inj h
    exact Nat.le_refl _
  · split at h
    · exact absurd h (by simp)
    · cases Except.ok.inj h
      exact Nat.le_refl _

/-- `newTransaction` succeeds from any idle state. -/
theorem newTransaction_ok (sys : Sys) (rw : Bool)
    (h : sys.root1.generation ≤ sys.root0.generation) :
    ∃ tr sys1, newTransaction sys rw = .ok (tr, sys1) := by
  refine ⟨⟨rw, []⟩,
    { sys with root1 :=
      { sys.root0 with generation := sys.root0.generation + 1 } }, ?_⟩
  unfold newTransaction
  rw [if_neg (by omega)]

/-- C3: while a base transaction is outstanding — begun and neither
committed nor aborted — a second `newTransaction` fails with Busy, detected
by `root1.Generation > root0.Generation`; after the outstanding
transaction's successful Commit, or its Abort, a new base transaction can
be started again. -/
theorem base_transaction_busy (hcf : Block → Block) (ts : Nat) (sys : Sys)
    (rw rw2 rw3 : Bool)
    (hidle : sys.root1.generation ≤ sys.root0.generation) :
    ∃ tr sys1, newTransaction sys rw = .ok (tr, sys1)
    ∧ sys1.root1.generation > sys1.root0.generation
    ∧ newTransaction sys1 rw2 = .error .busy
    ∧ (∀ sys2, ptCommit hcf ts sys1 tr = .ok sys2 →
        ∃ tr3 sys3, newTransaction sys2 rw3 = .ok (tr3, sys3))
    ∧ (∃ tr3 sys3, newTransaction (ptAbort sys1) rw3 = .ok (tr3, sys3)) := by
  refine ⟨⟨rw, []⟩,
    { sys with root1 :=
      { sys.root0 with generation := sys.root0.generation + 1 } }, ?_, ?_, ?_, ?_, ?_⟩
  · unfold newTransaction
    rw [if_neg (by omega)]
  · show sys.root0.generation + 1 > sys.root0.generation
    omega
  · unfold newTransaction
    rw [if_pos (by show sys.root0.generation + 1 > sys.root0.generation; omega)]
  · intro sys2 hc
    exact newTransaction_ok sys2 rw3 (ptCommit_idle hcf ts _ _ _ hc)
  · exact newTransaction_ok _ rw3 (Nat.le_refl _)

/-! ### C10: reference counting of `NewPage` -/

theorem refFlush_refcount (sys : Sys) (slot : Nat) (sys1 : Sys)
    (h : refFlush sys slot = .ok sys1) (i : Nat) :
    (sys1.cache.lru i).refcount = (sys.cache.lru i).refcount := by
  unfold refFlush at h
  by_cases hd : (sys.cache.lru slot).dirty = true
  · rw [if_pos hd] at h
    rcases hw : deviceWritePage sys.dev sys.pageSize
        (pidPagenum (sys.cache.lru slot).pid * sys.pageSize)
        (sys.cache.lru slot).data with e | d
    · rw [hw] at h; exact absurd h (by simp)
    · rw [hw] at h
      cases Except.ok.inj h
      show ((setSlot sys.cache slot _).lru i).refcount = _
      by_cases hi : i = slot
      · subst hi
        rw [setSlot_lru_self]
      · rw [setSlot_lru_other _ _ _ _ hi]
  · rw [if_neg hd] at h
    cases Except.ok.inj h
    rfl

/-- The clock scan only hands out slots whose refcount is 0 (a slot with a
live reference is never selected for eviction), and the slot still has
refcount 0 in the state the scan returns. -/
theorem cacheNewRefLoop_refcount0 :
    ∀ (fuel start : Nat) (sys : Sys) (cur slot : Nat) (sys1 : Sys),
    cacheNewRefLoop start fuel sys cur = .ok (slot, sys1) →
    (sys.cache.lru slot).refcount = 0 ∧ (sys1.cache.lru slot).refcount = 0 := by
  intro fuel
  induction fuel with
  | zero =>
    intro start sys cur slot sys1 h
    exact absurd h (by simp [cacheNewRefLoop])
  | succ n ih =>
    intro start sys cur slot sys1 h
    simp only [cacheNewRefLoop] at h
    by_cases h0 : (sys.cache.lru cur).refcount = 0
    · rw [if_pos h0] at h
      by_cases hp : (sys.cache.lru cur).pid ≠ 0
      · rw [if_pos hp] at h
        rcases hf : refFlush sys cur with e | sysf
        · rw [hf] at h; exact absurd h (by simp)
        · rw [hf] at h
          obtain ⟨h1, h2⟩ := Prod.mk.inj (Except.ok.inj h)
          cases h1
          refine ⟨h0, ?_⟩
          rw [← h2]
          show (sysf.cache.lru cur).refcount = 0
          rw [refFlush_refcount sys cur sysf hf cur]
          exact h0
      · rw [if_neg hp] at h
        obtain ⟨h1, h2⟩ := Prod.mk.inj (Except.ok.inj h)
        cases h1
        refine ⟨h0, ?_⟩
        rw [← h2]
        exact h0
    · rw [if_neg h0] at h
      by_cases hw : (cur + 1) % sys.cache.numRefs = start
      · rw [if_pos hw] at h; exact absurd h (by simp)
      · rw [if_neg hw] at h
        exact ih start sys ((cur + 1) % sys.cache.numRefs) slot sys1 h

/-- A cache miss installs the page with refcount exactly 1. -/
theorem cacheGet_miss_refcount (sys : Sys) (pid slot : Nat) (sys2 : Sys)
    (hmiss : cacheFindSlot sys.cache pid = none)
    (h : cacheGet sys pid = .ok (slot, sys2)) :
    (sys2.cache.lru slot).refcount = 1 := by
  unfold cacheGet at h
  rw [hmiss] at h
  dsimp only at h
  rcases hn : cacheNewRef sys with e | p
  · rw [hn] at h; exact absurd h (by simp)
  · obtain ⟨nslot, sysn⟩ := p
    rw [hn] at h
    dsimp only at h
    by_cases hd : (sysn.cache.lru nslot).dirty = true
    · rw [if_pos hd] at h; exact absurd h (by simp)
    · rw [if_neg hd] at h
      rcases hr : deviceReadPage sysn.dev sysn.pageSize
          (pidPagenum pid * sysn.pageSize) with e | pg
      · rw [hr] at h; exact absurd h (by simp)
      · rw [hr] at h
        dsimp only at h
        obtain ⟨h1, h2⟩ := Prod.mk.inj (Except.ok.inj h)
        cases h1
        have h0 : (sysn.cache.lru slot).refcount = 0 := by
          unfold cacheNewRef at hn
          exact (cacheNewRefLoop_refcount0 _ _ _ _ _ _ hn).2
        rw [← h2]
        show ((setSlot sysn.cache slot
          { pid := pid, data := pg,
            refcount := (sysn.cache.lru slot).refcount + 1,
            dirty := false }).lru slot).refcount = 1
        rw [setSlot_lru_self]
        show (sysn.cache.lru slot).refcount + 1 = 1
        omega

/-- The internal page-table `set` of `NewPage` leaves the freshly allocated
physical page uncached (the new pid is above every pid the tree update
touches). -/
def setKeepsUncached (sys : Sys) (tr : Tr) : Bool :=
  match ptSet (allocPhysicalID (allocLogicalID sys).2).2 tr
      (allocLogicalID sys).1 (allocPhysicalID (allocLogicalID sys).2).1 with
  | .ok (_, sys1) =>
    (cacheFindSlot sys1.cache (allocPhysicalID (allocLogicalID sys).2).1).isNone
  | .error _ => true

/-- C10: the slot returned by a successful `BaseTransaction.NewPage` has
refcount exactly 2 — `cache.Get` installs the missing page with refcount 1
and `NewPage` increments once more — so one `Release` by the caller leaves
refcount 1; and the clock scan never selects a slot whose refcount is
nonzero, so such a slot is never evicted. -/
theorem newPage_refcount (sys : Sys) (tr : Tr) (htr : tr.rw = true)
    (hfresh : setKeepsUncached sys tr = true) :
    (match trNewPage sys tr with
     | .ok (slot, _, _, sys2) =>
       (sys2.cache.lru slot).refcount = 2
       ∧ ((refRelease sys2 slot).cache.lru slot).refcount = 1
     | .error _ => True)
    ∧ (∀ s sl s2, cacheNewRef s = .ok (sl, s2) →
        (s.cache.lru sl).refcount = 0) := by
  constructor
  · rcases hnp : trNewPage sys tr with e | r
    · trivial
    · obtain ⟨slot, id, tr2, sys2⟩ := r
      unfold trNewPage at hnp
      rw [if_neg (by simp [htr])] at hnp
      unfold setKeepsUncached at hfresh
      rcases hset : ptSet (allocPhysicalID (allocLogicalID sys).2).2 tr
          (allocLogicalID sys).1 (allocPhysicalID (allocLogicalID sys).2).1
        with e | p
      · rw [hset] at hnp; exact absurd hnp (by simp)
      · obtain ⟨tr1, sys1⟩ := p
        rw [hset] at hnp hfresh
        dsimp only at hnp hfresh
        have hmiss : cacheFindSlot sys1.cache
            (allocPhysicalID (allocLogicalID sys).2).1 = none := by
          simpa [Option.isNone_iff_eq_none] using hfresh
        rcases hget : cacheGet sys1 (allocPhysicalID (allocLogicalID sys).2).1
          with e | q
        · rw [hget] at hnp; exact absurd hnp (by simp)
        · obtain ⟨gslot, sysg⟩ := q
          rw [hget] at hnp
          dsimp only at hnp
          have hrc := cacheGet_miss_refcount sys1 _ gslot sysg hmiss hget
          obtain ⟨h1, h2⟩ := Prod.mk.inj (Except.ok.inj hnp)
          obtain ⟨h3, h4⟩ := Prod.mk.inj h2
          obtain ⟨h5, h6⟩ := Prod.mk.inj h4
          cases h1
          constructor
          · rw [← h6]
            show (((setSlot sysg.cache slot
              { sysg.cache.lru slot with
                refcount := (sysg.cache.lru slot).refcount + 1 }).lru
                  slot)).refcount = 2
            rw [setSlot_lru_self]
            show (sysg.cache.lru slot).refcount + 1 = 2
            omega
          · rw [← h6]
            unfold refRelease
            rw [setSlot_lru_self]
            show ((setSlot sysg.cache slot
              { sysg.cache.lru slot with
                refcount := (sysg.cache.lru slot).refcount + 1 }).lru
                  slot).refcount - 1 = 1
            rw [setSlot_lru_self]
            show (sysg.cache.lru slot).refcount + 1 - 1 = 1
            omega
  · intro s sl s2 h
    unfold cacheNewRef at h
    exact (cacheNewRefLoop_refcount0 _ _ _ _ _ _ h).1

/-- A freshly created in-memory DB for concrete runs. -/
def sysW : Sys :=
  match dbCreate (fun b => b) 0 1024 ⟨8192, fun _ => 0⟩ with
  | .ok s => s
  | .error _ => newSys 1024 ⟨8192, fun _ => 0⟩

/-- A read-write base transaction on `sysW`. -/
def trW : Tr × Sys :=
  match newTransaction sysW true with
  | .ok p => p
  | .error _ => (⟨true, []⟩, sysW)

/-- Witness for C10 on the fresh in-memory DB. -/
theorem newPage_refcount_witness :
    (match trNewPage trW.2 trW.1 with
     | .ok (slot, _, _, sys2) =>
       (sys2.cache.lru slot).refcount = 2
       ∧ ((refRelease sys2 slot).cache.lru slot).refcount = 1
     | .error _ => True)
    ∧ (∀ s sl s2, cacheNewRef s = .ok (sl, s2) →
        (s.cache.lru sl).refcount = 0) :=
  newPage_refcount trW.2 trW.1 (by decide) (by decide)

/-! ### C8: `NewPage` does not zero-fill -/

/-- A fresh DB on a device whose bytes beyond the first two pages hold 7. -/
def sysC : Sys :=
  match dbCreate (fun b => b) 0 1024 ⟨8192, fun a => if a < 2048 then 0 else 7⟩
    with
  | .ok s => s
  | .error _ => newSys 1024 ⟨8192, fun _ => 0⟩

/-- A read-write base transaction on `sysC`. -/
def trC : Tr × Sys :=
  match newTransaction sysC true with
  | .ok p => p
  | .error _ => (⟨true, []⟩, sysC)

/-- C8: `BaseTransaction.NewPage` obtains its page through `cache.Get`,
which on a miss reads the page's bytes from the device — not through
`Cache.New(pid, nil)` with a zero-filled buffer.  On a device holding byte
7 in the region of the newly allocated physical page, the buffer returned
by the first `NewPage` of a fresh DB starts with 7, not 0. -/
theorem newPage_not_zero_filled :
    (match trNewPage trC.2 trC.1 with
     | .ok (slot, _, _, sys2) => slotPage sys2 slot 0
     | .error _ => 0) = 7 := by decide

/-- Witness for C3 on a freshly created in-memory DB. -/
theorem base_transaction_busy_witness :
    ∃ tr sys1, newTransaction
        (match dbCreate (fun b => b) 0 1024 ⟨8192, fun _ => 0⟩ with
          | .ok s => s
          | .error _ => newSys 1024 ⟨8192, fun _ => 0⟩) true = .ok (tr, sys1)
    ∧ sys1.root1.generation > sys1.root0.generation
    ∧ newTransaction sys1 false = .error .busy
    ∧ (∀ sys2, ptCommit (fun b => b) 0 sys1 tr = .ok sys2 →
        ∃ tr3 sys3, newTransaction sys2 true = .ok (tr3, sys3))
    ∧ (∃ tr3 sys3, newTransaction (ptAbort sys1) true = .ok (tr3, sys3)) :=
  base_transaction_busy (fun b => b) 0 _ true false true (by decide)

end Shades
